import Mathlib

/-!
Shallow embedding of `src/autodoist.py` (RoccoMathijn/autodoist).

Modelling conventions:
  * Calendar dates are modelled as integer day numbers (`Int`); the program
    only ever compares dates for equality and subtracts them in whole days.
    `datetime.today()` is modelled by an integer day `today` together with
    the standing assumption (documented at each use) that the wall clock is
    strictly past midnight, so `(midnight_of d - now).days = d - today - 1`
    and `(now - midnight_of d).days = today - d` (Python `timedelta.days`
    floors).
  * `datetime.strptime(s, args.dateformat)` for the user-configurable format
    is modelled by an abstract `parseDate : String → Option Int` field of the
    configuration; `none` models the `ValueError` the `except:` handlers
    swallow.
  * Python string slicing/searching is modelled by executable helpers over
    `String.data` (`List Char`), mirroring negative-index and clamping
    behaviour where the source relies on it.
  * The Todoist REST objects are modelled with exactly the fields the spec's
    data model lists (§3, §6).  The watermark `date_old` and the transient
    `r_tag` flag piggyback on the item, as in the source.  `item.update`/
    `api.items.update` are modelled as in-place field updates (the external
    mutate capability, out of scope per spec §1).
-/

namespace Autodoist

/-- Whitespace test used by the model of Python's `str.strip`. -/
def isSpaceChar (c : Char) : Bool :=
  c = ' ' || c = '\t' || c = '\n' || c = '\r'

/-- Model of Python `str.strip()` (drop leading and trailing whitespace). -/
def pyStrip (s : String) : String :=
  ⟨((s.data.dropWhile isSpaceChar).reverse.dropWhile isSpaceChar).reverse⟩

/-- Model of Python `s[:n]`. -/
def pyTake (s : String) (n : Nat) : String := ⟨s.data.take n⟩

/-- Model of Python `s[n:]` for `n ≥ 0`. -/
def pyDrop (s : String) (n : Nat) : String := ⟨s.data.drop n⟩

/-- Model of Python `s[a:b]` for `0 ≤ a ≤ b`. -/
def pySlice (s : String) (a b : Nat) : String := ⟨(s.data.take b).drop a⟩

/-- Model of Python `s[:-1]` (drop the final character). -/
def pyDropLast (s : String) : String := ⟨s.data.dropLast⟩

/-- Character count of a string (Python `len`). -/
def pyLen (s : String) : Nat := s.data.length

/-- Model of Python `s[-k:]`: the last `k` characters, except that `k = 0`
yields the whole string (`s[-0:] = s[0:] = s`). -/
def pyTail (s : String) (k : Nat) : String :=
  if k = 0 then s else ⟨s.data.drop (s.data.length - k)⟩

/-- Does `s` start with `p` (Python `str.startswith`)? -/
def pyStarts (s p : String) : Bool := p.data.isPrefixOf s.data

/-- First index at which `pat` occurs in `l`, if any. -/
def findSubAux (pat : List Char) : List Char → Option Nat
  | [] => if pat.isEmpty then some 0 else none
  | c :: rest =>
    if pat.isPrefixOf (c :: rest) then some 0
    else (findSubAux pat rest).map (· + 1)

/-- Last index at which `pat` occurs in `l`, if any. -/
def findSubLastAux (pat : List Char) : List Char → Option Nat
  | [] => if pat.isEmpty then some 0 else none
  | c :: rest =>
    match findSubLastAux pat rest with
    | some n => some (n + 1)
    | none => if pat.isPrefixOf (c :: rest) then some 0 else none

/-- Model of Python `s.find(pat)`: first index of occurrence, `-1` if absent. -/
def pyFind (s pat : String) : Int :=
  match findSubAux pat.data s.data with
  | some n => (n : Int)
  | none => -1

/-- Model of Python `s.rfind(pat)`: last index of occurrence, `-1` if absent. -/
def pyRFind (s pat : String) : Int :=
  match findSubLastAux pat.data s.data with
  | some n => (n : Int)
  | none => -1

/-- Model of Python `int(s)`: optional sign followed by one or more digits
(surrounding whitespace stripped); `none` models the `ValueError`. -/
def pyInt (s : String) : Option Int :=
  let t := (pyStrip s).data
  let core : Option (Int × List Char) :=
    match t with
    | '-' :: r => some (-1, r)
    | '+' :: r => some (1, r)
    | r => some (1, r)
  match core with
  | some (sign, ds) =>
    if ds ≠ [] && ds.all Char.isDigit then
      some (sign * (ds.foldl (fun a c => a * 10 + ((c.toNat : Int) - 48)) 0))
    else none
  | none => none

/-- Index of the first occurrence of `x` in `l`, if present
(Python `list.index`, wrapped in `try`). -/
def listIndex (x : String) : List String → Option Nat
  | [] => none
  | y :: ys => if y = x then some 0 else (listIndex x ys).map (· + 1)

/-! ## Data model (spec §3, §6) -/

/-- Due-date information of an item.  `date` is the due day number. -/
structure Due where
  date : Int
  is_recurring : Bool
deriving DecidableEq

/-- A Todoist task ("item").  `date_old` is the persisted watermark and
`r_tag` the transient regeneration flag, both carried on the item as in the
source. -/
structure Item where
  id : Int
  parent_id : Option Int
  section_id : Option Int
  project_id : Int
  content : String
  order : Int
  is_completed : Bool
  due : Option Due
  labels : List String
  date_old : Option Int
  r_tag : Bool
deriving DecidableEq

/-- A Todoist section.  The synthetic "no-section" has `id = none`. -/
structure Sec where
  id : Option Int
  project_id : Int
  name : String
  order : Int
deriving DecidableEq

/-- A Todoist project. -/
structure Project where
  id : Int
  name : String
deriving DecidableEq

/-- The configuration surface consumed by the core (`args`).
`end_hour` models `args.end` (a Lean keyword), `parseDate` models
`datetime.strptime (·, args.dateformat)`. -/
structure Args where
  pp_suffix : String
  ss_suffix : String
  ps_suffix : String
  sp_suffix : String
  inbox : Option String
  regeneration : Option Int
  end_hour : Option Int
  hide_future : Int
  parseDate : String → Option Int

/-- The three regeneration label names (`args.regen_label_names`). -/
def regen_label_names : List String :=
  ["Regen_off", "Regen_all", "Regen_all_if_completed"]

/-! ## Type classifier (source `check_name`, lines 180–206) -/

/-- Source `check_name`.  Note that the source computes
`len_suffix = [len(pp), len(ss), len(ps), len(sp)]` but compares the `ps` and
`sp` suffixes against the last `len_suffix[1]` (i.e. `len(ss_suffix)`)
characters of the name (lines 190 and 192); this embedding reproduces that
literally. -/
def check_name (args : Args) (name : String) : Option String :=
  if name = "Inbox" then args.inbox
  else if pyTail name (pyLen args.pp_suffix) = args.pp_suffix then some "parallel"
  else if pyTail name (pyLen args.ss_suffix) = args.ss_suffix then some "sequential"
  else if pyTail name (pyLen args.ss_suffix) = args.ps_suffix then some "p-s"
  else if pyTail name (pyLen args.ss_suffix) = args.sp_suffix then some "s-p"
  else if args.ps_suffix = "/-" ∧ pyTail name 2 = "_-" then some "p-s"
  else if args.sp_suffix = "-/" ∧ pyTail name 2 = "-_" then some "s-p"
  else if args.pp_suffix = "//" ∧ pyTail name 1 = "_" then some "parallel"
  else none

/-- Source `get_type` applied to an object exposing `name` (projects and
sections): the name is stripped and classified. -/
def get_type_of_name (args : Args) (name : String) : Option String :=
  check_name args (pyStrip name)

/-- Source `get_project_type`. -/
def get_project_type (args : Args) (p : Project) : Option String :=
  get_type_of_name args p.name

/-- Source `get_section_type` (the section object is always present in the
traversal: real sections and the synthetic no-section). -/
def get_section_type (args : Args) (s : Sec) : Option String :=
  get_type_of_name args s.name

/-- Source `get_type` applied to an item (no `name`, falls back to
`content`). -/
def get_type_of_item (args : Args) (it : Item) : Option String :=
  check_name args (pyStrip it.content)

/-! ## Ancestor-type walk (source `get_item_type`, lines 253–263)

The source recurses through parent links with no cycle detection; on a cyclic
chain CPython raises `RecursionError` once the interpreter's recursion limit
is exhausted, and the bare `except: pass` in the *caller's* frame swallows
it, leaving that frame's `item_type` at its falsy value.  The `fuel`
parameter models the remaining recursion budget: `fuel = 0` models the
`RecursionError` escaping the current call. -/

def get_item_type (args : Args) : Nat → Item → List Item → Except Unit (Option String)
  | 0, _, _ => .error ()
  | fuel + 1, item, items =>
    let t := get_type_of_item args item
    -- `if not item_type and item.parent_id:`
    match t, item.parent_id with
    | some ty, _ => .ok (some ty)
    | none, none => .ok none
    | none, some pid =>
      match (items.filter (fun p => p.id = pid)).head? with
      | none => .ok none                      -- IndexError, caught by `except: pass`
      | some parent =>
        match get_item_type args fuel parent items with
        | .error _ => .ok none                -- RecursionError from below, caught here
        | .ok pt => .ok pt

/-- CPython's default recursion limit (`sys.getrecursionlimit()`), the budget
the pass effectively runs with. -/
def recursionLimit : Nat := 1000

/-- The value `autodoist_magic` observes for an item's type: the walk's
result, with a toplevel `RecursionError` (impossible for positive fuel)
collapsing the run. -/
def item_type_of (args : Args) (item : Item) (items : List Item) : Option String :=
  match get_item_type args recursionLimit item items with
  | .ok t => t
  | .error _ => none

/-- Spec-side description of the walk (spec §3): the tag of the nearest
ancestor with a non-`none` tag, resolved along parent links, `none` when the
root is reached (or a parent link dangles) without a match.  The explicit
depth bound mirrors the interpreter's recursion budget: a chain deeper than
the budget resolves to `none`.  Written from the spec's words, to be compared
with the source-side `get_item_type`. -/
def nearest_ancestor_tag (args : Args) : Nat → Item → List Item → Option String
  | 0, _, _ => none
  | fuel + 1, item, items =>
    match get_type_of_item args item, item.parent_id with
    | some ty, _ => some ty
    | none, none => none
    | none, some pid =>
      match (items.filter (fun p => p.id = pid)).head? with
      | none => none
      | some parent => nearest_ancestor_tag args fuel parent items

/-! ## Pass state

One poll cycle's in-memory state: the snapshot objects (mutated in place by
the source through `update`) plus the two overview dictionaries accumulated
by `add_label` / `remove_label` (lines 268–293). -/

/-- A consistent snapshot of the hierarchy (source: `api.get_projects()`,
`api.get_sections()`, `api.get_tasks()`). -/
structure Snapshot where
  projects : List Project
  sections : List Sec
  tasks : List Item
deriving DecidableEq

/-- State threaded through one `autodoist_magic` cycle. -/
structure PassState where
  snap : Snapshot
  overview_item_ids : List (Int × Int)
  overview_item_labels : List (Int × List String)
deriving DecidableEq

/-- The task object with a given id (the source holds direct references;
ids are assumed unique, which well-formedness hypotheses make explicit). -/
def lookupTask (st : PassState) (id : Int) : Option Item :=
  (st.snap.tasks.filter (fun t => t.id = id)).head?

/-- In-place mutation of the task with the given id. -/
def updateTask (st : PassState) (id : Int) (f : Item → Item) : PassState :=
  { st with snap := { st.snap with
      tasks := st.snap.tasks.map (fun t => if t.id = id then f t else t) } }

/-- In-place mutation of the project with the given id. -/
def updateProject (st : PassState) (id : Int) (f : Project → Project) : PassState :=
  { st with snap := { st.snap with
      projects := st.snap.projects.map (fun p => if p.id = id then f p else p) } }

/-- In-place mutation of the (real) section with the given id. -/
def updateSection (st : PassState) (id : Int) (f : Sec → Sec) : PassState :=
  { st with snap := { st.snap with
      sections := st.snap.sections.map (fun s => if s.id = some id then f s else s) } }

/-- Association-list bump used for `overview_item_ids[item.id] ± 1`
(`try: += d except: = d`). -/
def bumpOverview (ov : List (Int × Int)) (id : Int) (d : Int) : List (Int × Int) :=
  match ov.lookup id with
  | some v => ov.map (fun p => if p.1 = id then (p.1, v + d) else p)
  | none => ov ++ [(id, d)]

/-- Association-list overwrite used for `overview_item_labels[item.id] = labels`. -/
def setOverviewLabels (ov : List (Int × List String)) (id : Int) (ls : List String) :
    List (Int × List String) :=
  match ov.lookup id with
  | some _ => ov.map (fun p => if p.1 = id then (p.1, ls) else p)
  | none => ov ++ [(id, ls)]

/-- Source `add_label` (lines 268–278): if the label is absent, append it to
the item's label list and record the change in both overview dictionaries. -/
def add_label (st : PassState) (id : Int) (label : String) : PassState :=
  match lookupTask st id with
  | none => st
  | some it =>
    if label ∈ it.labels then st
    else
      let labels := it.labels ++ [label]
      let st := updateTask st id (fun t => { t with labels := labels })
      { st with
        overview_item_ids := bumpOverview st.overview_item_ids id 1
        overview_item_labels := setOverviewLabels st.overview_item_labels id labels }

/-- Source `remove_label` (lines 283–293): if the label is present, remove
its first occurrence and record the change. -/
def remove_label (st : PassState) (id : Int) (label : String) : PassState :=
  match lookupTask st id with
  | none => st
  | some it =>
    if label ∈ it.labels then
      let labels := it.labels.erase label
      let st := updateTask st id (fun t => { t with labels := labels })
      { st with
        overview_item_ids := bumpOverview st.overview_item_ids id (-1)
        overview_item_labels := setOverviewLabels st.overview_item_labels id labels }
    else st

/-! ## Header toggler (source `check_header`, lines 321–353) -/

/-- Source `check_header` on a title string.  Both tests inspect the
*original* string (the local variable is never reassigned); a match strips
the three-character marker from the stored title. -/
def check_header (name : String) : Bool × Bool × String :=
  let header := pyTake name 3 = "** "
  let unheader := pyTake name 3 = "!* "
  let name' := if header ∨ unheader then pyDrop name 3 else name
  (header, unheader, name')

/-- Source `create_none_section` (lines 308–316). -/
def create_none_section : Sec :=
  { id := none, project_id := 0, name := "None", order := 0 }

/-! ## Regeneration mode (source `check_regen_mode`, lines 358–380) -/

/-- Source `check_regen_mode`: the set intersection of the item's labels with
the three regeneration label names.  More than one match is a configuration
error (`none`, fall back to the global mode); exactly one yields its index;
none at all takes the `IndexError` → `list.index` `ValueError` path and also
yields `none`. -/
def check_regen_mode (labels : List String) : Option Int :=
  let overlap := regen_label_names.filter (fun n => n ∈ labels)
  if overlap.length > 1 then none
  else
    match overlap with
    | [n] => (listIndex n regen_label_names).map (Int.ofNat)
    | _ => none

/-! ## Helpers for truthiness of configuration values -/

/-- Python truthiness of `not args.regeneration` (line 586): `None` and `0`
are falsy. -/
def regenFalsy (args : Args) : Bool :=
  match args.regeneration with
  | none => true
  | some v => decide (v = 0)

/-- Python truthiness of `args.end` (line 596). -/
def endTruthy (args : Args) : Bool :=
  match args.end_hour with
  | some e => decide (e ≠ 0)
  | none => false

/-! ## Recurring lists logic (source `run_recurring_lists_logic`, lines 385–495)

The child-consumption block (lines 482–495) is embedded as a no-op: its body's
first statement `item.update(is_completed)` references the unbound name
`is_completed` and raises `NameError` before producing any effect, and the
bare `except:` at line 492 swallows the exception.  Consequently no item is
ever completed-and-reopened and the `r_tag` flag is never propagated beyond
the direct children flagged at rollover. -/

def run_recurring_lists_logic (args : Args) (today hour : Int) (st : PassState)
    (itemId : Int) (child_items child_items_all : List Int) : PassState :=
  match lookupTask st itemId with
  | none => st
  | some item =>
    if item.parent_id.isNone then
      match item.due with
      | none => st                     -- `item.due.is_recurring` raises; outer `except: pass`
      | some due =>
        if due.is_recurring then
          match item.date_old with
          | none =>
            -- lines 470–475: watermark was never saved; create the entry
            updateTask st itemId (fun t => { t with date_old := some due.date })
          | some date_old =>
            if due.date ≠ date_old then
              -- lines 394–396: save the new date for reference
              let st := updateTask st itemId (fun t => { t with date_old := some due.date })
              -- lines 399–425: mark children for action based on mode
              let st :=
                match args.regeneration with
                | none => st
                | some regen =>
                  let regen_mode := (check_regen_mode item.labels).getD regen
                  let give_regen_tag := regen_mode = 1 ∨ (regen_mode = 2 ∧ child_items = [])
                  if give_regen_tag then
                    child_items_all.foldl
                      (fun s cid => updateTask s cid (fun t => { t with r_tag := true })) st
                  else st
              -- lines 428–468: alternative end-of-day adjustment.  The
              -- watermark was already overwritten above, so `od` re-reads
              -- the *new* due date and the guard can never hold; embedded
              -- as written.
              match args.end_hour with
              | none => st
              | some e =>
                if e - hour > 0 then
                  let nd := due.date
                  let od :=
                    match lookupTask st itemId with
                    | some t => t.date_old.getD nd
                    | none => nd
                  if today - od ≥ 1 ∧ nd - today = 1 then
                    updateTask st itemId (fun t =>
                      { t with due := some { date := today, is_recurring := due.is_recurring } })
                  else st
                else st
            else st
        else st
    else st

/-! ## Per-item header phases (source lines 568–583) -/

/-- Lines 571–576: under a header-all flag, star the item and its
non-completed children.  (An empty title would make `item.content[0]` raise
in the source; titles are assumed nonempty.) -/
def headerApply (st : PassState) (itemId : Int) (child_items : List Int) : PassState :=
  match lookupTask st itemId with
  | none => st
  | some it =>
    if pyTake it.content 1 ≠ "*" then
      let st := updateTask st itemId (fun t => { t with content := "* " ++ t.content })
      child_items.foldl (fun s cid =>
        match lookupTask s cid with
        | none => s
        | some c =>
          if ¬ pyStarts c.content "*" then
            updateTask s cid (fun t => { t with content := "* " ++ t.content })
          else s) st
    else st

/-- Lines 578–580: under a project- or section-level unheader flag, strip the
two-character star prefix from the item itself. -/
def unheaderSelf (st : PassState) (itemId : Int) : PassState :=
  match lookupTask st itemId with
  | none => st
  | some it =>
    if pyTake it.content 1 = "*" then
      updateTask st itemId (fun t => { t with content := pyDrop t.content 2 })
    else st

/-- Lines 581–583: under an item-level unheader flag, unconditionally drop
the first two characters of each non-completed child's title. -/
def unheaderChild (st : PassState) (cid : Int) : PassState :=
  updateTask st cid (fun t => { t with content := pyDrop t.content 2 })

/-! ## Next-action propagation over children (source lines 660–695) -/

/-- One iteration of the sequential / `p-s` child loop (lines 666–681).
Note `child_items` only contains non-completed children, and the parent's
label set is re-read on every iteration, so after the first hand-off the
parent no longer holds the label and every later child is cleaned. -/
def seqChildStep (L : String) (parentId : Int) (st : PassState) (cid : Int) : PassState :=
  match lookupTask st cid with
  | none => st
  | some c =>
    if pyStarts c.content "*" then st
    else
      let parentHolds : Bool :=
        match lookupTask st parentId with
        | some p => decide (L ∈ p.labels)
        | none => false
      if ¬ c.is_completed ∧ parentHolds then
        remove_label (add_label st cid L) parentId L
      else remove_label st cid L

/-- One iteration of the parallel fan-out loop (lines 687–695). -/
def parChildStep (L : String) (st : PassState) (cid : Int) : PassState :=
  match lookupTask st cid with
  | none => st
  | some c =>
    if pyStarts c.content "*" then st
    else if ¬ c.is_completed then add_label st cid L
    else st

/-- Lines 660–695: propagation from an item to its children, driven by the
first non-`none` entry of `[item_type, section_type, project_type]`. -/
def childrenPhase (L : String) (item_type section_type project_type : Option String)
    (itemId : Int) (child_items : List Int) (st : PassState) : PassState :=
  if child_items = [] then st
  else
    let active := (item_type <|> section_type) <|> project_type
    if active = some "sequential" ∨ active = some "p-s" then
      child_items.foldl (seqChildStep L itemId) st
    else
      let holds : Bool :=
        match lookupTask st itemId with
        | some p => decide (L ∈ p.labels)
        | none => false
      if active = some "parallel" ∨ (active = some "s-p" ∧ holds) then
        child_items.foldl (parChildStep L) (remove_label st itemId L)
      else st

/-! ## Temporal gates (source lines 697–787) -/

/-- List-comprehension removal of the label from the (non-completed)
children (lines 734–735 and 780–781). -/
def removeChildLabels (L : String) (child_items : List Int) (st : PassState) : PassState :=
  child_items.foldl (fun s cid => remove_label s cid L) st

/-- Lines 743–787: relative start annotation `start=due-<N><d|w>`.  A missing
due date, an unparsable offset, or a token shape binding neither `d` nor `w`
(which leaves the local `td` unbound and raises `NameError`) all end in the
`except` handler, which logs and continues with the label state as already
computed. -/
def relGate (_args : Args) (L : String) (today : Int) (itemId : Int) (item : Item)
    (child_items : List Int) (st : PassState) : PassState :=
  let content := item.content
  let f := pyFind content "start=due-"
  if f > -1 then
    match item.due with
    | none => st
    | some due =>
      let f1a := pyFind content "d"
      let f1b := pyRFind content "d"
      let f2 := pyFind content "w"
      let f_end := pyFind (pyDrop content (f.toNat + 10)) " "
      let offset :=
        if f_end > -1 then pySlice content (f.toNat + 10) (f.toNat + 10 + f_end.toNat - 1)
        else pyDropLast (pyDrop content (f.toNat + 10))
      let td? : Option Int :=
        if f1a ≠ f1b ∧ f1b > -1 then pyInt offset
        else if f2 > -1 then (pyInt offset).map (fun n => 7 * n)
        else none
      match td? with
      | none => st
      | some td =>
        let start_date := due.date - td
        -- (datetime.today() − start_date).days = today − start_date for a
        -- clock strictly past midnight
        if today - start_date < 0 then
          removeChildLabels L child_items (remove_label st itemId L)
        else st
  else st

/-- Lines 716–724: the characters of the `start=` token, from just past
`start=` up to the next space or the end of the title. -/
def absStartTok (content : String) : String :=
  let f1 := pyFind content "start="
  let tl := pyDrop content (f1.toNat + 6)
  let f_end := pyFind tl " "
  if f_end > -1 then pySlice content (f1.toNat + 6) (f1.toNat + 6 + f_end.toNat)
  else tl

/-- Lines 714–741: absolute start annotation `start=<date>`, skipped when the
token is of the relative `start=due-` form.  A `strptime` failure takes the
`except` handler (log, `continue`), skipping the relative gate. -/
def absGate (args : Args) (L : String) (today : Int) (itemId : Int) (item : Item)
    (child_items : List Int) (st : PassState) : PassState :=
  let content := item.content
  let f1 := pyFind content "start="
  let f2 := pyFind content "start=due-"
  if f1 > -1 ∧ f2 = -1 then
    match args.parseDate (absStartTok content) with
    | none => st
    | some start_date =>
      -- (datetime.today() − start_date).days = today − start_date for a
      -- clock strictly past midnight
      if today - start_date < 0 then
        removeChildLabels L child_items (remove_label st itemId L)
      else relGate args L today itemId item child_items st
  else relGate args L today itemId item child_items st

/-- Lines 699–712: future-hiding gate, then the start-date gates.  Membership
of `'due'` in `item.data` is modelled as the item carrying due information
(spec §6 field list); `(due_date − datetime.today()).days` is `due − today − 1`
for a clock strictly past midnight. -/
def gatesPhase (args : Args) (L : String) (today : Int) (itemId : Int) (item : Item)
    (child_items : List Int) (st : PassState) : PassState :=
  match item.due with
  | some d =>
    if args.hide_future > 0 then
      if d.date - today - 1 ≥ args.hide_future then remove_label st itemId L
      else absGate args L today itemId item child_items st
    else absGate args L today itemId item child_items st
  | none => absGate args L today itemId item child_items st

/-! ## Root labeling (source lines 619–658) -/

/-- Lines 620–653: the labeling decision proper for a parentless task. -/
def rootLabelCore (L : String) (item_type section_type project_type : Option String)
    (itemId : Int) (st : PassState) (ffs ffp : Bool) : PassState × Bool × Bool :=
  if item_type.isSome then
    (add_label st itemId L, ffs, ffp)
  else
    match section_type with
    | some t =>
      if t = "sequential" ∨ t = "s-p" then
        if ¬ ffs then (add_label st itemId L, true, ffp) else (st, ffs, ffp)
      else if t = "parallel" ∨ t = "p-s" then
        (add_label st itemId L, ffs, ffp)
      else (st, ffs, ffp)
    | none =>
      match project_type with
      | some t =>
        if t = "sequential" ∨ t = "s-p" then
          if ¬ ffp then (add_label st itemId L, ffs, true) else (st, ffs, ffp)
        else if t = "parallel" ∨ t = "p-s" then
          (add_label st itemId L, ffs, ffp)
        else (st, ffs, ffp)
      | none => (st, ffs, ffp)

/-- Lines 620–658: labeling decision for a parentless task, threading the
per-section and per-project first-found flags, then (lines 654–658) marking
the flags for other conditions too. -/
def rootLabelPhase (L : String) (item_type section_type project_type : Option String)
    (itemId : Int) (st : PassState) (ffs ffp : Bool) : PassState × Bool × Bool :=
  let r := rootLabelCore L item_type section_type project_type itemId st ffs ffp
  let ffs := if ¬ r.2.1 ∧ section_type.isSome then true else r.2.1
  let ffp := if ¬ r.2.2 ∧ project_type.isSome then true else r.2.2
  (r.1, ffs, ffp)

/-! ## The per-item loop body (source lines 556–787) -/

/-- Per-item context fixed by the enclosing project/section loops. -/
structure ItemCtx where
  header_all_in_p : Bool
  unheader_all_in_p : Bool
  header_all_in_s : Bool
  unheader_all_in_s : Bool
  project_type : Option String
  section_type : Option String

/-- Lines 601–787: the labeling logic for one item (entered only when a
next-action label is configured). -/
def labelPhase (args : Args) (L : String) (today : Int) (ctx : ItemCtx)
    (sectionIds : List Int) (itemId : Int) (child_items : List Int)
    (st : PassState) (ffs ffp : Bool) : PassState × Bool × Bool :=
  match lookupTask st itemId with
  | none => (st, ffs, ffp)
  | some item =>
    -- lines 603–608: skip completed items; skip headers after removing the label
    if item.is_completed then (st, ffs, ffp)
    else if pyStarts item.content "*" then (remove_label st itemId L, ffs, ffp)
    else
      -- lines 611–617
      let items_cur := sectionIds.filterMap (fun i => lookupTask st i)
      let item_type := item_type_of args item items_cur
      -- lines 619–658
      let (st, ffs, ffp) :=
        if item.parent_id.isNone then
          rootLabelPhase L item_type ctx.section_type ctx.project_type itemId st ffs ffp
        else (st, ffs, ffp)
      -- lines 660–695
      let st := childrenPhase L item_type ctx.section_type ctx.project_type itemId child_items st
      -- lines 697–787
      let st := gatesPhase args L today itemId item child_items st
      (st, ffs, ffp)

/-- Lines 559–560: the section's item objects, re-read from the live state. -/
def sectionItems (st : PassState) (sectionIds : List Int) : List Item :=
  sectionIds.filterMap (fun i => lookupTask st i)

/-- Lines 562–563: ids of all children of `pid` within the section. -/
def child_items_all_of (st : PassState) (sectionIds : List Int) (pid : Int) : List Int :=
  ((sectionItems st sectionIds).filter (fun x => x.parent_id = some pid)).map (fun x => x.id)

/-- Lines 560–565: ids of the non-completed children of `pid` within the
section. -/
def child_items_of (st : PassState) (sectionIds : List Int) (pid : Int) : List Int :=
  ((((sectionItems st sectionIds).filter (fun x => ¬ x.is_completed)).filter
      (fun x => x.parent_id = some pid))).map (fun x => x.id)

/-- Lines 568–598: the per-item phases that run before the labeling logic:
the item-level (un)header marker, header application, unheadering, the
stale-flag reset, and the recurring-lists logic. -/
def prePhases (args : Args) (today hour : Int) (ctx : ItemCtx) (itemId : Int)
    (child_items child_items_all : List Int) (item0 : Item) (st : PassState) : PassState :=
  -- line 568: item-level (un)header marker
  let hui := check_header item0.content
  let hi := hui.1
  let ui := hui.2.1
  let c1 := hui.2.2
  let st := updateTask st itemId (fun t => { t with content := c1 })
  -- lines 571–576
  let st :=
    if ctx.header_all_in_p ∨ ctx.header_all_in_s ∨ hi then headerApply st itemId child_items
    else st
  -- lines 578–583
  let st :=
    if ctx.unheader_all_in_p ∨ ctx.unheader_all_in_s then unheaderSelf st itemId else st
  let st := if ui then child_items.foldl unheaderChild st else st
  -- lines 585–593: reset a stale transient flag when regeneration is off
  let st := if regenFalsy args then updateTask st itemId (fun t => { t with r_tag := false }) else st
  -- lines 596–598
  if args.regeneration.isSome ∨ endTruthy args then
    run_recurring_lists_logic args today hour st itemId child_items child_items_all
  else st

/-- Lines 556–787: one iteration of `for item in items`. -/
def processItem (args : Args) (nal : Option String) (today hour : Int) (ctx : ItemCtx)
    (sectionIds : List Int) (acc : PassState × Bool × Bool) (itemId : Int) :
    PassState × Bool × Bool :=
  let (st, ffs, ffp) := acc
  match lookupTask st itemId with
  | none => acc
  | some item0 =>
    -- lines 559–565: capture child lists (all, and non-completed only)
    let child_items_all := child_items_all_of st sectionIds item0.id
    let child_items := child_items_of st sectionIds item0.id
    -- lines 568–598
    let st := prePhases args today hour ctx itemId child_items child_items_all item0 st
    -- lines 601–787
    match nal with
    | none => (st, ffs, ffp)
    | some L => labelPhase args L today ctx sectionIds itemId child_items st ffs ffp

/-! ## Traversal order (source lines 549–553) -/

/-- Lexicographic `(int(parent_id or "0"), order)` sort key comparison. -/
def keyLE (a b : Item) : Bool :=
  if a.parent_id.getD 0 < b.parent_id.getD 0 then true
  else if a.parent_id.getD 0 = b.parent_id.getD 0 then decide (a.order ≤ b.order)
  else false

/-- Stable insertion used to model Python's stable `sorted`. -/
def insertSorted (x : Item) : List Item → List Item
  | [] => [x]
  | y :: ys => if keyLE y x then y :: insertSorted x ys else x :: y :: ys

/-- Model of `sorted(items, key=lambda x: (int(x.parent_id or "0"), x.order))`
(stable). -/
def pySorted (l : List Item) : List Item :=
  l.foldl (fun acc x => insertSorted x acc) []

/-! ## Section and project loops (source lines 510–553) -/

/-- Per-project context for the section loop. -/
structure ProjCtx where
  header_all_in_p : Bool
  unheader_all_in_p : Bool
  project_type : Option String
  projectItemIds : List Int

/-- Lines 534–787: one iteration of `for section in project_sections`.
`secRef = none` designates the synthetic no-section. -/
def processSection (args : Args) (nal : Option String) (today hour : Int)
    (pc : ProjCtx) (acc : PassState × Bool) (secRef : Option Int) : PassState × Bool :=
  let st := acc.1
  let ffp := acc.2
  let secObj? : Option Sec :=
    match secRef with
    | none => some create_none_section
    | some sid => (st.snap.sections.filter (fun s => s.id = some sid)).head?
  match secObj? with
  | none => acc
  | some sec =>
    -- line 537: (un)header the section title
    let husn := check_header sec.name
    let hs := husn.1
    let us := husn.2.1
    let name' := husn.2.2
    let st :=
      match secRef with
      | none => st
      | some sid => updateSection st sid (fun s => { s with name := name' })
    -- line 543: section type, from the updated title
    let section_type := get_type_of_name args name'
    -- lines 549–553: the section's items, sorted
    let secItems :=
      (pc.projectItemIds.filterMap (fun i => lookupTask st i)).filter
        (fun x => x.section_id = secRef)
    let ids := (pySorted secItems).map (fun x => x.id)
    let ctx : ItemCtx :=
      { header_all_in_p := pc.header_all_in_p, unheader_all_in_p := pc.unheader_all_in_p
        header_all_in_s := hs, unheader_all_in_s := us
        project_type := pc.project_type, section_type := section_type }
    -- line 539: the per-section flag starts fresh; the project flag persists
    let r := ids.foldl (processItem args nal today hour ctx ids) (st, false, ffp)
    (r.1, r.2.2)

/-- Lines 510–532: one iteration of `for project in projects`, running the
synthetic no-section first (`s = 0`) and then the project's real sections
(`s = 1`). -/
def processProject (args : Args) (nal : Option String) (today hour : Int)
    (st : PassState) (projId : Int) : PassState :=
  match (st.snap.projects.filter (fun p => p.id = projId)).head? with
  | none => st
  | some project =>
    -- line 516: (un)header the project title
    let hupn := check_header project.name
    let hp := hupn.1
    let up := hupn.2.1
    let pname := hupn.2.2
    let st := updateProject st projId (fun p => { p with name := pname })
    -- lines 518–522: project type from the updated title
    let project_type := get_type_of_name args pname
    -- line 525: capture the project's items
    let projectItemIds := (st.snap.tasks.filter (fun t => t.project_id = projId)).map (fun t => t.id)
    let pc : ProjCtx :=
      { header_all_in_p := hp, unheader_all_in_p := up
        project_type := project_type, projectItemIds := projectItemIds }
    -- lines 528–532: no-section pass, then the real sections of this project
    let secRefs : List (Option Int) :=
      none :: (st.snap.sections.filter (fun s => s.project_id = projId)).map (fun s => s.id)
    -- line 513: first_found_project starts false
    (secRefs.foldl (processSection args nal today hour pc) (st, false)).1

/-- Source `autodoist_magic` (lines 500–789): one full pass over the
snapshot, returning the mutated snapshot together with the accumulated
overview dictionaries. -/
def autodoist_magic (args : Args) (nal : Option String) (today hour : Int)
    (snap : Snapshot) : PassState :=
  let st0 : PassState := { snap := snap, overview_item_ids := [], overview_item_labels := [] }
  let projIds := snap.projects.map (fun p => p.id)
  projIds.foldl (processProject args nal today hour) st0

/-! ## Observations and well-formedness predicates used by the theorems -/

/-- The label list currently stored for an item id. -/
def getLabels (st : PassState) (id : Int) : Option (List String) :=
  (lookupTask st id).map (fun t => t.labels)

/-- The title currently stored for an item id. -/
def getContent (st : PassState) (id : Int) : Option String :=
  (lookupTask st id).map (fun t => t.content)

/-- A child id the propagation loops act on: present, not flagged as a
header, not completed. -/
def eligibleChild (st : PassState) (c : Int) : Bool :=
  match lookupTask st c with
  | some cit => !(pyStarts cit.content "*") && !cit.is_completed
  | none => false

/-- The first eligible child in scan order. -/
def firstEligibleChild (st : PassState) (cs : List Int) : Option Int :=
  cs.find? (eligibleChild st)

/-- Task ids are pairwise distinct (every snapshot obtained from the service
satisfies this). -/
def IdsNodup (st : PassState) : Prop :=
  (st.snap.tasks.map (fun t => t.id)).Nodup

/-- No label list contains duplicates (label sets have membership
semantics, spec §3). -/
def LabelsNodup (st : PassState) : Prop :=
  ∀ t ∈ st.snap.tasks, t.labels.Nodup

/-- A title carries neither the header-all nor the unheader-all marker. -/
def markerFree (s : String) : Prop :=
  pyTake s 3 ≠ "** " ∧ pyTake s 3 ≠ "!* "

/-- No project, section, or item title carries a toggling marker, so
`check_header` never fires and titles are stable across the pass. -/
def NoMarkers (st : PassState) : Prop :=
  (∀ p ∈ st.snap.projects, markerFree p.name) ∧
  (∀ s ∈ st.snap.sections, markerFree s.name) ∧
  (∀ t ∈ st.snap.tasks, markerFree t.content)

/-- No item title contains a `start=` annotation, so the start-date gates
never act. -/
def NoStartTok (st : PassState) : Prop :=
  ∀ t ∈ st.snap.tasks, pyFind t.content "start=" = -1

/-- Every item is parentless (a flat snapshot). -/
def AllFlat (st : PassState) : Prop :=
  ∀ t ∈ st.snap.tasks, t.parent_id = none

/-! ## Concrete fixtures used by counterexamples and witnesses -/

/-- Default configuration: default suffixes, labelling on, everything else
off (the program's own argument defaults). -/
def testArgs : Args :=
  { pp_suffix := "//", ss_suffix := "--", ps_suffix := "/-", sp_suffix := "-/",
    inbox := none, regeneration := none, end_hour := none, hide_future := 0,
    parseDate := fun _ => none }

/-- A plain incomplete item fixture. -/
def mkItem (id : Int) (pid : Option Int) (sid : Option Int) (proj : Int)
    (content : String) (ord : Int) (comp : Bool) (labels : List String) : Item :=
  { id := id, parent_id := pid, section_id := sid, project_id := proj,
    content := content, order := ord, is_completed := comp, due := none,
    labels := labels, date_old := none, r_tag := false }

/-- The next-action label name used in the fixtures. -/
def NA : String := "next_action"

/-- One full pass with the test configuration. -/
def runPass (args : Args) (snap : Snapshot) : PassState :=
  autodoist_magic args (some NA) 20000 12 snap

/-- Sequential project with roots `W`, `X` (stale label on `X`) and child `A`
of `X`: the first pass moves the stale label from `X` to `A`, the second pass
strips it from `A` again. -/
def snapC1x : Snapshot :=
  { projects := [{ id := 1, name := "P--" }], sections := [],
    tasks := [mkItem 1 none none 1 "W" 1 false [],
              mkItem 2 none none 1 "X" 2 false [NA],
              mkItem 3 (some 2) none 1 "A" 1 false []] }

/-- A completed item carrying the next-action label. -/
def snapC2x : Snapshot :=
  { projects := [{ id := 1, name := "P" }], sections := [],
    tasks := [mkItem 10 none none 1 "X" 1 true [NA]] }

/-- A labelled sequential item with an incomplete child `A` and a completed
child `B` that still carries a stale label. -/
def snapC3x : Snapshot :=
  { projects := [{ id := 1, name := "P" }], sections := [],
    tasks := [mkItem 10 none none 1 "X--" 1 false [NA],
              mkItem 11 (some 10) none 1 "A" 1 false [],
              mkItem 12 (some 10) none 1 "B" 2 true [NA]] }

/-- A parallel item with child `A`, which in turn has child `G`. -/
def snapC4x : Snapshot :=
  { projects := [{ id := 1, name := "P" }], sections := [],
    tasks := [mkItem 10 none none 1 "X//" 1 false [],
              mkItem 11 (some 10) none 1 "A" 1 false [],
              mkItem 12 (some 11) none 1 "G" 1 false []] }

/-- A header-flagged item whose (non-header) child carries a stale label. -/
def snapC5x : Snapshot :=
  { projects := [{ id := 1, name := "P" }], sections := [],
    tasks := [mkItem 10 none none 1 "* H" 1 false [],
              mkItem 11 (some 10) none 1 "C" 1 false [NA]] }

/-- Configuration with a parallel-sequential suffix of length three (the
other suffixes keep their two-character defaults). -/
def argsC6x : Args := { testArgs with ps_suffix := "abc" }

/-- Configuration with regeneration enabled in mode 1 (regenerate all). -/
def argsC7x : Args := { testArgs with regeneration := some 1 }

/-- A parentless recurring item whose due date advanced past its watermark,
with a completed child and a completed grandchild. -/
def snapC7x : Snapshot :=
  { projects := [{ id := 1, name := "P" }], sections := [],
    tasks := [{ mkItem 10 none none 1 "R every day" 1 false [] with
                  due := some { date := 100, is_recurring := true }, date_old := some 99 },
              mkItem 11 (some 10) none 1 "C" 1 true [],
              mkItem 12 (some 11) none 1 "G" 1 true []] }

/-- Configuration whose date parser accepts exactly `01-01-2099` (format
`%d-%m-%Y`), mapping it to a day number far past the fixture's `today`. -/
def argsC8x : Args :=
  { testArgs with parseDate := fun s => if s = "01-01-2099" then some 47117 else none }

/-- A completed item with a future absolute start annotation; both it and its
non-completed child carry the label. -/
def snapC8x : Snapshot :=
  { projects := [{ id := 1, name := "P" }], sections := [],
    tasks := [mkItem 10 none none 1 "Buy milk start=01-01-2099" 1 true [NA],
              mkItem 11 (some 10) none 1 "A" 1 false [NA]] }

/-- A *non-completed* item with a future absolute start annotation and a
labelled non-completed child: the start gate strips both labels at the
item's visit. -/
def snapC8y : Snapshot :=
  { projects := [{ id := 1, name := "P" }], sections := [],
    tasks := [mkItem 10 none none 1 "Buy milk start=01-01-2099" 1 false [NA],
              mkItem 11 (some 10) none 1 "A" 1 false [NA]] }

/-- Two items whose parent links form a two-cycle. -/
def cycA : Item := mkItem 1 (some 2) none 1 "a" 1 false []

def cycB : Item := mkItem 2 (some 1) none 1 "b" 2 false []

/-- A sequential project with an unsectioned root `A` and a sectioned root
`B` (in section `S`), both unlabelled: the single project-level label must go
to the unsectioned item. -/
def snapC10x : Snapshot :=
  { projects := [{ id := 1, name := "P--" }],
    sections := [{ id := some 5, project_id := 1, name := "S", order := 1 }],
    tasks := [mkItem 10 none none 1 "A" 1 false [],
              mkItem 20 none (some 5) 1 "B" 1 false []] }

/-- A flat sequential project with no sections: two parentless, untyped,
unlabelled roots. -/
def snapC1y : Snapshot :=
  { projects := [{ id := 1, name := "P--" }], sections := [],
    tasks := [mkItem 1 none none 1 "W" 1 false [],
              mkItem 2 none none 1 "X" 2 false []] }

/-- The state a cycle starts from (empty overview dictionaries). -/
def stInit (snap : Snapshot) : PassState :=
  { snap := snap, overview_item_ids := [], overview_item_labels := [] }

/-- Every label list reachable through `lookupTask` is duplicate-free
(label sets have membership semantics, spec §3). -/
def AllLabelsNodup (st : PassState) : Prop :=
  ∀ j t, lookupTask st j = some t → t.labels.Nodup

/-- `markerFree` is a decidable test on the stored title. -/
instance (s : String) : Decidable (markerFree s) :=
  inferInstanceAs (Decidable (_ ∧ _))

/-- The task fields the labeling pass never rewrites in a marker-free,
regeneration-off configuration: everything but the label list and the
transient regeneration bookkeeping (`r_tag`, `date_old`). -/
def core7 (t : Item) :
    Int × Int × Option Int × Option Int × Int × String × Bool × Option Due :=
  (t.id, t.project_id, t.section_id, t.parent_id, t.order, t.content,
    t.is_completed, t.due)

/-- The structural content of the state: the project list, the section list,
and the core fields of every task in storage order. -/
def stateCore (st : PassState) :
    List Project × List Sec ×
      List (Int × Int × Option Int × Option Int × Int × String × Bool × Option Due) :=
  (st.snap.projects, st.snap.sections, st.snap.tasks.map core7)

/-- Every stored title reachable through `lookupTask` is marker-free. -/
def AllMarkerFree (st : PassState) : Prop :=
  ∀ j t, lookupTask st j = some t → markerFree t.content

/-- The label does not sit on the stored item at `j` if that item is
header-flagged. -/
def starAbsent (L : String) (st : PassState) (j : Int) : Prop :=
  ∀ t, lookupTask st j = some t → pyStarts t.content "*" = true → L ∉ t.labels

/-- One pass step never *adds* the label to a header-flagged item: if the
label sits on a starred item afterwards, it already did before. -/
def starDrop (L : String) (st st' : PassState) : Prop :=
  ∀ j t, lookupTask st j = some t → pyStarts t.content "*" = true →
    ∀ ls', getLabels st' j = some ls' → L ∈ ls' → L ∈ t.labels

/-- Every stored task is a marker-free, untyped, annotation-free root: the
flat shape under which the per-item body reduces to the root-labeling
decision alone. -/
def FlatP (args : Args) (st : PassState) : Prop :=
  ∀ j u, lookupTask st j = some u → markerFree u.content ∧ u.parent_id = none ∧
    get_type_of_item args u = none ∧ pyFind u.content "start=" = -1 ∧
    pyFind u.content "start=due-" = -1

/-- The well-formedness of a live snapshot: duplicate-free task, section and
project ids, marker-free titles everywhere, duplicate-free label lists. -/
def WellFormed (st : PassState) : Prop :=
  IdsNodup st ∧
  (st.snap.sections.map (fun s => s.id)).Nodup ∧
  (st.snap.projects.map (fun p => p.id)).Nodup ∧
  AllMarkerFree st ∧
  (∀ s ∈ st.snap.sections, markerFree s.name) ∧
  (∀ p ∈ st.snap.projects, markerFree p.name) ∧
  AllLabelsNodup st

/-- An item context with no header flags and no section or project type
(an untyped, marker-free project and section). -/
def ctx0 : ItemCtx :=
  { header_all_in_p := false, unheader_all_in_p := false
    header_all_in_s := false, unheader_all_in_s := false
    project_type := none, section_type := none }

/-! # Theorems -/

/-- Claim C1, counterexample.  The pass is not idempotent: on `snapC1x` the
first pass leaves the label on item 3 (`A`), but re-running the engine on the
first pass's output strips it again and issues a further mutation (a
non-empty overview), so the two passes produce different item-to-label
mappings. -/
theorem c1_counterexample :
    getLabels (runPass testArgs snapC1x) 3 = some [NA] ∧
    getLabels (runPass testArgs ((runPass testArgs snapC1x).snap)) 3 = some [] ∧
    (runPass testArgs ((runPass testArgs snapC1x).snap)).overview_item_ids ≠ [] := by
  decide

/-- Claim C2, counterexample.  A completed item carrying the next-action
label is skipped by the pass with the label left in place, not removed. -/
theorem c2_counterexample :
    getLabels (runPass testArgs snapC2x) 10 = some [NA] := by
  decide

/-- Claim C3, counterexample.  After a full pass over `snapC3x`, both
children of the sequential item 10 still hold the next-action label: the
label was handed to the first non-completed child 11, while the completed
child 12 kept its stale label (the scan only strips non-completed
children). -/
theorem c3_counterexample :
    getLabels (runPass testArgs snapC3x) 11 = some [NA] ∧
    getLabels (runPass testArgs snapC3x) 12 = some [NA] := by
  decide

/-- Claim C4, counterexample.  Item 11 is a non-completed, non-header child
of the parallel item 10, yet at the end of the pass it does not hold the
label: its own visit passed the label on to its child 12. -/
theorem c4_counterexample :
    getLabels (runPass testArgs snapC4x) 11 = some [] ∧
    getLabels (runPass testArgs snapC4x) 12 = some [NA] := by
  decide

/-- Claim C5, counterexample.  Item 11 is a descendant of the header-flagged
item 10, yet after a full pass it still carries the next-action label: the
pass never strips a stale label from a non-header descendant of a header. -/
theorem c5_counterexample :
    getLabels (runPass testArgs snapC5x) 11 = some [NA] := by
  decide

/-- Claim C8, counterexample.  Item 10's title carries a future absolute
start date, yet because the item is completed the pass skips it entirely:
neither its own label nor its non-completed child's label is removed. -/
theorem c8_counterexample :
    getLabels (runPass argsC8x snapC8x) 10 = some [NA] ∧
    getLabels (runPass argsC8x snapC8x) 11 = some [NA] := by
  decide

set_option maxRecDepth 100000 in
/-- Claim C9, counterexample.  On a cyclic parent chain the ancestor-type
walk does not fail with a structural error: the recursion budget exhausts,
the swallowed exception leaves the type at `none`, and the resolution
returns normally (`Except.ok none`, not `Except.error`). -/
theorem c9_counterexample :
    get_item_type testArgs recursionLimit cycA [cycA, cycB] = Except.ok none := by
  rfl

/-- Claim C6 (code bug).  With `ps_suffix = "abc"` (length 3) the title
`"Xabc"` ends in exactly the parallel-sequential token and matches neither
the parallel nor the sequential token, so by the claim it should be
classified `p-s`; the code classifies it as `none`, because lines 190/192
compare the `ps`/`sp` suffixes against the last `len(ss_suffix)` characters
(the unused `len_suffix[2]`/`len_suffix[3]` entries betray the intent). -/
theorem c6_ps_suffix_wrong_length :
    pyTail "Xabc" (pyLen argsC6x.ps_suffix) = argsC6x.ps_suffix ∧
    pyTail "Xabc" (pyLen argsC6x.pp_suffix) ≠ argsC6x.pp_suffix ∧
    pyTail "Xabc" (pyLen argsC6x.ss_suffix) ≠ argsC6x.ss_suffix ∧
    check_name argsC6x "Xabc" = none := by
  decide

/-- Claim C7 (code bug).  On rollover of the recurring root 10 under
regeneration mode 1, the pass persists the watermark and flags the direct
child 11, but the consumption block (lines 483–495) always raises `NameError`
on the unbound name `is_completed` and is swallowed by its bare `except`, so
the flagged child is never completed-and-reopened, its own flag is never
cleared, and the grandchild 12 is never flagged within the pass. -/
theorem c7_regeneration_cascade_dead :
    (lookupTask (runPass argsC7x snapC7x) 10).map (fun t => t.date_old) = some (some 100) ∧
    (lookupTask (runPass argsC7x snapC7x) 11).map (fun t => t.r_tag) = some true ∧
    (lookupTask (runPass argsC7x snapC7x) 11).map (fun t => t.is_completed) = some true ∧
    (lookupTask (runPass argsC7x snapC7x) 12).map (fun t => t.r_tag) = some false ∧
    (lookupTask (runPass argsC7x snapC7x) 12).map (fun t => t.is_completed) = some true := by
  decide

theorem get_item_type_step (args : Args) (fuel : Nat) (item parent : Item)
    (items : List Item) (hty : get_type_of_item args item = none) (pid : Int)
    (hp : item.parent_id = some pid)
    (hh : (items.filter (fun p => p.id = pid)).head? = some parent) :
    get_item_type args (fuel + 1) item items =
      match get_item_type args fuel parent items with
      | .error _ => Except.ok none
      | .ok pt => Except.ok pt := by
  show (match get_type_of_item args item, item.parent_id with
    | some ty, _ => Except.ok (some ty)
    | none, none => Except.ok none
    | none, some pid =>
      match (items.filter (fun p : Item => p.id = pid)).head? with
      | none => Except.ok none
      | some parent =>
        match get_item_type args fuel parent items with
        | .error _ => Except.ok none
        | .ok pt => Except.ok pt) = _
  rw [hty, hp]
  dsimp only
  rw [hh]

theorem nearest_step (args : Args) (fuel : Nat) (item parent : Item)
    (items : List Item) (hty : get_type_of_item args item = none) (pid : Int)
    (hp : item.parent_id = some pid)
    (hh : (items.filter (fun p => p.id = pid)).head? = some parent) :
    nearest_ancestor_tag args (fuel + 1) item items =
      nearest_ancestor_tag args fuel parent items := by
  show (match get_type_of_item args item, item.parent_id with
    | some ty, _ => some ty
    | none, none => none
    | none, some pid =>
      match (items.filter (fun p : Item => p.id = pid)).head? with
      | none => none
      | some parent => nearest_ancestor_tag args fuel parent items) = _
  rw [hty, hp]
  dsimp only
  rw [hh]

theorem get_item_type_eq_nearest (args : Args) :
    ∀ (fuel : Nat) (item : Item) (items : List Item),
      get_item_type args (fuel + 1) item items =
        Except.ok (nearest_ancestor_tag args (fuel + 1) item items) := by
  intro fuel
  induction fuel with
  | zero =>
    intro item items
    rcases hty : get_type_of_item args item with _ | ty
    · rcases hp : item.parent_id with _ | pid
      · simp [get_item_type, nearest_ancestor_tag, hty, hp]
      · rcases hh : (items.filter (fun p => p.id = pid)).head? with _ | parent
        · simp [get_item_type, nearest_ancestor_tag, hty, hp, hh]
        · simp [get_item_type, nearest_ancestor_tag, hty, hp, hh]
    · simp [get_item_type, nearest_ancestor_tag, hty]
  | succ g ih =>
    intro item items
    rcases hty : get_type_of_item args item with _ | ty
    · rcases hp : item.parent_id with _ | pid
      · simp [get_item_type, nearest_ancestor_tag, hty, hp]
      · rcases hh : (items.filter (fun p => p.id = pid)).head? with _ | parent
        · simp [get_item_type, nearest_ancestor_tag, hty, hp, hh]
        · have hrec := ih parent items
          rw [get_item_type_step args (g + 1) item parent items hty pid hp hh, hrec,
            nearest_step args (g + 1) item parent items hty pid hp hh]
    · simp [get_item_type, nearest_ancestor_tag, hty]

/-- Claim C9, amended.  For any positive recursion budget the ancestor-type
walk terminates and returns normally — no structural error is ever reported
to the caller — and what it returns is exactly the spec's nearest-ancestor
tag resolved to the depth of the remaining budget: on a forest whose parent
chain is shorter than the budget this is the nearest ancestor's non-`none`
tag (or `none` once the root or a dangling link is reached); on a cyclic
chain, or a chain deeper than the budget, the `RecursionError` raised below
is swallowed by the caller's bare `except` and the tag silently collapses to
`none` instead of failing fast. -/
theorem c9_walk_never_errors (args : Args) (fuel : Nat) (item : Item) (items : List Item) :
    (∃ r, get_item_type args (fuel + 1) item items = Except.ok r) ∧
    get_item_type args (fuel + 1) item items =
      Except.ok (nearest_ancestor_tag args (fuel + 1) item items) := by
  have h := get_item_type_eq_nearest args fuel item items
  exact ⟨⟨nearest_ancestor_tag args (fuel + 1) item items, h⟩, h⟩

/-! ## Workhorse lemmas about the primitive state operations -/

theorem head_filter_eq_find (p : Item → Bool) (l : List Item) :
    (l.filter p).head? = l.find? p := by
  induction l with
  | nil => rfl
  | cons x xs ih => by_cases h : p x <;> simp [List.filter_cons, List.find?_cons, h, ih]

theorem find_map_cond (l : List Item) (i j : Int) (f : Item → Item)
    (hid : ∀ t, (f t).id = t.id) :
    ((l.map (fun t => if t.id = i then f t else t)).find? (fun t => t.id = j)) =
      if j = i then (l.find? (fun t => t.id = j)).map f
      else l.find? (fun t => t.id = j) := by
  induction l with
  | nil => by_cases h : j = i <;> simp [h]
  | cons t ts ih =>
    by_cases hti : t.id = i
    · have hfid : (f t).id = t.id := hid t
      by_cases htj : t.id = j
      · have hj : j = i := by rw [← htj, hti]
        simp only [List.map_cons, List.find?_cons, hti, if_pos, hfid, htj, decide_True, hj]
        simp
      · have hj : ¬ (j = i) := by
          intro hc; rw [hc] at htj; exact htj hti
        have ih2 : List.find? (fun t => decide (t.id = j))
            (List.map (fun t => if t.id = i then f t else t) ts) =
            List.find? (fun t => decide (t.id = j)) ts := by
          rw [ih]; simp [hj]
        have hij : ¬ (i = j) := fun hc => hj hc.symm
        simp only [List.map_cons, List.find?_cons, hti, if_pos, hfid, htj, decide_False,
          if_neg hj, ih2]
        simp [hij]
    · by_cases htj : t.id = j
      · have hj : ¬ (j = i) := by rw [← htj]; exact fun hc => hti hc
        simp [List.find?_cons, hti, htj, hj]
      · simp [List.find?_cons, hti, htj, ih]

theorem lookupTask_updateTask (st : PassState) (i j : Int) (f : Item → Item)
    (hid : ∀ t, (f t).id = t.id) :
    lookupTask (updateTask st i f) j =
      if j = i then (lookupTask st j).map f else lookupTask st j := by
  unfold lookupTask updateTask
  simp only [head_filter_eq_find]
  exact find_map_cond st.snap.tasks i j f hid

theorem lookupTask_overview_irrelevant (st : PassState) (ov : List (Int × Int))
    (ol : List (Int × List String)) (j : Int) :
    lookupTask { st with overview_item_ids := ov, overview_item_labels := ol } j =
      lookupTask st j := rfl

theorem lookupTask_add_label_ne (st : PassState) (i j : Int) (L : String) (h : j ≠ i) :
    lookupTask (add_label st i L) j = lookupTask st j := by
  unfold add_label
  rcases hl : lookupTask st i with _ | it
  · rfl
  · by_cases hm : L ∈ it.labels
    · simp [hm]
    · simp only [hm, if_neg, not_false_iff]
      rw [lookupTask_overview_irrelevant, lookupTask_updateTask]
      · simp [h]
      · intro t; rfl

theorem lookupTask_add_label_self (st : PassState) (i : Int) (L : String) (it : Item)
    (h : lookupTask st i = some it) :
    lookupTask (add_label st i L) i =
      some (if L ∈ it.labels then it else { it with labels := it.labels ++ [L] }) := by
  unfold add_label
  rw [h]
  by_cases hm : L ∈ it.labels
  · simp [hm, h]
  · simp only [hm, if_neg, not_false_iff]
    rw [lookupTask_overview_irrelevant, lookupTask_updateTask]
    · simp [h, hm]
    · intro t; rfl

theorem lookupTask_remove_label_ne (st : PassState) (i j : Int) (L : String) (h : j ≠ i) :
    lookupTask (remove_label st i L) j = lookupTask st j := by
  unfold remove_label
  rcases hl : lookupTask st i with _ | it
  · rfl
  · by_cases hm : L ∈ it.labels
    · simp only [hm, if_pos]
      rw [lookupTask_overview_irrelevant, lookupTask_updateTask]
      · simp [h]
      · intro t; rfl
    · simp [hm]

theorem lookupTask_remove_label_self (st : PassState) (i : Int) (L : String) (it : Item)
    (h : lookupTask st i = some it) :
    lookupTask (remove_label st i L) i =
      some (if L ∈ it.labels then { it with labels := it.labels.erase L } else it) := by
  unfold remove_label
  rw [h]
  by_cases hm : L ∈ it.labels
  · simp only [hm, if_pos]
    rw [lookupTask_overview_irrelevant, lookupTask_updateTask]
    · simp [h, hm]
    · intro t; rfl
  · simp [hm, h]

/-! ## Stability of child eligibility under label edits -/

theorem eligible_add_label (st : PassState) (i : Int) (L : String) (c : Int) :
    eligibleChild (add_label st i L) c = eligibleChild st c := by
  by_cases hc : c = i
  · subst hc
    rcases h : lookupTask st c with _ | it
    · simp [add_label, h]
    · simp only [eligibleChild]
      rw [lookupTask_add_label_self st c L it h, h]
      by_cases hm : L ∈ it.labels <;> simp [hm]
  · simp only [eligibleChild]
    rw [lookupTask_add_label_ne st i c L hc]

theorem eligible_remove_label (st : PassState) (i : Int) (L : String) (c : Int) :
    eligibleChild (remove_label st i L) c = eligibleChild st c := by
  by_cases hc : c = i
  · subst hc
    rcases h : lookupTask st c with _ | it
    · simp [remove_label, h]
    · simp only [eligibleChild]
      rw [lookupTask_remove_label_self st c L it h, h]
      by_cases hm : L ∈ it.labels <;> simp [hm]
  · simp only [eligibleChild]
    rw [lookupTask_remove_label_ne st i c L hc]

/-! ## The parallel fan-out loop -/

theorem parChildStep_frame (L : String) (st : PassState) (c j : Int) (h : j ≠ c) :
    lookupTask (parChildStep L st c) j = lookupTask st j := by
  unfold parChildStep
  rcases hcl : lookupTask st c with _ | cit
  · rfl
  · by_cases hstar : pyStarts cit.content "*" = true
    · simp [hstar]
    · by_cases hcomp : cit.is_completed = true
      · simp [hstar, hcomp]
      · simp only [hstar, hcomp]
        simp [lookupTask_add_label_ne st c j L h]

theorem parChildStep_keeps_label (L : String) (st : PassState) (c j : Int) (ls : List String)
    (h : getLabels st j = some ls) (hmem : L ∈ ls) :
    ∃ ls', getLabels (parChildStep L st c) j = some ls' ∧ L ∈ ls' := by
  rcases hl : lookupTask st j with _ | jt
  · rw [getLabels, hl] at h; cases h
  · have hls : jt.labels = ls := by rw [getLabels, hl] at h; simpa using h
    by_cases hj : j = c
    · subst hj
      unfold parChildStep
      rw [hl]
      by_cases hstar : pyStarts jt.content "*" = true
      · exact ⟨ls, by simp [hstar, getLabels, hl, hls], hmem⟩
      · by_cases hcomp : jt.is_completed = true
        · exact ⟨ls, by simp [hstar, hcomp, getLabels, hl, hls], hmem⟩
        · refine ⟨ls, ?_, hmem⟩
          simp only [hstar, hcomp, Bool.false_eq_true, not_false_iff, if_true, ite_true,
            if_neg, Bool.not_eq_true]
          simp only [getLabels]
          rw [lookupTask_add_label_self st j L jt hl]
          simp [hmem, hls]
    · refine ⟨ls, ?_, hmem⟩
      simp only [getLabels]
      rw [parChildStep_frame L st c j hj, hl]
      simp [hls]

theorem parFold_frame (L : String) (cs : List Int) (st : PassState) (j : Int)
    (h : j ∉ cs) :
    lookupTask (cs.foldl (parChildStep L) st) j = lookupTask st j := by
  induction cs generalizing st with
  | nil => rfl
  | cons c cs ih =>
    have hj : j ≠ c := fun hc => h (hc ▸ List.mem_cons_self c cs)
    have hrest : j ∉ cs := fun hc => h (List.mem_cons_of_mem c hc)
    rw [List.foldl_cons, ih _ hrest, parChildStep_frame L st c j hj]

theorem parFold_keeps_label (L : String) (cs : List Int) (st : PassState) (j : Int)
    (ls : List String) (h : getLabels st j = some ls) (hmem : L ∈ ls) :
    ∃ ls', getLabels (cs.foldl (parChildStep L) st) j = some ls' ∧ L ∈ ls' := by
  induction cs generalizing st ls with
  | nil => exact ⟨ls, h, hmem⟩
  | cons c cs ih =>
    rcases parChildStep_keeps_label L st c j ls h hmem with ⟨ls1, h1, hm1⟩
    rw [List.foldl_cons]
    exact ih (parChildStep L st c) ls1 h1 hm1

theorem parFold_eligible (L : String) (cs : List Int) (st : PassState) :
    ∀ c ∈ cs, eligibleChild st c = true →
      ∃ ls, getLabels (cs.foldl (parChildStep L) st) c = some ls ∧ L ∈ ls := by
  induction cs generalizing st with
  | nil => intro c hc; cases hc
  | cons c0 cs ih =>
    intro c hc helig
    rw [List.foldl_cons]
    rcases List.mem_cons.mp hc with hceq | hcm
    · subst hceq
      -- the head step labels `c` (or it already holds the label); the tail
      -- steps never remove labels
      have : ∃ ls, getLabels (parChildStep L st c) c = some ls ∧ L ∈ ls := by
        unfold eligibleChild at helig
        rcases hl : lookupTask st c with _ | cit
        · rw [hl] at helig; cases helig
        · rw [hl] at helig
          have hstar : pyStarts cit.content "*" = false := by
            rcases hs : pyStarts cit.content "*" with _ | _ <;> simp [hs] at helig ⊢
          have hcomp : cit.is_completed = false := by
            rcases hs : cit.is_completed with _ | _ <;> simp [hs] at helig ⊢
          unfold parChildStep
          rw [hl]
          simp only [hstar, hcomp, Bool.false_eq_true, not_false_iff, if_neg,
            Bool.not_eq_true, if_true, ite_true]
          refine ⟨if L ∈ cit.labels then cit.labels else cit.labels ++ [L], ?_, ?_⟩
          · simp only [getLabels]
            rw [lookupTask_add_label_self st c L cit hl]
            by_cases hm : L ∈ cit.labels <;> simp [hm]
          · by_cases hm : L ∈ cit.labels <;> simp [hm]
      rcases this with ⟨ls, hls, hmem⟩
      exact parFold_keeps_label L cs (parChildStep L st c) c ls hls hmem
    · have helig' : eligibleChild (parChildStep L st c0) c = true := by
        unfold parChildStep
        rcases hl : lookupTask st c0 with _ | cit
        · exact helig
        · by_cases hstar : pyStarts cit.content "*" = true
          · simpa [hstar] using helig
          · by_cases hcomp : cit.is_completed = true
            · simpa [hstar, hcomp] using helig
            · simpa [hstar, hcomp, eligible_add_label] using helig
      exact ih (parChildStep L st c0) c hcm helig'

/-- Claim C4, amended.  For an item whose resolved active type is parallel
(or `s-p` while the item holds the label), the child scan removes the label
from the item and hands it to every non-completed, non-header child, and
immediately after the scan every such child holds the label.  (At the end of
the whole pass this can no longer be guaranteed: a child that itself has
non-completed children passes the label further down when it is visited, as
the counterexample shows.) -/
theorem c4_fanout_amended (L : String) (it_t sec_t proj_t : Option String) (itemId : Int)
    (cs : List Int) (st : PassState) (it : Item)
    (hlook : lookupTask st itemId = some it)
    (hcs : cs ≠ [])
    (hself : itemId ∉ cs)
    (hact : ((it_t <|> sec_t) <|> proj_t) = some "parallel" ∨
            (((it_t <|> sec_t) <|> proj_t) = some "s-p" ∧ L ∈ it.labels)) :
    getLabels (childrenPhase L it_t sec_t proj_t itemId cs st) itemId =
        some (it.labels.erase L) ∧
    ∀ c ∈ cs, eligibleChild st c = true →
      ∃ ls, getLabels (childrenPhase L it_t sec_t proj_t itemId cs st) c = some ls ∧ L ∈ ls := by
  have hbody : childrenPhase L it_t sec_t proj_t itemId cs st =
      cs.foldl (parChildStep L) (remove_label st itemId L) := by
    rcases hact with ha | ⟨ha, hm⟩
    · simp [childrenPhase, ha, hcs]
    · simp [childrenPhase, ha, hcs, hlook, hm]
  rw [hbody]
  constructor
  · rw [getLabels, parFold_frame L cs (remove_label st itemId L) itemId hself,
      lookupTask_remove_label_self st itemId L it hlook]
    by_cases hm : L ∈ it.labels
    · simp [hm]
    · simp [hm, List.erase_of_not_mem hm]
  · intro c hc helig
    have helig' : eligibleChild (remove_label st itemId L) c = true := by
      rw [eligible_remove_label]; exact helig
    exact parFold_eligible L cs (remove_label st itemId L) c hc helig'



/-- Witness for the amended C4 theorem at a concrete input: the parallel
item 10 of `snapC4x` with child list `[11]`. -/
theorem c4_fanout_amended_witness :
    (lookupTask (stInit snapC4x) 10 = some (mkItem 10 none none 1 "X//" 1 false []) ∧
     ([11] : List Int) ≠ [] ∧ (10 : Int) ∉ ([11] : List Int) ∧
     (((some "parallel" : Option String) <|> none) <|> none) = some "parallel") ∧
    (getLabels (childrenPhase NA (some "parallel") none none 10 [11] (stInit snapC4x)) 10 =
        some ((mkItem 10 none none 1 "X//" 1 false []).labels.erase NA) ∧
     ∀ c ∈ ([11] : List Int), eligibleChild (stInit snapC4x) c = true →
       ∃ ls, getLabels (childrenPhase NA (some "parallel") none none 10 [11] (stInit snapC4x)) c =
          some ls ∧ NA ∈ ls) :=
  ⟨⟨by decide, by decide, by decide, by decide⟩,
    c4_fanout_amended NA (some "parallel") none none 10 [11] (stInit snapC4x)
      (mkItem 10 none none 1 "X//" 1 false []) (by decide) (by decide) (by decide)
      (Or.inl (by decide))⟩

/-! ## Nodup preservation and eligibility stability -/

theorem nodup_add_label (st : PassState) (i : Int) (L : String)
    (h : AllLabelsNodup st) : AllLabelsNodup (add_label st i L) := by
  intro j t hj
  by_cases hji : j = i
  · subst hji
    rcases hl : lookupTask st j with _ | it
    · simp only [add_label, hl] at hj
      exact Option.noConfusion hj
    · rw [lookupTask_add_label_self st j L it hl] at hj
      by_cases hm : L ∈ it.labels
      · rw [if_pos hm] at hj
        injection hj with h2
        subst h2
        exact h j it hl
      · rw [if_neg hm] at hj
        injection hj with h2
        subst h2
        have hn := h j it hl
        simp [List.nodup_append, hn, hm]
  · rw [lookupTask_add_label_ne st i j L hji] at hj
    exact h j t hj

theorem nodup_remove_label (st : PassState) (i : Int) (L : String)
    (h : AllLabelsNodup st) : AllLabelsNodup (remove_label st i L) := by
  intro j t hj
  by_cases hji : j = i
  · subst hji
    rcases hl : lookupTask st j with _ | it
    · simp only [remove_label, hl] at hj
      exact Option.noConfusion hj
    · rw [lookupTask_remove_label_self st j L it hl] at hj
      by_cases hm : L ∈ it.labels
      · rw [if_pos hm] at hj
        injection hj with h2
        subst h2
        exact (h j it hl).erase L
      · rw [if_neg hm] at hj
        injection hj with h2
        subst h2
        exact h j it hl
  · rw [lookupTask_remove_label_ne st i j L hji] at hj
    exact h j t hj

theorem eligible_seqChildStep (L : String) (pid : Int) (st : PassState) (c x : Int) :
    eligibleChild (seqChildStep L pid st c) x = eligibleChild st x := by
  unfold seqChildStep
  rcases hcl : lookupTask st c with _ | cit
  · rfl
  · by_cases hstar : pyStarts cit.content "*" = true
    · simp [hstar]
    · simp only [hstar, Bool.false_eq_true, if_neg, not_false_iff]
      split
      · rw [eligible_remove_label, eligible_add_label]
      · rw [eligible_remove_label]

theorem eligible_parChildStep (L : String) (st : PassState) (c x : Int) :
    eligibleChild (parChildStep L st c) x = eligibleChild st x := by
  unfold parChildStep
  rcases hcl : lookupTask st c with _ | cit
  · rfl
  · by_cases hstar : pyStarts cit.content "*" = true
    · simp [hstar]
    · by_cases hcomp : cit.is_completed = true
      · simp [hstar, hcomp]
      · simp only [hstar, hcomp, Bool.false_eq_true, not_false_iff, if_neg, if_true, ite_true,
          Bool.not_eq_true]
        rw [eligible_add_label]

theorem firstEligible_congr (st st' : PassState) (cs : List Int)
    (h : ∀ x, eligibleChild st' x = eligibleChild st x) :
    firstEligibleChild st' cs = firstEligibleChild st cs := by
  induction cs with
  | nil => rfl
  | cons c cs ih =>
    simp only [firstEligibleChild, List.find?_cons, h c] at ih ⊢
    cases hec : eligibleChild st c <;> simp [hec, ih]

/-! ## The sequential hand-off loop -/

theorem seqChildStep_frame (L : String) (pid : Int) (st : PassState) (c j : Int)
    (hc : j ≠ c) (hp : j ≠ pid) :
    lookupTask (seqChildStep L pid st c) j = lookupTask st j := by
  unfold seqChildStep
  rcases hcl : lookupTask st c with _ | cit
  · rfl
  · by_cases hstar : pyStarts cit.content "*" = true
    · simp [hstar]
    · simp only [hstar, Bool.false_eq_true, if_neg, not_false_iff]
      split
      · rw [lookupTask_remove_label_ne _ _ _ _ hp, lookupTask_add_label_ne _ _ _ _ hc]
      · rw [lookupTask_remove_label_ne _ _ _ _ hc]

theorem seqFold_frame (L : String) (pid : Int) (cs : List Int) (st : PassState) (j : Int)
    (hcs : j ∉ cs) (hp : j ≠ pid) :
    lookupTask (cs.foldl (seqChildStep L pid) st) j = lookupTask st j := by
  induction cs generalizing st with
  | nil => rfl
  | cons c cs ih =>
    have hj : j ≠ c := fun hc => hcs (hc ▸ List.mem_cons_self c cs)
    have hrest : j ∉ cs := fun hc => hcs (List.mem_cons_of_mem c hc)
    rw [List.foldl_cons, ih _ hrest, seqChildStep_frame L pid st c j hj hp]

/-- When the parent does not hold the label, the scan's hand-off branch is
unreachable: each iteration either does nothing (missing or headered child)
or cleans the child. -/
theorem seqChildStep_noHold_eq (L : String) (pid : Int) (st : PassState) (c : Int) (p : Item)
    (hpl : lookupTask st pid = some p) (hnp : L ∉ p.labels) :
    seqChildStep L pid st c = st ∨ seqChildStep L pid st c = remove_label st c L := by
  unfold seqChildStep
  rcases hcl : lookupTask st c with _ | cit
  · exact Or.inl rfl
  · by_cases hstar : pyStarts cit.content "*" = true
    · simp [hstar]
    · right
      simp only [hstar, Bool.false_eq_true, if_neg, not_false_iff]
      rw [if_neg]
      rintro ⟨-, hhold⟩
      rw [hpl] at hhold
      simp at hhold
      exact hnp hhold

/-- A non-eligible child never receives the hand-off either. -/
theorem seqChildStep_notElig_eq (L : String) (pid : Int) (st : PassState) (c : Int)
    (he : eligibleChild st c = false) :
    seqChildStep L pid st c = st ∨ seqChildStep L pid st c = remove_label st c L := by
  unfold seqChildStep
  rcases hcl : lookupTask st c with _ | cit
  · exact Or.inl rfl
  · unfold eligibleChild at he
    simp only [hcl] at he
    by_cases hstar : pyStarts cit.content "*" = true
    · simp [hstar]
    · have hcomp : cit.is_completed = true := by
        rcases hb : cit.is_completed with _ | _
        · exfalso
          have hstarF : pyStarts cit.content "*" = false := by
            cases hps : pyStarts cit.content "*"
            · rfl
            · exact absurd hps hstar
          rw [hstarF, hb] at he
          simp at he
        · rfl
      right
      simp only [hstar, Bool.false_eq_true, if_neg, not_false_iff]
      rw [if_neg]
      rintro ⟨hnc, -⟩
      exact hnc hcomp

/-- A present non-headered child is cleaned whenever the parent does not
hold the label. -/
theorem seqChildStep_strips (L : String) (pid : Int) (st : PassState) (c : Int)
    (p cit : Item) (hpl : lookupTask st pid = some p) (hnp : L ∉ p.labels)
    (hlc : lookupTask st c = some cit) (hstar : pyStarts cit.content "*" = false) :
    seqChildStep L pid st c = remove_label st c L := by
  unfold seqChildStep
  rw [hlc]
  simp only [hstar, Bool.false_eq_true, if_neg, not_false_iff]
  rw [if_neg]
  rintro ⟨-, hhold⟩
  rw [hpl] at hhold
  simp at hhold
  exact hnp hhold

theorem remove_label_keeps_absent (st : PassState) (i : Int) (L : String) (j : Int)
    (ls : List String) (h : getLabels st j = some ls) (hn : L ∉ ls) :
    ∃ ls', getLabels (remove_label st i L) j = some ls' ∧ L ∉ ls' := by
  rcases hl : lookupTask st j with _ | jt
  · rw [getLabels, hl] at h; cases h
  · have hls : jt.labels = ls := by rw [getLabels, hl] at h; simpa using h
    by_cases hji : j = i
    · subst hji
      refine ⟨if L ∈ jt.labels then jt.labels.erase L else jt.labels, ?_, ?_⟩
      · rw [getLabels, lookupTask_remove_label_self st j L jt hl]
        by_cases hm : L ∈ jt.labels <;> simp [hm]
      · by_cases hm : L ∈ jt.labels
        · rw [if_pos hm]
          intro hc
          exact hn (hls ▸ List.mem_of_mem_erase hc)
        · rw [if_neg hm, hls]
          exact hn
    · exact ⟨ls, by rw [getLabels, lookupTask_remove_label_ne st i j L hji, hl]; simp [hls], hn⟩

theorem seqFold_noHold (L : String) (pid : Int) (cs : List Int) (st : PassState) (p : Item)
    (hpl : lookupTask st pid = some p) (hnp : L ∉ p.labels) (hself : pid ∉ cs)
    (hnod : AllLabelsNodup st) :
    lookupTask (cs.foldl (seqChildStep L pid) st) pid = some p ∧
    AllLabelsNodup (cs.foldl (seqChildStep L pid) st) ∧
    (∀ j ls, getLabels st j = some ls → L ∉ ls →
       ∃ ls', getLabels (cs.foldl (seqChildStep L pid) st) j = some ls' ∧ L ∉ ls') ∧
    (∀ c ∈ cs, eligibleChild st c = true →
       ∃ ls, getLabels (cs.foldl (seqChildStep L pid) st) c = some ls ∧ L ∉ ls) := by
  induction cs generalizing st with
  | nil =>
    exact ⟨hpl, hnod, fun j ls h hn => ⟨ls, h, hn⟩, fun c hc => absurd hc (List.not_mem_nil c)⟩
  | cons c cs ih =>
    have hcp : c ≠ pid := fun hc => hself (hc ▸ List.mem_cons_self c cs)
    have hrest : pid ∉ cs := fun hc => hself (List.mem_cons_of_mem c hc)
    have hdic := seqChildStep_noHold_eq L pid st c p hpl hnp
    -- facts about the single step
    have hpl1 : lookupTask (seqChildStep L pid st c) pid = some p := by
      rcases hdic with hd | hd <;> rw [hd]
      · exact hpl
      · rw [lookupTask_remove_label_ne _ _ _ _ (Ne.symm hcp)]; exact hpl
    have hnod1 : AllLabelsNodup (seqChildStep L pid st c) := by
      rcases hdic with hd | hd <;> rw [hd]
      · exact hnod
      · exact nodup_remove_label st c L hnod
    have habs1 : ∀ j ls, getLabels st j = some ls → L ∉ ls →
        ∃ ls', getLabels (seqChildStep L pid st c) j = some ls' ∧ L ∉ ls' := by
      intro j ls h hn
      rcases hdic with hd | hd <;> rw [hd]
      · exact ⟨ls, h, hn⟩
      · exact remove_label_keeps_absent st c L j ls h hn
    have helig1 : ∀ x, eligibleChild (seqChildStep L pid st c) x = eligibleChild st x :=
      eligible_seqChildStep L pid st c
    obtain ⟨ihp, ihnod, ihabs, ihelig⟩ :=
      ih (seqChildStep L pid st c) hpl1 hrest hnod1
    refine ⟨ihp, ihnod, ?_, ?_⟩
    · intro j ls h hn
      obtain ⟨ls1, h1, hn1⟩ := habs1 j ls h hn
      exact ihabs j ls1 h1 hn1
    · intro c' hc' helig'
      rcases List.mem_cons.mp hc' with hceq | hcm
      · subst hceq
        unfold eligibleChild at helig'
        rcases hlc : lookupTask st c' with _ | cit
        · simp only [hlc] at helig'; cases helig'
        · simp only [hlc] at helig'
          have hstar : pyStarts cit.content "*" = false := by
            rcases hs : pyStarts cit.content "*" with _ | _
            · rfl
            · rw [hs] at helig'; simp at helig'
          have hstep := seqChildStep_strips L pid st c' p cit hpl hnp hlc hstar
          have hbase : ∃ ls, getLabels (seqChildStep L pid st c') c' = some ls ∧ L ∉ ls := by
            rw [hstep]
            refine ⟨if L ∈ cit.labels then cit.labels.erase L else cit.labels, ?_, ?_⟩
            · rw [getLabels, lookupTask_remove_label_self st c' L cit hlc]
              by_cases hm : L ∈ cit.labels <;> simp [hm]
            · by_cases hm : L ∈ cit.labels
              · rw [if_pos hm]
                exact (hnod c' cit hlc).not_mem_erase
              · rw [if_neg hm]
                exact hm
          obtain ⟨ls1, h1, hn1⟩ := hbase
          exact ihabs c' ls1 h1 hn1
      · exact ihelig c' hcm (by rw [helig1 c']; exact helig')

theorem seqFold_hold (L : String) (pid : Int) (cs : List Int) (st : PassState) (p : Item)
    (hpl : lookupTask st pid = some p) (hp : L ∈ p.labels)
    (hself : pid ∉ cs) (hnodcs : cs.Nodup) (hnod : AllLabelsNodup st) :
    (firstEligibleChild st cs = none →
       lookupTask (cs.foldl (seqChildStep L pid) st) pid = some p) ∧
    (∀ c0, firstEligibleChild st cs = some c0 →
       getLabels (cs.foldl (seqChildStep L pid) st) pid = some (p.labels.erase L) ∧
       (∃ ls, getLabels (cs.foldl (seqChildStep L pid) st) c0 = some ls ∧ L ∈ ls) ∧
       (∀ c ∈ cs, c ≠ c0 → eligibleChild st c = true →
          ∃ ls, getLabels (cs.foldl (seqChildStep L pid) st) c = some ls ∧ L ∉ ls)) := by
  induction cs generalizing st with
  | nil =>
    exact ⟨fun _ => hpl, fun c0 h => Option.noConfusion h⟩
  | cons c cs ih =>
    have hcp : c ≠ pid := fun hc => hself (hc ▸ List.mem_cons_self c cs)
    have hrest : pid ∉ cs := fun hc => hself (List.mem_cons_of_mem c hc)
    have hnodcs' : cs.Nodup := hnodcs.of_cons
    have hcnotin : c ∉ cs := (List.nodup_cons.mp hnodcs).1
    rcases he : eligibleChild st c with _ | _
    · -- head not eligible: the scan continues with the same parent state
      have hdic := seqChildStep_notElig_eq L pid st c he
      have hpl1 : lookupTask (seqChildStep L pid st c) pid = some p := by
        rcases hdic with hd | hd <;> rw [hd]
        · exact hpl
        · rw [lookupTask_remove_label_ne _ _ _ _ (Ne.symm hcp)]; exact hpl
      have hnod1 : AllLabelsNodup (seqChildStep L pid st c) := by
        rcases hdic with hd | hd <;> rw [hd]
        · exact hnod
        · exact nodup_remove_label st c L hnod
      have helig1 : ∀ x, eligibleChild (seqChildStep L pid st c) x = eligibleChild st x :=
        eligible_seqChildStep L pid st c
      have hfirst : ∀ r, firstEligibleChild st (c :: cs) = r ↔
          firstEligibleChild (seqChildStep L pid st c) cs = r := by
        intro r
        rw [firstEligible_congr st (seqChildStep L pid st c) cs helig1]
        simp [firstEligibleChild, List.find?_cons, he]
      obtain ⟨ihnone, ihsome⟩ := ih (seqChildStep L pid st c) hpl1 hrest hnodcs' hnod1
      constructor
      · intro hn
        exact ihnone ((hfirst none).mp hn)
      · intro c0 hs
        obtain ⟨cp, cc0, cothers⟩ := ihsome c0 ((hfirst (some c0)).mp hs)
        refine ⟨cp, cc0, ?_⟩
        intro c' hc' hne helig'
        rcases List.mem_cons.mp hc' with hceq | hcm
        · subst hceq; rw [he] at helig'; cases helig'
        · exact cothers c' hcm hne (by rw [helig1 c']; exact helig')
    · -- head eligible: it receives the hand-off, the parent is cleaned, and
      -- the rest of the scan strips every later eligible child
      have helig0 := he
      unfold eligibleChild at helig0
      rcases hlc : lookupTask st c with _ | cit
      · simp only [hlc] at helig0; cases helig0
      simp only [hlc] at helig0
      have hstar : pyStarts cit.content "*" = false := by
        rcases hs : pyStarts cit.content "*" with _ | _
        · rfl
        · rw [hs] at helig0; simp at helig0
      have hcomp : cit.is_completed = false := by
        rcases hs : cit.is_completed with _ | _
        · rfl
        · rw [hs] at helig0; simp at helig0
      have hstep : seqChildStep L pid st c = remove_label (add_label st c L) pid L := by
        unfold seqChildStep
        rw [hlc]
        simp only [hstar, Bool.false_eq_true, if_neg, not_false_iff]
        rw [if_pos]
        constructor
        · rw [hcomp]; simp
        · rw [hpl]; simpa using hp
      have hpnodup : p.labels.Nodup := hnod pid p hpl
      have hplmid : lookupTask (add_label st c L) pid = some p := by
        rw [lookupTask_add_label_ne _ _ _ _ (Ne.symm hcp)]; exact hpl
      have hpl1 : lookupTask (seqChildStep L pid st c) pid =
          some { p with labels := p.labels.erase L } := by
        rw [hstep, lookupTask_remove_label_self _ _ _ _ hplmid]
        simp [hp]
      have hnp1 : L ∉ ({ p with labels := p.labels.erase L } : Item).labels :=
        hpnodup.not_mem_erase
      have hc1 : ∃ ls, getLabels (seqChildStep L pid st c) c = some ls ∧ L ∈ ls := by
        rw [hstep]
        refine ⟨if L ∈ cit.labels then cit.labels else cit.labels ++ [L], ?_, ?_⟩
        · rw [getLabels, lookupTask_remove_label_ne _ _ _ _ hcp,
            lookupTask_add_label_self st c L cit hlc]
          by_cases hm : L ∈ cit.labels <;> simp [hm]
        · by_cases hm : L ∈ cit.labels <;> simp [hm]
      have hnod1 : AllLabelsNodup (seqChildStep L pid st c) := by
        rw [hstep]
        exact nodup_remove_label _ _ _ (nodup_add_label _ _ _ hnod)
      obtain ⟨nhp, nhnod, nhabs, nhelig⟩ :=
        seqFold_noHold L pid cs (seqChildStep L pid st c)
          { p with labels := p.labels.erase L } hpl1 hnp1 hrest hnod1
      have hfirst : firstEligibleChild st (c :: cs) = some c := by
        simp [firstEligibleChild, List.find?_cons, he]
      constructor
      · intro hn
        rw [hfirst] at hn; cases hn
      · intro c0 hs
        rw [hfirst] at hs
        injection hs with hc0
        subst hc0
        refine ⟨?_, ?_, ?_⟩
        · rw [getLabels, List.foldl_cons, nhp]
          rfl
        · obtain ⟨ls, hls, hmem⟩ := hc1
          rw [List.foldl_cons]
          refine ⟨ls, ?_, hmem⟩
          rw [getLabels, seqFold_frame L pid cs (seqChildStep L pid st c) c hcnotin hcp]
          rw [getLabels] at hls
          exact hls
        · intro c' hc' hne helig'
          rcases List.mem_cons.mp hc' with hceq | hcm
          · exact absurd hceq hne
          · rw [List.foldl_cons]
            exact nhelig c' hcm (by rw [eligible_seqChildStep]; exact helig')

theorem lookupTask_mem (st : PassState) (j : Int) (t : Item)
    (h : lookupTask st j = some t) : t ∈ st.snap.tasks := by
  unfold lookupTask at h
  have h1 : t ∈ st.snap.tasks.filter (fun t => t.id = j) := by
    rcases hl : st.snap.tasks.filter (fun t => t.id = j) with _ | ⟨x, xs⟩
    · rw [hl] at h; cases h
    · rw [hl] at h
      injection h with h2
      rw [hl, ← h2]
      exact List.mem_cons_self x xs
  exact List.mem_of_mem_filter h1

theorem AllLabelsNodup_of_tasks (st : PassState)
    (h : ∀ t ∈ st.snap.tasks, t.labels.Nodup) : AllLabelsNodup st :=
  fun j t hj => h t (lookupTask_mem st j t hj)

/-- Claim C3, amended.  For an item whose resolved active type is sequential
or `p-s`, immediately after the child scan: at most one non-completed,
non-header child holds the next-action label; if the item held the label it
is moved to the first non-completed, non-header child and erased from the
item; otherwise the label is stripped from every non-completed, non-header
child — but only from those (a completed child, excluded from the scan, may
keep a stale label until the end of the pass, as the counterexample shows). -/
theorem c3_single_branch_amended (L : String) (it_t sec_t proj_t : Option String)
    (itemId : Int) (cs : List Int) (st : PassState) (it : Item)
    (hlook : lookupTask st itemId = some it)
    (hcs : cs ≠ []) (hself : itemId ∉ cs) (hnodcs : cs.Nodup)
    (hnod : AllLabelsNodup st)
    (hact : ((it_t <|> sec_t) <|> proj_t) = some "sequential" ∨
            ((it_t <|> sec_t) <|> proj_t) = some "p-s") :
    (∀ c ∈ cs, ∀ c' ∈ cs, eligibleChild st c = true → eligibleChild st c' = true →
       (∃ ls, getLabels (childrenPhase L it_t sec_t proj_t itemId cs st) c = some ls ∧ L ∈ ls) →
       (∃ ls, getLabels (childrenPhase L it_t sec_t proj_t itemId cs st) c' = some ls ∧ L ∈ ls) →
       c = c') ∧
    (L ∈ it.labels → ∀ c0, firstEligibleChild st cs = some c0 →
       getLabels (childrenPhase L it_t sec_t proj_t itemId cs st) itemId =
           some (it.labels.erase L) ∧
       (∃ ls, getLabels (childrenPhase L it_t sec_t proj_t itemId cs st) c0 = some ls ∧ L ∈ ls)) ∧
    (L ∉ it.labels → lookupTask (childrenPhase L it_t sec_t proj_t itemId cs st) itemId = some it ∧
       ∀ c ∈ cs, eligibleChild st c = true →
         ∃ ls, getLabels (childrenPhase L it_t sec_t proj_t itemId cs st) c = some ls ∧ L ∉ ls) := by
  have hbody : childrenPhase L it_t sec_t proj_t itemId cs st =
      cs.foldl (seqChildStep L itemId) st := by
    rcases hact with ha | ha <;> simp [childrenPhase, ha, hcs]
  rw [hbody]
  by_cases hm : L ∈ it.labels
  · obtain ⟨hnone, hsome⟩ := seqFold_hold L itemId cs st it hlook hm hself hnodcs hnod
    refine ⟨?_, ?_, ?_⟩
    · intro c hc c' hc' hec hec' hold hold'
      rcases hfe : firstEligibleChild st cs with _ | c0
      · exfalso
        have := List.find?_eq_none.mp hfe c hc
        rw [hec] at this
        exact this rfl
      · obtain ⟨-, -, cothers⟩ := hsome c0 hfe
        by_cases hcc : c = c0
        · by_cases hcc' : c' = c0
          · rw [hcc, hcc']
          · obtain ⟨ls1, hls1, hn1⟩ := cothers c' hc' hcc' hec'
            obtain ⟨ls2, hls2, hi2⟩ := hold'
            rw [hls1] at hls2
            injection hls2 with h3
            exact absurd (h3 ▸ hi2) hn1
        · obtain ⟨ls1, hls1, hn1⟩ := cothers c hc hcc hec
          obtain ⟨ls2, hls2, hi2⟩ := hold
          rw [hls1] at hls2
          injection hls2 with h3
          exact absurd (h3 ▸ hi2) hn1
    · intro _ c0 hfe
      obtain ⟨cp, cc0, -⟩ := hsome c0 hfe
      exact ⟨cp, cc0⟩
    · intro hnm
      exact absurd hm hnm
  · obtain ⟨np, -, -, nelig⟩ := seqFold_noHold L itemId cs st it hlook hm hself hnod
    refine ⟨?_, ?_, ?_⟩
    · intro c hc c' hc' hec hec' hold hold'
      exfalso
      obtain ⟨ls1, hls1, hn1⟩ := nelig c hc hec
      obtain ⟨ls2, hls2, hi2⟩ := hold
      rw [hls1] at hls2
      injection hls2 with h3
      exact absurd (h3 ▸ hi2) hn1
    · intro hmm
      exact absurd hmm hm
    · intro _
      exact ⟨np, nelig⟩

/-- Witness for the amended C3 theorem: the sequential item 10 of `snapC3x`
with child list `[11, 12]` (11 incomplete, 12 completed and stale). -/
theorem c3_single_branch_amended_witness :
    (lookupTask (stInit snapC3x) 10 = some (mkItem 10 none none 1 "X--" 1 false [NA]) ∧
     ([11, 12] : List Int) ≠ [] ∧ (10 : Int) ∉ ([11, 12] : List Int) ∧
     ([11, 12] : List Int).Nodup ∧
     (((some "sequential" : Option String) <|> none) <|> none) = some "sequential") ∧
    ((∀ c ∈ ([11, 12] : List Int), ∀ c' ∈ ([11, 12] : List Int),
       eligibleChild (stInit snapC3x) c = true → eligibleChild (stInit snapC3x) c' = true →
       (∃ ls, getLabels (childrenPhase NA (some "sequential") none none 10 [11, 12]
           (stInit snapC3x)) c = some ls ∧ NA ∈ ls) →
       (∃ ls, getLabels (childrenPhase NA (some "sequential") none none 10 [11, 12]
           (stInit snapC3x)) c' = some ls ∧ NA ∈ ls) → c = c') ∧
     (NA ∈ (mkItem 10 none none 1 "X--" 1 false [NA]).labels →
       ∀ c0, firstEligibleChild (stInit snapC3x) [11, 12] = some c0 →
       getLabels (childrenPhase NA (some "sequential") none none 10 [11, 12]
           (stInit snapC3x)) 10 =
         some ((mkItem 10 none none 1 "X--" 1 false [NA]).labels.erase NA) ∧
       (∃ ls, getLabels (childrenPhase NA (some "sequential") none none 10 [11, 12]
           (stInit snapC3x)) c0 = some ls ∧ NA ∈ ls)) ∧
     (NA ∉ (mkItem 10 none none 1 "X--" 1 false [NA]).labels →
       lookupTask (childrenPhase NA (some "sequential") none none 10 [11, 12]
           (stInit snapC3x)) 10 = some (mkItem 10 none none 1 "X--" 1 false [NA]) ∧
       ∀ c ∈ ([11, 12] : List Int), eligibleChild (stInit snapC3x) c = true →
         ∃ ls, getLabels (childrenPhase NA (some "sequential") none none 10 [11, 12]
             (stInit snapC3x)) c = some ls ∧ NA ∉ ls)) :=
  ⟨⟨by decide, by decide, by decide, by decide, by decide⟩,
    c3_single_branch_amended NA (some "sequential") none none 10 [11, 12]
      (stInit snapC3x) (mkItem 10 none none 1 "X--" 1 false [NA]) (by decide) (by decide)
      (by decide) (by decide) (AllLabelsNodup_of_tasks _ (by decide)) (Or.inl (by decide))⟩

/-! ## Projection preservation through the pre-labeling phases -/

theorem lookup_proj_updateTask {α : Type} (pr : Item → α) (st : PassState) (i j : Int)
    (f : Item → Item) (hid : ∀ t, (f t).id = t.id) (hpr : ∀ t, pr (f t) = pr t) :
    (lookupTask (updateTask st i f) j).map pr = (lookupTask st j).map pr := by
  rw [lookupTask_updateTask st i j f hid]
  by_cases hj : j = i
  · rw [if_pos hj]
    rcases lookupTask st j with _ | t
    · rfl
    · simp [hpr t]
  · rw [if_neg hj]

theorem foldl_proj_pres {α β : Type} (g : PassState → β → PassState) (pr : Item → α)
    (h : ∀ s b j, (lookupTask (g s b) j).map pr = (lookupTask s j).map pr) :
    ∀ (l : List β) (s : PassState) (j : Int),
      (lookupTask (l.foldl g s) j).map pr = (lookupTask s j).map pr := by
  intro l
  induction l with
  | nil => intro s j; rfl
  | cons b l ih => intro s j; rw [List.foldl_cons, ih, h]

theorem proj_headerApply {α : Type} (pr : Item → α)
    (hc : ∀ t c, pr { t with content := c } = pr t)
    (st : PassState) (itemId : Int) (cs : List Int) (j : Int) :
    (lookupTask (headerApply st itemId cs) j).map pr = (lookupTask st j).map pr := by
  unfold headerApply
  rcases hl : lookupTask st itemId with _ | it
  · rfl
  · dsimp only
    by_cases hstar : pyTake it.content 1 ≠ "*"
    · rw [if_pos hstar]
      refine (foldl_proj_pres _ pr ?_ cs _ j).trans
        (lookup_proj_updateTask pr st itemId j
          (fun t => { t with content := "* " ++ t.content }) (fun t => rfl)
          (fun t => hc t ("* " ++ t.content)))
      intro s b j'
      rcases hlb : lookupTask s b with _ | bt
      · rfl
      · by_cases hbs : ¬ pyStarts bt.content "*" = true
        · simp only [hlb, hbs, if_pos]
          exact lookup_proj_updateTask pr s b j'
            (fun t => { t with content := "* " ++ t.content }) (fun t => rfl)
            (fun t => hc t ("* " ++ t.content))
        · simp [hlb, hbs]
    · simp [hstar]

theorem proj_unheaderSelf {α : Type} (pr : Item → α)
    (hc : ∀ t c, pr { t with content := c } = pr t)
    (st : PassState) (itemId : Int) (j : Int) :
    (lookupTask (unheaderSelf st itemId) j).map pr = (lookupTask st j).map pr := by
  unfold unheaderSelf
  rcases hl : lookupTask st itemId with _ | it
  · rfl
  · dsimp only
    by_cases hs : pyTake it.content 1 = "*"
    · rw [if_pos hs]
      exact lookup_proj_updateTask pr st itemId j
        (fun t => { t with content := pyDrop t.content 2 }) (fun t => rfl)
        (fun t => hc t (pyDrop t.content 2))
    · simp [hs]

theorem proj_unheaderChild {α : Type} (pr : Item → α)
    (hc : ∀ t c, pr { t with content := c } = pr t)
    (st : PassState) (cid j : Int) :
    (lookupTask (unheaderChild st cid) j).map pr = (lookupTask st j).map pr :=
  lookup_proj_updateTask pr st cid j
    (fun t => { t with content := pyDrop t.content 2 }) (fun t => rfl)
    (fun t => hc t (pyDrop t.content 2))

theorem proj_run_recurring {α : Type} (pr : Item → α)
    (hdo : ∀ t d, pr { t with date_old := d } = pr t)
    (hr : ∀ t b, pr { t with r_tag := b } = pr t)
    (hdue : ∀ t d, pr { t with due := d } = pr t)
    (args : Args) (today hour : Int) (st : PassState) (itemId : Int)
    (ci ca : List Int) (j : Int) :
    (lookupTask (run_recurring_lists_logic args today hour st itemId ci ca) j).map pr =
      (lookupTask st j).map pr := by
  unfold run_recurring_lists_logic
  rcases hl : lookupTask st itemId with _ | it
  · rfl
  · by_cases hpar : it.parent_id.isNone
    · simp only [hpar, if_pos]
      rcases it.due with _ | due
      · rfl
      · by_cases hrec : due.is_recurring = true
        · simp only [hrec, if_pos]
          rcases it.date_old with _ | date_old
          · exact lookup_proj_updateTask pr st itemId j
              (fun t => { t with date_old := some due.date }) (fun t => rfl)
              (fun t => hdo t (some due.date))
          · dsimp only
            by_cases hch : due.date ≠ date_old
            · rw [if_pos hch]
              have h1 : ∀ (s : PassState),
                  (lookupTask (ca.foldl (fun s cid =>
                      updateTask s cid (fun t => { t with r_tag := true })) s) j).map pr =
                    (lookupTask s j).map pr := fun s =>
                foldl_proj_pres _ pr
                  (fun s' b j' =>
                    lookup_proj_updateTask pr s' b j'
                      (fun t => { t with r_tag := true }) (fun t => rfl)
                      (fun t => hr t true)) ca s j
              have h0 : ∀ (s : PassState), (lookupTask
                  (updateTask s itemId (fun t => { t with date_old := some due.date })) j).map pr =
                    (lookupTask s j).map pr := fun s =>
                lookup_proj_updateTask pr s itemId j
                  (fun t => { t with date_old := some due.date }) (fun t => rfl)
                  (fun t => hdo t (some due.date))
              have h2 : ∀ (s : PassState), (lookupTask (updateTask s itemId (fun t =>
                  { t with due := some { date := today, is_recurring := true } })) j).map pr =
                    (lookupTask s j).map pr := fun s =>
                lookup_proj_updateTask pr s itemId j
                  (fun t => { t with due := some { date := today, is_recurring := true } })
                  (fun t => rfl)
                  (fun t => hdue t (some { date := today, is_recurring := true }))
              rcases args.regeneration with _ | regen
              · rcases args.end_hour with _ | e
                · dsimp only
                  exact h0 st
                · dsimp only
                  split
                  · split
                    · exact (h2 _).trans (h0 st)
                    · exact h0 st
                  · exact h0 st
              · dsimp only
                by_cases hgive : ((check_regen_mode it.labels).getD regen = 1 ∨
                    ((check_regen_mode it.labels).getD regen = 2 ∧ ci = []))
                · rw [if_pos hgive]
                  rcases args.end_hour with _ | e
                  · dsimp only
                    exact (h1 _).trans (h0 st)
                  · dsimp only
                    split
                    · split
                      · exact (h2 _).trans ((h1 _).trans (h0 st))
                      · exact (h1 _).trans (h0 st)
                    · exact (h1 _).trans (h0 st)
                · rw [if_neg hgive]
                  rcases args.end_hour with _ | e
                  · dsimp only
                    exact h0 st
                  · dsimp only
                    split
                    · split
                      · exact (h2 _).trans (h0 st)
                      · exact h0 st
                    · exact h0 st
            · simp only [hch]
              simp
        · simp [hrec]
    · simp only [hpar]
      simp

theorem proj_ite {α : Type} (pr : Item → α) (j : Int) (b : Prop) [Decidable b]
    (x y : PassState)
    (h : (lookupTask x j).map pr = (lookupTask y j).map pr) :
    (lookupTask (if b then x else y) j).map pr = (lookupTask y j).map pr := by
  by_cases hb : b
  · rw [if_pos hb]; exact h
  · rw [if_neg hb]

/-- The phases that run before the labeling logic never change any field a
projection insensitive to `content`, `r_tag`, `date_old`, and `due` can
see — in particular, they never change a label list. -/
theorem proj_prePhases {α : Type} (pr : Item → α)
    (hc : ∀ t c, pr { t with content := c } = pr t)
    (hr : ∀ t b, pr { t with r_tag := b } = pr t)
    (hdo : ∀ t d, pr { t with date_old := d } = pr t)
    (hdue : ∀ t d, pr { t with due := d } = pr t)
    (args : Args) (today hour : Int) (ctx : ItemCtx) (itemId : Int)
    (ci ca : List Int) (item0 : Item) (st : PassState) (j : Int) :
    (lookupTask (prePhases args today hour ctx itemId ci ca item0 st) j).map pr =
      (lookupTask st j).map pr := by
  unfold prePhases
  refine (proj_ite pr j _ _ _ ?_).trans ?_
  · exact proj_run_recurring pr hdo hr hdue args today hour _ itemId ci ca j
  refine (proj_ite pr j _ _ _ ?_).trans ?_
  · exact lookup_proj_updateTask pr _ itemId j (fun t => { t with r_tag := false })
      (fun t => rfl) (fun t => hr t false)
  refine (proj_ite pr j _ _ _ ?_).trans ?_
  · exact foldl_proj_pres _ pr (fun s b j' => proj_unheaderChild pr hc s b j') ci _ j
  refine (proj_ite pr j _ _ _ ?_).trans ?_
  · exact proj_unheaderSelf pr hc _ itemId j
  refine (proj_ite pr j _ _ _ ?_).trans ?_
  · exact proj_headerApply pr hc _ itemId ci j
  exact lookup_proj_updateTask pr st itemId j
    (fun t => { t with content := (check_header item0.content).2.2 })
    (fun t => rfl) (fun t => hc t _)

theorem labels_prePhases (args : Args) (today hour : Int) (ctx : ItemCtx) (itemId : Int)
    (ci ca : List Int) (item0 : Item) (st : PassState) (j : Int) :
    getLabels (prePhases args today hour ctx itemId ci ca item0 st) j = getLabels st j :=
  proj_prePhases (fun t => t.labels) (fun t c => rfl) (fun t b => rfl) (fun t d => rfl)
    (fun t d => rfl) args today hour ctx itemId ci ca item0 st j

/-- A marker-free title passes through `check_header` unchanged. -/
theorem check_header_markerFree (c : String) (h : markerFree c) :
    check_header c = (false, false, c) := by
  unfold check_header
  obtain ⟨h1, h2⟩ := h
  simp [h1, h2]

/-- Under false header flags and a marker-free title, the pre-labeling
phases keep every item's labels, title, completion state, and parent link. -/
theorem prePhases_core_stable (args : Args) (today hour : Int) (ctx : ItemCtx)
    (itemId : Int) (ci ca : List Int) (item0 : Item) (st : PassState)
    (hlook : lookupTask st itemId = some item0)
    (hmf : markerFree item0.content)
    (hp : ctx.header_all_in_p = false) (hs : ctx.header_all_in_s = false)
    (hup : ctx.unheader_all_in_p = false) (hus : ctx.unheader_all_in_s = false) (j : Int) :
    (lookupTask (prePhases args today hour ctx itemId ci ca item0 st) j).map
        (fun t => (t.labels, t.content, t.is_completed, t.parent_id)) =
      (lookupTask st j).map (fun t => (t.labels, t.content, t.is_completed, t.parent_id)) := by
  unfold prePhases
  rw [check_header_markerFree item0.content hmf]
  dsimp only
  rw [hp, hs, hup, hus]
  simp only [Bool.false_eq_true, false_or, if_false, or_self, ite_false]
  refine (proj_ite _ j _ _ _ ?_).trans ?_
  · exact proj_run_recurring (fun t => (t.labels, t.content, t.is_completed, t.parent_id))
      (fun t d => rfl) (fun t b => rfl) (fun t d => rfl) args today hour _ itemId ci ca j
  refine (proj_ite _ j _ _ _ ?_).trans ?_
  · exact lookup_proj_updateTask (fun t => (t.labels, t.content, t.is_completed, t.parent_id))
      _ itemId j (fun t => { t with r_tag := false }) (fun t => rfl) (fun t => rfl)
  -- the self-assignment of the unchanged title is the identity on the
  -- looked-up item
  rw [lookupTask_updateTask st itemId j (fun t => { t with content := item0.content })
    (fun t => rfl)]
  by_cases hj : j = itemId
  · rw [if_pos hj, hj, hlook]
    rfl
  · rw [if_neg hj]

/-- Claim C2, amended.  At its visit, a completed item is skipped with no
change to any label list (in particular a stale next-action label on it
survives, contrary to the original claim), and a non-completed item whose
title is header-flagged has the next-action label removed and is otherwise
skipped, leaving every other label list unchanged. -/
theorem c2_skip_amended (args : Args) (L : String) (today hour : Int) (ctx : ItemCtx)
    (sectionIds : List Int) (st : PassState) (ffs ffp : Bool) (itemId : Int) (it : Item)
    (hlook : lookupTask st itemId = some it) :
    (it.is_completed = true → ∀ j,
       getLabels (processItem args (some L) today hour ctx sectionIds (st, ffs, ffp) itemId).1 j =
         getLabels st j) ∧
    (it.is_completed = false → pyStarts it.content "*" = true → markerFree it.content →
       ctx.header_all_in_p = false → ctx.header_all_in_s = false →
       ctx.unheader_all_in_p = false → ctx.unheader_all_in_s = false →
       getLabels (processItem args (some L) today hour ctx sectionIds (st, ffs, ffp) itemId).1
           itemId = some (it.labels.erase L) ∧
       ∀ j, j ≠ itemId →
         getLabels (processItem args (some L) today hour ctx sectionIds (st, ffs, ffp) itemId).1 j =
           getLabels st j) := by
  constructor
  · intro hcomp j
    unfold processItem
    dsimp only
    rw [hlook]
    dsimp only
    have hproj := proj_prePhases (fun t => (t.labels, t.is_completed)) (fun t c => rfl)
      (fun t b => rfl) (fun t d => rfl) (fun t d => rfl) args today hour ctx itemId
      (child_items_of st sectionIds it.id) (child_items_all_of st sectionIds it.id) it st itemId
    rw [hlook] at hproj
    rcases hx : lookupTask (prePhases args today hour ctx itemId
        (child_items_of st sectionIds it.id) (child_items_all_of st sectionIds it.id) it st)
        itemId with _ | it1
    · rw [hx] at hproj; cases hproj
    · rw [hx] at hproj
      injection hproj with hpair
      have hcomp1 : it1.is_completed = true := by
        have := congrArg Prod.snd hpair
        simpa using this.trans hcomp
      unfold labelPhase
      rw [hx]
      dsimp only
      rw [if_pos hcomp1]
      exact labels_prePhases args today hour ctx itemId _ _ it st j
  · intro hcomp hstar hmf hp hs hup hus
    unfold processItem
    dsimp only
    rw [hlook]
    dsimp only
    have hcore := prePhases_core_stable args today hour ctx itemId
      (child_items_of st sectionIds it.id) (child_items_all_of st sectionIds it.id) it st
      hlook hmf hp hs hup hus itemId
    rw [hlook] at hcore
    rcases hx : lookupTask (prePhases args today hour ctx itemId
        (child_items_of st sectionIds it.id) (child_items_all_of st sectionIds it.id) it st)
        itemId with _ | it1
    · rw [hx] at hcore; cases hcore
    · rw [hx] at hcore
      injection hcore with hquad
      have hlabels1 : it1.labels = it.labels := congrArg (fun q => q.1) hquad
      have hcontent1 : it1.content = it.content := congrArg (fun q => q.2.1) hquad
      have hcomp1 : it1.is_completed = false := by
        have := congrArg (fun q => q.2.2.1) hquad
        simpa using this.trans hcomp
      have hstar1 : pyStarts it1.content "*" = true := by rw [hcontent1]; exact hstar
      unfold labelPhase
      rw [hx]
      dsimp only
      rw [if_neg (by rw [hcomp1]; exact fun hcon => Bool.noConfusion hcon), if_pos hstar1]
      constructor
      · rw [getLabels, lookupTask_remove_label_self _ _ _ _ hx]
        by_cases hm : L ∈ it1.labels
        · rw [if_pos hm]
          simp [hlabels1]
        · rw [if_neg hm]
          rw [hlabels1] at hm
          simp [hlabels1, List.erase_of_not_mem hm]
      · intro j hj
        rw [getLabels, lookupTask_remove_label_ne _ _ _ _ hj, ← getLabels]
        exact labels_prePhases args today hour ctx itemId _ _ it st j

/-- Witness for the amended C2 theorem: the completed labelled item of
`snapC2x`, visited with an untyped, flag-free context. -/
theorem c2_skip_amended_witness :
    (lookupTask (stInit snapC2x) 10 = some (mkItem 10 none none 1 "X" 1 true [NA])) ∧
    (((mkItem 10 none none 1 "X" 1 true [NA]).is_completed = true → ∀ j,
        getLabels (processItem testArgs (some NA) 20000 12 ctx0 [10]
            (stInit snapC2x, false, false) 10).1 j = getLabels (stInit snapC2x) j) ∧
     ((mkItem 10 none none 1 "X" 1 true [NA]).is_completed = false →
        pyStarts (mkItem 10 none none 1 "X" 1 true [NA]).content "*" = true →
        markerFree (mkItem 10 none none 1 "X" 1 true [NA]).content →
        ctx0.header_all_in_p = false → ctx0.header_all_in_s = false →
        ctx0.unheader_all_in_p = false → ctx0.unheader_all_in_s = false →
        getLabels (processItem testArgs (some NA) 20000 12 ctx0 [10]
            (stInit snapC2x, false, false) 10).1 10 =
          some ((mkItem 10 none none 1 "X" 1 true [NA]).labels.erase NA) ∧
        ∀ j, j ≠ 10 →
          getLabels (processItem testArgs (some NA) 20000 12 ctx0 [10]
              (stInit snapC2x, false, false) 10).1 j = getLabels (stInit snapC2x) j)) :=
  ⟨by decide,
    c2_skip_amended testArgs NA 20000 12 ctx0 [10] (stInit snapC2x) false false 10
      (mkItem 10 none none 1 "X" 1 true [NA]) (by decide)⟩


/-! ## Duplicate-freeness is preserved by every labeling phase -/

theorem allNodup_of_getLabels (st st' : PassState)
    (h : ∀ j, getLabels st' j = getLabels st j) (hnod : AllLabelsNodup st) :
    AllLabelsNodup st' := by
  intro j t hj
  have h1 := h j
  rw [getLabels, getLabels, hj] at h1
  rcases hl : lookupTask st j with _ | t0
  · rw [hl] at h1
    simp only [Option.map_some', Option.map_none'] at h1
    exact Option.noConfusion h1
  · rw [hl] at h1
    simp only [Option.map_some'] at h1
    injection h1 with h2
    rw [h2]
    exact hnod j t0 hl

theorem allNodup_foldl {β : Type} (g : PassState → β → PassState)
    (h : ∀ s b, AllLabelsNodup s → AllLabelsNodup (g s b)) :
    ∀ (l : List β) (s : PassState), AllLabelsNodup s → AllLabelsNodup (l.foldl g s) := by
  intro l
  induction l with
  | nil => intro s hs; exact hs
  | cons b l ih => intro s hs; exact ih (g s b) (h s b hs)

theorem allNodup_seqChildStep (L : String) (pid : Int) (st : PassState) (c : Int)
    (h : AllLabelsNodup st) : AllLabelsNodup (seqChildStep L pid st c) := by
  unfold seqChildStep
  rcases hl : lookupTask st c with _ | cit
  · exact h
  · dsimp only
    split
    · exact h
    · split
      · exact nodup_remove_label _ _ _ (nodup_add_label _ _ _ h)
      · exact nodup_remove_label _ _ _ h

theorem allNodup_parChildStep (L : String) (st : PassState) (c : Int)
    (h : AllLabelsNodup st) : AllLabelsNodup (parChildStep L st c) := by
  unfold parChildStep
  rcases hl : lookupTask st c with _ | cit
  · exact h
  · dsimp only
    split
    · exact h
    · split
      · exact nodup_add_label _ _ _ h
      · exact h

theorem allNodup_childrenPhase (L : String) (it_t sec_t proj_t : Option String)
    (itemId : Int) (cs : List Int) (st : PassState) (h : AllLabelsNodup st) :
    AllLabelsNodup (childrenPhase L it_t sec_t proj_t itemId cs st) := by
  unfold childrenPhase
  split
  · exact h
  · dsimp only
    split
    · exact allNodup_foldl _ (fun s b hs => allNodup_seqChildStep L itemId s b hs) cs st h
    · split
      · exact allNodup_foldl _ (fun s b hs => allNodup_parChildStep L s b hs) cs _
          (nodup_remove_label _ _ _ h)
      · exact h

theorem allNodup_rootLabelCore (L : String) (it_t sec_t proj_t : Option String)
    (itemId : Int) (st : PassState) (ffs ffp : Bool) (h : AllLabelsNodup st) :
    AllLabelsNodup (rootLabelCore L it_t sec_t proj_t itemId st ffs ffp).1 := by
  unfold rootLabelCore
  split
  · exact nodup_add_label _ _ _ h
  · split
    · split
      · split
        · exact nodup_add_label _ _ _ h
        · exact h
      · split
        · exact nodup_add_label _ _ _ h
        · exact h
    · split
      · split
        · split
          · exact nodup_add_label _ _ _ h
          · exact h
        · split
          · exact nodup_add_label _ _ _ h
          · exact h
      · exact h

/-! ## What the label-removal fold of the start gates guarantees -/

theorem remove_label_absent_after (st : PassState) (i : Int) (L : String)
    (hnod : AllLabelsNodup st) :
    ∀ ls, getLabels (remove_label st i L) i = some ls → L ∉ ls := by
  intro ls hls
  rcases hl : lookupTask st i with _ | it
  · rw [getLabels] at hls
    unfold remove_label at hls
    rw [hl] at hls
    dsimp only at hls
    rw [hl] at hls
    simp only [Option.map_none'] at hls
    exact Option.noConfusion hls
  · rw [getLabels, lookupTask_remove_label_self st i L it hl] at hls
    by_cases hm : L ∈ it.labels
    · rw [if_pos hm] at hls
      simp only [Option.map_some'] at hls
      injection hls with h2
      rw [← h2]
      exact (hnod i it hl).not_mem_erase
    · rw [if_neg hm] at hls
      simp only [Option.map_some'] at hls
      injection hls with h2
      rw [← h2]
      exact hm

theorem remove_label_absent_any (st : PassState) (i : Int) (L : String) (j : Int)
    (h : ∀ ls, getLabels st j = some ls → L ∉ ls) :
    ∀ ls, getLabels (remove_label st i L) j = some ls → L ∉ ls := by
  intro ls hls
  by_cases hji : j = i
  · subst hji
    rcases hl : lookupTask st j with _ | it
    · rw [getLabels] at hls
      unfold remove_label at hls
      rw [hl] at hls
      dsimp only at hls
      rw [hl] at hls
      simp only [Option.map_none'] at hls
      exact Option.noConfusion hls
    · rw [getLabels, lookupTask_remove_label_self st j L it hl] at hls
      have hnm : L ∉ it.labels := h it.labels (by rw [getLabels, hl]; rfl)
      by_cases hm : L ∈ it.labels
      · exact absurd hm hnm
      · rw [if_neg hm] at hls
        simp only [Option.map_some'] at hls
        injection hls with h2
        rw [← h2]
        exact hnm
  · rw [getLabels, lookupTask_remove_label_ne st i j L hji, ← getLabels] at hls
    exact h ls hls

theorem removeChildLabels_strips (L : String) (cs : List Int) :
    ∀ (st : PassState), AllLabelsNodup st →
      AllLabelsNodup (removeChildLabels L cs st) ∧
      (∀ j, (∀ ls, getLabels st j = some ls → L ∉ ls) →
         ∀ ls, getLabels (removeChildLabels L cs st) j = some ls → L ∉ ls) ∧
      (∀ c ∈ cs, ∀ ls, getLabels (removeChildLabels L cs st) c = some ls → L ∉ ls) := by
  induction cs with
  | nil =>
    intro st hnod
    refine ⟨hnod, fun j hj => hj, ?_⟩
    intro c hc
    exact absurd hc (List.not_mem_nil c)
  | cons c cs ih =>
    intro st hnod
    have hstep : removeChildLabels L (c :: cs) st =
        removeChildLabels L cs (remove_label st c L) := rfl
    rw [hstep]
    have hnod1 := nodup_remove_label st c L hnod
    obtain ⟨ha, hb, hc'⟩ := ih (remove_label st c L) hnod1
    refine ⟨ha, ?_, ?_⟩
    · intro j hj
      exact hb j (remove_label_absent_any st c L j hj)
    · intro x hx
      rcases List.mem_cons.mp hx with rfl | hx'
      · exact hb x (remove_label_absent_after st x L hnod)
      · exact hc' x hx'

/-- Lines 699–741 on an item whose title carries an absolute `start=` token
parsing to a date after today (future-hiding off): the gates collapse to the
removal of the label from the item and from every listed child. -/
theorem gates_after_strips (args : Args) (L : String) (today : Int) (itemId : Int)
    (item : Item) (cs : List Int) (st : PassState)
    (hnod : AllLabelsNodup st)
    (hhf : args.hide_future ≤ 0)
    (hf1 : pyFind item.content "start=" > -1)
    (hf2 : pyFind item.content "start=due-" = -1)
    (sd : Int) (hpd : args.parseDate (absStartTok item.content) = some sd)
    (hfut : today - sd < 0) :
    (∀ ls, getLabels (gatesPhase args L today itemId item cs st) itemId = some ls → L ∉ ls) ∧
    (∀ c ∈ cs, ∀ ls,
       getLabels (gatesPhase args L today itemId item cs st) c = some ls → L ∉ ls) := by
  have habs : absGate args L today itemId item cs st =
      removeChildLabels L cs (remove_label st itemId L) := by
    unfold absGate
    dsimp only
    rw [if_pos ⟨hf1, hf2⟩, hpd]
    dsimp only
    rw [if_pos hfut]
  have hgate : gatesPhase args L today itemId item cs st =
      removeChildLabels L cs (remove_label st itemId L) := by
    unfold gatesPhase
    have hng : ¬ (args.hide_future > 0) := by omega
    rcases hdue : item.due with _ | d
    · exact habs
    · dsimp only
      rw [if_neg hng]
      exact habs
  rw [hgate]
  obtain ⟨-, hpres, hmem⟩ := removeChildLabels_strips L cs (remove_label st itemId L)
      (nodup_remove_label _ _ _ hnod)
  exact ⟨hpres itemId (remove_label_absent_after st itemId L hnod), hmem⟩

/-- Claim C8, amended.  For a *non-completed, non-header* item whose title
carries an absolute `start=<date>` token (not of the `start=due-` form)
parsing to a day after today, the item's visit removes the next-action label
from the item and from every non-completed child in its section scope
(future-hiding off, no header flags, marker-free title, duplicate-free label
lists).  The original claim quantified over every item with the annotation;
the counterexample shows a completed item is skipped before the gate and
keeps the labels. -/
theorem c8_start_gate_amended (args : Args) (L : String) (today hour : Int) (ctx : ItemCtx)
    (sectionIds : List Int) (st : PassState) (ffs ffp : Bool) (itemId : Int) (it : Item)
    (sd : Int)
    (hlook : lookupTask st itemId = some it)
    (hcomp : it.is_completed = false)
    (hstar : pyStarts it.content "*" = false)
    (hmf : markerFree it.content)
    (hp : ctx.header_all_in_p = false) (hs : ctx.header_all_in_s = false)
    (hup : ctx.unheader_all_in_p = false) (hus : ctx.unheader_all_in_s = false)
    (hhf : args.hide_future ≤ 0)
    (hf1 : pyFind it.content "start=" > -1)
    (hf2 : pyFind it.content "start=due-" = -1)
    (hpd : args.parseDate (absStartTok it.content) = some sd)
    (hfut : today - sd < 0)
    (hnod : AllLabelsNodup st) :
    (∀ ls, getLabels (processItem args (some L) today hour ctx sectionIds
        (st, ffs, ffp) itemId).1 itemId = some ls → L ∉ ls) ∧
    (∀ c ∈ child_items_of st sectionIds it.id, ∀ ls,
       getLabels (processItem args (some L) today hour ctx sectionIds
           (st, ffs, ffp) itemId).1 c = some ls → L ∉ ls) := by
  unfold processItem
  dsimp only
  rw [hlook]
  dsimp only
  have hcore := prePhases_core_stable args today hour ctx itemId
      (child_items_of st sectionIds it.id) (child_items_all_of st sectionIds it.id) it st
      hlook hmf hp hs hup hus itemId
  rw [hlook] at hcore
  have hnod1 : AllLabelsNodup (prePhases args today hour ctx itemId
      (child_items_of st sectionIds it.id) (child_items_all_of st sectionIds it.id) it st) :=
    allNodup_of_getLabels _ _
      (fun j => labels_prePhases args today hour ctx itemId _ _ it st j) hnod
  rcases hx : lookupTask (prePhases args today hour ctx itemId
      (child_items_of st sectionIds it.id) (child_items_all_of st sectionIds it.id) it st)
      itemId with _ | it1
  · rw [hx] at hcore
    cases hcore
  · rw [hx] at hcore
    injection hcore with hquad
    have hcontent1 : it1.content = it.content := congrArg (fun q => q.2.1) hquad
    have hcomp1 : it1.is_completed = false := by
      have := congrArg (fun q => q.2.2.1) hquad
      simpa using this.trans hcomp
    have hstar1 : pyStarts it1.content "*" = false := by rw [hcontent1]; exact hstar
    have hf1' : pyFind it1.content "start=" > -1 := by rw [hcontent1]; exact hf1
    have hf2' : pyFind it1.content "start=due-" = -1 := by rw [hcontent1]; exact hf2
    have hpd' : args.parseDate (absStartTok it1.content) = some sd := by
      rw [hcontent1]; exact hpd
    unfold labelPhase
    rw [hx]
    dsimp only
    rw [if_neg (by rw [hcomp1]; exact fun hcon => Bool.noConfusion hcon),
        if_neg (by rw [hstar1]; exact fun hcon => Bool.noConfusion hcon)]
    by_cases hpar : it1.parent_id.isNone = true
    · rw [if_pos hpar]
      simp only [rootLabelPhase]
      exact gates_after_strips args L today itemId it1 _ _
        (allNodup_childrenPhase _ _ _ _ _ _ _
          (allNodup_rootLabelCore _ _ _ _ _ _ _ _ hnod1))
        hhf hf1' hf2' sd hpd' hfut
    · rw [if_neg hpar]
      dsimp only
      exact gates_after_strips args L today itemId it1 _ _
        (allNodup_childrenPhase _ _ _ _ _ _ _ hnod1)
        hhf hf1' hf2' sd hpd' hfut

/-- Witness for the amended C8 theorem: the non-completed item 10 of
`snapC8y` (title `Buy milk start=01-01-2099`, label present, labelled child
11) visited with `today` = day 20000 and the `%d-%m-%Y`-style parser of
`argsC8x`. -/
theorem c8_start_gate_amended_witness :
    (lookupTask (stInit snapC8y) 10 =
        some (mkItem 10 none none 1 "Buy milk start=01-01-2099" 1 false [NA]) ∧
     argsC8x.parseDate (absStartTok
        (mkItem 10 none none 1 "Buy milk start=01-01-2099" 1 false [NA]).content) =
          some 47117 ∧
     ((20000 : Int) - 47117 < 0)) ∧
    ((∀ ls, getLabels (processItem argsC8x (some NA) 20000 12 ctx0 [10, 11]
        (stInit snapC8y, false, false) 10).1 10 = some ls → NA ∉ ls) ∧
     (∀ c ∈ child_items_of (stInit snapC8y) [10, 11]
          (mkItem 10 none none 1 "Buy milk start=01-01-2099" 1 false [NA]).id, ∀ ls,
        getLabels (processItem argsC8x (some NA) 20000 12 ctx0 [10, 11]
            (stInit snapC8y, false, false) 10).1 c = some ls → NA ∉ ls)) :=
  ⟨⟨by decide, by decide, by decide⟩,
    c8_start_gate_amended argsC8x NA 20000 12 ctx0 [10, 11] (stInit snapC8y) false false 10
      (mkItem 10 none none 1 "Buy milk start=01-01-2099" 1 false [NA]) 47117
      (by decide) (by decide) (by decide) ⟨by decide, by decide⟩ (by decide) (by decide)
      (by decide) (by decide) (by decide) (by decide) (by decide) (by decide) (by decide)
      (AllLabelsNodup_of_tasks _ (by decide))⟩


/-! ## List utilities: unique keys, lookups, and the stable sort -/

theorem map_update_id {α κ : Type} [DecidableEq κ] (key : α → κ) (f : α → α)
    (l : List α) (k : κ) (h : ∀ x ∈ l, key x = k → f x = x) :
    l.map (fun a => if key a = k then f a else a) = l := by
  refine (List.map_congr_left (fun x hx => ?_)).trans (List.map_id l)
  by_cases hk : key x = k
  · rw [if_pos hk]
    exact h x hx hk
  · rw [if_neg hk]
    rfl

theorem filter_key_nodup {α κ : Type} [DecidableEq κ] (key : α → κ) :
    ∀ (l : List α) (k : κ), (l.map key).Nodup → ∀ x ∈ l, key x = k →
      l.filter (fun a => key a = k) = [x] := by
  intro l
  induction l with
  | nil => intro k hn x hx; cases hx
  | cons a l ih =>
    intro k hn x hx hk
    simp only [List.map_cons, List.nodup_cons] at hn
    rcases List.mem_cons.mp hx with rfl | hxl
    · rw [List.filter_cons, if_pos (by simp [hk])]
      have hrest : l.filter (fun a => key a = k) = [] := by
        rw [List.filter_eq_nil]
        intro b hb
        intro hbk
        simp only [decide_eq_true_eq] at hbk
        exact hn.1 (by rw [hk, ← hbk]; exact List.mem_map_of_mem key hb)
      rw [hrest]
    · have hane : ¬ (key a = k) := by
        intro ha
        exact hn.1 (by rw [ha, ← hk]; exact List.mem_map_of_mem key hxl)
      rw [List.filter_cons, if_neg (by simp [hane])]
      exact ih k hn.2 x hxl hk

theorem lookupTask_id (st : PassState) (j : Int) (t : Item)
    (h : lookupTask st j = some t) : t.id = j := by
  unfold lookupTask at h
  rcases hl : st.snap.tasks.filter (fun t => t.id = j) with _ | ⟨x, xs⟩
  · rw [hl] at h
    cases h
  · rw [hl] at h
    injection h with h2
    have hx : x ∈ st.snap.tasks.filter (fun t => t.id = j) := by
      rw [hl]
      exact List.mem_cons_self x xs
    have := List.of_mem_filter hx
    rw [← h2]
    simpa using this

theorem mem_id_eq_lookup (st : PassState) (i : Int) (t : Item)
    (hidn : IdsNodup st) (ht : t ∈ st.snap.tasks) (hid : t.id = i) :
    lookupTask st i = some t := by
  unfold lookupTask
  rw [filter_key_nodup (fun t : Item => t.id) st.snap.tasks i hidn t ht hid]
  rfl

theorem insertSorted_perm (x : Item) :
    ∀ (l : List Item), (insertSorted x l).Perm (x :: l) := by
  intro l
  induction l with
  | nil => exact List.Perm.refl _
  | cons y ys ih =>
    unfold insertSorted
    by_cases hk : keyLE y x = true
    · rw [if_pos hk]
      exact (List.Perm.cons y ih).trans (List.Perm.swap x y ys)
    · rw [if_neg hk]

theorem pySorted_perm (l : List Item) : (pySorted l).Perm l := by
  suffices h : ∀ (l acc : List Item),
      (l.foldl (fun acc x => insertSorted x acc) acc).Perm (acc ++ l) by
    have h2 := h l []
    simpa [pySorted] using h2
  intro l
  induction l with
  | nil => intro acc; simp
  | cons x xs ih =>
    intro acc
    rw [List.foldl_cons]
    refine (ih (insertSorted x acc)).trans ?_
    refine (List.Perm.append_right xs (insertSorted_perm x acc)).trans ?_
    exact List.perm_middle.symm

/-! ## The structural core of the state is invariant under the labeling pass -/

theorem stateCore_updateTask (st : PassState) (i : Int) (f : Item → Item)
    (hf : ∀ t, core7 (f t) = core7 t) :
    stateCore (updateTask st i f) = stateCore st := by
  have htasks : (st.snap.tasks.map (fun t => if t.id = i then f t else t)).map core7
      = st.snap.tasks.map core7 := by
    rw [List.map_map]
    refine List.map_congr_left (fun t ht => ?_)
    simp only [Function.comp_apply]
    by_cases hid : t.id = i
    · rw [if_pos hid]
      exact hf t
    · rw [if_neg hid]
  unfold stateCore updateTask
  dsimp only
  rw [htasks]

theorem stateCore_updateTask_self (st : PassState) (i : Int) (item0 : Item)
    (hlook : lookupTask st i = some item0) (hidn : IdsNodup st) (f : Item → Item)
    (hf : core7 (f item0) = core7 item0) :
    stateCore (updateTask st i f) = stateCore st := by
  have htasks : (st.snap.tasks.map (fun t => if t.id = i then f t else t)).map core7
      = st.snap.tasks.map core7 := by
    rw [List.map_map]
    refine List.map_congr_left (fun t ht => ?_)
    simp only [Function.comp_apply]
    by_cases hid : t.id = i
    · rw [if_pos hid]
      have hl := mem_id_eq_lookup st i t hidn ht hid
      rw [hlook] at hl
      injection hl with h2
      rw [← h2]
      exact hf
    · rw [if_neg hid]
  unfold stateCore updateTask
  dsimp only
  rw [htasks]

theorem stateCore_add_label (st : PassState) (i : Int) (L : String) :
    stateCore (add_label st i L) = stateCore st := by
  unfold add_label
  rcases hl : lookupTask st i with _ | it
  · rfl
  · dsimp only
    split
    · rfl
    · exact stateCore_updateTask st i _ (fun t => rfl)

theorem stateCore_remove_label (st : PassState) (i : Int) (L : String) :
    stateCore (remove_label st i L) = stateCore st := by
  unfold remove_label
  rcases hl : lookupTask st i with _ | it
  · rfl
  · dsimp only
    split
    · exact stateCore_updateTask st i _ (fun t => rfl)
    · rfl

theorem stateCore_foldl {β : Type} (g : PassState → β → PassState)
    (h : ∀ s b, stateCore (g s b) = stateCore s) :
    ∀ (l : List β) (s : PassState), stateCore (l.foldl g s) = stateCore s := by
  intro l
  induction l with
  | nil => intro s; rfl
  | cons b l ih => intro s; rw [List.foldl_cons, ih, h]

theorem stateCore_seqChildStep (L : String) (pid : Int) (st : PassState) (c : Int) :
    stateCore (seqChildStep L pid st c) = stateCore st := by
  unfold seqChildStep
  rcases hl : lookupTask st c with _ | cit
  · rfl
  · dsimp only
    split
    · rfl
    · split
      · rw [stateCore_remove_label, stateCore_add_label]
      · rw [stateCore_remove_label]

theorem stateCore_parChildStep (L : String) (st : PassState) (c : Int) :
    stateCore (parChildStep L st c) = stateCore st := by
  unfold parChildStep
  rcases hl : lookupTask st c with _ | cit
  · rfl
  · dsimp only
    split
    · rfl
    · split
      · rw [stateCore_add_label]
      · rfl

theorem stateCore_childrenPhase (L : String) (it_t sec_t proj_t : Option String)
    (itemId : Int) (cs : List Int) (st : PassState) :
    stateCore (childrenPhase L it_t sec_t proj_t itemId cs st) = stateCore st := by
  unfold childrenPhase
  split
  · rfl
  · dsimp only
    split
    · exact stateCore_foldl _ (fun s b => stateCore_seqChildStep L itemId s b) cs st
    · split
      · rw [stateCore_foldl _ (fun s b => stateCore_parChildStep L s b) cs _,
          stateCore_remove_label]
      · rfl

theorem stateCore_rootLabelCore (L : String) (it_t sec_t proj_t : Option String)
    (itemId : Int) (st : PassState) (ffs ffp : Bool) :
    stateCore (rootLabelCore L it_t sec_t proj_t itemId st ffs ffp).1 = stateCore st := by
  unfold rootLabelCore
  split
  · exact stateCore_add_label st itemId L
  · split
    · split
      · split
        · exact stateCore_add_label st itemId L
        · rfl
      · split
        · exact stateCore_add_label st itemId L
        · rfl
    · split
      · split
        · split
          · exact stateCore_add_label st itemId L
          · rfl
        · split
          · exact stateCore_add_label st itemId L
          · rfl
      · rfl

theorem stateCore_removeChildLabels (L : String) (cs : List Int) (st : PassState) :
    stateCore (removeChildLabels L cs st) = stateCore st :=
  stateCore_foldl _ (fun s b => stateCore_remove_label s b L) cs st

theorem stateCore_relGate (args : Args) (L : String) (today : Int) (itemId : Int)
    (item : Item) (cs : List Int) (st : PassState) :
    stateCore (relGate args L today itemId item cs st) = stateCore st := by
  unfold relGate
  dsimp only
  split
  · rcases item.due with _ | due
    · rfl
    · dsimp only
      split
      · rfl
      · split
        · rw [stateCore_removeChildLabels, stateCore_remove_label]
        · rfl
  · rfl

theorem stateCore_absGate (args : Args) (L : String) (today : Int) (itemId : Int)
    (item : Item) (cs : List Int) (st : PassState) :
    stateCore (absGate args L today itemId item cs st) = stateCore st := by
  unfold absGate
  dsimp only
  split
  · split
    · rfl
    · split
      · rw [stateCore_removeChildLabels, stateCore_remove_label]
      · exact stateCore_relGate args L today itemId item cs st
  · exact stateCore_relGate args L today itemId item cs st

theorem stateCore_gatesPhase (args : Args) (L : String) (today : Int) (itemId : Int)
    (item : Item) (cs : List Int) (st : PassState) :
    stateCore (gatesPhase args L today itemId item cs st) = stateCore st := by
  unfold gatesPhase
  rcases item.due with _ | d
  · exact stateCore_absGate args L today itemId item cs st
  · dsimp only
    split
    · split
      · exact stateCore_remove_label st itemId L
      · exact stateCore_absGate args L today itemId item cs st
    · exact stateCore_absGate args L today itemId item cs st

theorem stateCore_labelPhase (args : Args) (L : String) (today : Int) (ctx : ItemCtx)
    (sectionIds : List Int) (itemId : Int) (cs : List Int) (st : PassState)
    (ffs ffp : Bool) :
    stateCore (labelPhase args L today ctx sectionIds itemId cs st ffs ffp).1 =
      stateCore st := by
  unfold labelPhase
  rcases hl : lookupTask st itemId with _ | item
  · rfl
  · dsimp only
    split
    · rfl
    · split
      · exact stateCore_remove_label st itemId L
      · by_cases hpar : item.parent_id.isNone = true
        · rw [if_pos hpar]
          simp only [rootLabelPhase]
          rw [stateCore_gatesPhase, stateCore_childrenPhase, stateCore_rootLabelCore]
        · rw [if_neg hpar]
          dsimp only
          rw [stateCore_gatesPhase, stateCore_childrenPhase]

theorem stateCore_prePhases (args : Args) (today hour : Int) (ctx : ItemCtx) (itemId : Int)
    (ci ca : List Int) (item0 : Item) (st : PassState)
    (hlook : lookupTask st itemId = some item0)
    (hidn : IdsNodup st)
    (hmf : markerFree item0.content)
    (hp : ctx.header_all_in_p = false) (hs : ctx.header_all_in_s = false)
    (hup : ctx.unheader_all_in_p = false) (hus : ctx.unheader_all_in_s = false)
    (hreg : args.regeneration = none) (hend : args.end_hour = none) :
    stateCore (prePhases args today hour ctx itemId ci ca item0 st) = stateCore st := by
  unfold prePhases
  rw [check_header_markerFree item0.content hmf]
  dsimp only
  rw [hp, hs, hup, hus]
  simp only [Bool.false_eq_true, false_or, if_false, or_self, ite_false]
  have hcond : ¬ (args.regeneration.isSome = true ∨ endTruthy args = true) := by
    simp [hreg, endTruthy, hend]
  rw [if_neg hcond]
  have hrf : regenFalsy args = true := by simp [regenFalsy, hreg]
  rw [if_pos hrf]
  rw [stateCore_updateTask _ itemId (fun t => { t with r_tag := false }) (fun t => rfl)]
  exact stateCore_updateTask_self st itemId item0 hlook hidn _ rfl

theorem stateCore_processItem (args : Args) (nal : Option String) (today hour : Int)
    (ctx : ItemCtx) (sectionIds : List Int) (st : PassState) (ffs ffp : Bool) (itemId : Int)
    (hp : ctx.header_all_in_p = false) (hs : ctx.header_all_in_s = false)
    (hup : ctx.unheader_all_in_p = false) (hus : ctx.unheader_all_in_s = false)
    (hreg : args.regeneration = none) (hend : args.end_hour = none)
    (hidn : IdsNodup st) (hamf : AllMarkerFree st) :
    stateCore (processItem args nal today hour ctx sectionIds (st, ffs, ffp) itemId).1 =
      stateCore st := by
  unfold processItem
  dsimp only
  rcases hlook : lookupTask st itemId with _ | item0
  · rfl
  · dsimp only
    have hpre := stateCore_prePhases args today hour ctx itemId
      (child_items_of st sectionIds item0.id) (child_items_all_of st sectionIds item0.id)
      item0 st hlook hidn (hamf itemId item0 hlook) hp hs hup hus hreg hend
    rcases nal with _ | L
    · exact hpre
    · dsimp only
      rw [stateCore_labelPhase, hpre]

/-! ## Transfer of well-formedness along a stable structural core -/

theorem filterHead_core (j : Int) :
    ∀ (l l' : List Item), l'.map core7 = l.map core7 →
      ((l'.filter (fun t => t.id = j)).head?).map core7 =
        ((l.filter (fun t => t.id = j)).head?).map core7 := by
  intro l
  induction l with
  | nil =>
    intro l' h
    have h0 : l' = [] := List.map_eq_nil.mp h
    rw [h0]
  | cons a l ih =>
    intro l' h
    rcases l' with _ | ⟨b, l''⟩
    · simp only [List.map_nil, List.map_cons] at h
      exact List.noConfusion h
    · simp only [List.map_cons, List.cons.injEq] at h
      obtain ⟨hba, hrest⟩ := h
      have hid : b.id = a.id := congrArg (fun q => q.1) hba
      rw [List.filter_cons, List.filter_cons]
      by_cases ha : a.id = j
      · rw [if_pos (by simp only [decide_eq_true_eq]; rw [hid]; exact ha),
          if_pos (by simp [ha])]
        simp only [List.head?_cons, Option.map_some']
        rw [hba]
      · rw [if_neg (by simp [hid, ha]), if_neg (by simp [ha])]
        exact ih l'' hrest

theorem lookup_core_of_stateCore (st st' : PassState)
    (h : stateCore st' = stateCore st) (j : Int) :
    (lookupTask st' j).map core7 = (lookupTask st j).map core7 := by
  have htasks : st'.snap.tasks.map core7 = st.snap.tasks.map core7 := by
    have h2 := congrArg (fun q => q.2.2) h
    simpa [stateCore] using h2
  unfold lookupTask
  exact filterHead_core j st.snap.tasks st'.snap.tasks htasks

theorem amf_of_stateCore (st st' : PassState) (h : stateCore st' = stateCore st)
    (hamf : AllMarkerFree st) : AllMarkerFree st' := by
  intro j t hj
  have hc := lookup_core_of_stateCore st st' h j
  rw [hj] at hc
  rcases hl : lookupTask st j with _ | t0
  · rw [hl] at hc
    simp only [Option.map_some', Option.map_none'] at hc
    exact Option.noConfusion hc
  · rw [hl] at hc
    simp only [Option.map_some'] at hc
    injection hc with h2
    have hcontent : t.content = t0.content := congrArg (fun q => q.2.2.2.2.2.1) h2
    rw [markerFree, hcontent]
    exact hamf j t0 hl

theorem idsNodup_of_stateCore (st st' : PassState) (h : stateCore st' = stateCore st)
    (hidn : IdsNodup st) : IdsNodup st' := by
  have htasks : st'.snap.tasks.map core7 = st.snap.tasks.map core7 := by
    have h2 := congrArg (fun q => q.2.2) h
    simpa [stateCore] using h2
  have hids : st'.snap.tasks.map (fun t => t.id) = st.snap.tasks.map (fun t => t.id) := by
    have h2 := congrArg (fun l => l.map (fun q =>
        (q : Int × Int × Option Int × Option Int × Int × String × Bool × Option Due).1)) htasks
    simpa [List.map_map, Function.comp] using h2
  unfold IdsNodup
  rw [hids]
  exact hidn

theorem starDrop_refl (L : String) (st : PassState) : starDrop L st st := by
  intro j t hl hstar ls' hls' hmem
  rw [getLabels, hl] at hls'
  simp only [Option.map_some'] at hls'
  injection hls' with h2
  rw [← h2] at hmem
  exact hmem

theorem starDrop_comp (L : String) (st st1 st2 : PassState)
    (hcore : ∀ j, (lookupTask st1 j).map core7 = (lookupTask st j).map core7)
    (h1 : starDrop L st st1) (h2 : starDrop L st1 st2) : starDrop L st st2 := by
  intro j t hl hstar ls' hls' hmem
  have hc := hcore j
  rw [hl] at hc
  rcases hl1 : lookupTask st1 j with _ | t1
  · rw [hl1] at hc
    simp only [Option.map_some', Option.map_none'] at hc
    exact Option.noConfusion hc
  · rw [hl1] at hc
    simp only [Option.map_some'] at hc
    injection hc with hcc
    have hcontent : t1.content = t.content := congrArg (fun q => q.2.2.2.2.2.1) hcc
    have hstar1 : pyStarts t1.content "*" = true := by rw [hcontent]; exact hstar
    have hmem1 : L ∈ t1.labels := h2 j t1 hl1 hstar1 ls' hls' hmem
    exact h1 j t hl hstar t1.labels (by rw [getLabels, hl1]; rfl) hmem1

theorem starAbsent_mono (L : String) (st st' : PassState) (j : Int)
    (hcore : (lookupTask st' j).map core7 = (lookupTask st j).map core7)
    (hdrop : starDrop L st st') (habs : starAbsent L st j) : starAbsent L st' j := by
  intro t' hl' hstar' hmem
  rcases hl : lookupTask st j with _ | t
  · rw [hl, hl'] at hcore
    simp only [Option.map_some', Option.map_none'] at hcore
    exact Option.noConfusion hcore
  · have hcontent : t'.content = t.content := by
      rw [hl, hl'] at hcore
      simp only [Option.map_some'] at hcore
      injection hcore with h2
      exact congrArg (fun q => q.2.2.2.2.2.1) h2
    have hstar : pyStarts t.content "*" = true := by rw [← hcontent]; exact hstar'
    have hmem0 := hdrop j t hl hstar t'.labels (by rw [getLabels, hl']; rfl) hmem
    exact habs t hl hstar hmem0


/-! ## One pass step never adds the label to a header-flagged item -/

theorem starDrop_of_labelsEq (L : String) (st st' : PassState)
    (h : ∀ j, getLabels st' j = getLabels st j) : starDrop L st st' := by
  intro j t hl hstar ls' hls' hmem
  rw [h j, getLabels, hl] at hls'
  simp only [Option.map_some'] at hls'
  injection hls' with h2
  rw [← h2] at hmem
  exact hmem

theorem drop_remove_label (st : PassState) (i : Int) (L0 : String) (j : Int)
    (ls' : List String) (h : getLabels (remove_label st i L0) j = some ls') :
    ∀ x ∈ ls', ∃ ls, getLabels st j = some ls ∧ x ∈ ls := by
  intro x hx
  by_cases hji : j = i
  · subst hji
    rcases hl : lookupTask st j with _ | it
    · have heq : remove_label st j L0 = st := by
        unfold remove_label
        rw [hl]
      rw [heq] at h
      exact ⟨ls', h, hx⟩
    · rw [getLabels, lookupTask_remove_label_self st j L0 it hl] at h
      refine ⟨it.labels, by rw [getLabels, hl]; rfl, ?_⟩
      by_cases hm : L0 ∈ it.labels
      · rw [if_pos hm] at h
        simp only [Option.map_some'] at h
        injection h with h2
        rw [← h2] at hx
        exact List.mem_of_mem_erase hx
      · rw [if_neg hm] at h
        simp only [Option.map_some'] at h
        injection h with h2
        rw [← h2] at hx
        exact hx
  · rw [getLabels, lookupTask_remove_label_ne st i j L0 hji, ← getLabels] at h
    exact ⟨ls', h, hx⟩

theorem starDrop_remove_label (L : String) (s : PassState) (i : Int) (L0 : String) :
    starDrop L s (remove_label s i L0) := by
  intro j t hl hstar ls' hls' hmem
  obtain ⟨ls, hls, hx⟩ := drop_remove_label s i L0 j ls' hls' L hmem
  rw [getLabels, hl] at hls
  simp only [Option.map_some'] at hls
  injection hls with h2
  rw [← h2] at hx
  exact hx

theorem starDrop_add_label (L : String) (st : PassState) (i : Int)
    (hns : ∀ it, lookupTask st i = some it → pyStarts it.content "*" = false) :
    starDrop L st (add_label st i L) := by
  intro j t hl hstar ls' hls' hmem
  by_cases hji : j = i
  · subst hji
    have hne := hns t hl
    rw [hstar] at hne
    exact Bool.noConfusion hne
  · rw [getLabels, lookupTask_add_label_ne st i j L hji, ← getLabels] at hls'
    rw [getLabels, hl] at hls'
    simp only [Option.map_some'] at hls'
    injection hls' with h2
    rw [← h2] at hmem
    exact hmem

theorem starDrop_seqChildStep (L : String) (pid : Int) (st : PassState) (c : Int) :
    starDrop L st (seqChildStep L pid st c) := by
  unfold seqChildStep
  rcases hl : lookupTask st c with _ | cit
  · exact starDrop_refl L st
  · dsimp only
    by_cases hstar : pyStarts cit.content "*" = true
    · rw [if_pos hstar]
      exact starDrop_refl L st
    · rw [if_neg hstar]
      have hfalse : pyStarts cit.content "*" = false := by
        cases hpc : pyStarts cit.content "*"
        · rfl
        · exact absurd hpc hstar
      split
      · refine starDrop_comp L st (add_label st c L) _ ?_ ?_ ?_
        · exact fun j => lookup_core_of_stateCore st _ (stateCore_add_label st c L) j
        · refine starDrop_add_label L st c (fun it hit => ?_)
          rw [hl] at hit
          injection hit with h2
          rw [← h2]
          exact hfalse
        · exact starDrop_remove_label L (add_label st c L) pid L
      · exact starDrop_remove_label L st c L

theorem starDrop_parChildStep (L : String) (st : PassState) (c : Int) :
    starDrop L st (parChildStep L st c) := by
  unfold parChildStep
  rcases hl : lookupTask st c with _ | cit
  · exact starDrop_refl L st
  · dsimp only
    by_cases hstar : pyStarts cit.content "*" = true
    · rw [if_pos hstar]
      exact starDrop_refl L st
    · rw [if_neg hstar]
      have hfalse : pyStarts cit.content "*" = false := by
        cases hpc : pyStarts cit.content "*"
        · rfl
        · exact absurd hpc hstar
      split
      · refine starDrop_add_label L st c (fun it hit => ?_)
        rw [hl] at hit
        injection hit with h2
        rw [← h2]
        exact hfalse
      · exact starDrop_refl L st

theorem starDrop_foldl {β : Type} (L : String) (g : PassState → β → PassState)
    (hcore : ∀ s b, stateCore (g s b) = stateCore s)
    (hstep : ∀ s b, starDrop L s (g s b)) :
    ∀ (l : List β) (s : PassState), starDrop L s (l.foldl g s) := by
  intro l
  induction l with
  | nil => intro s; exact starDrop_refl L s
  | cons b l ih =>
    intro s
    exact starDrop_comp L s (g s b) (l.foldl g (g s b))
      (fun j => lookup_core_of_stateCore s (g s b) (hcore s b) j) (hstep s b) (ih (g s b))

theorem starDrop_childrenPhase (L : String) (it_t sec_t proj_t : Option String)
    (itemId : Int) (cs : List Int) (st : PassState) :
    starDrop L st (childrenPhase L it_t sec_t proj_t itemId cs st) := by
  unfold childrenPhase
  split
  · exact starDrop_refl L st
  · dsimp only
    split
    · exact starDrop_foldl L _ (fun s b => stateCore_seqChildStep L itemId s b)
        (fun s b => starDrop_seqChildStep L itemId s b) cs st
    · split
      · refine starDrop_comp L st (remove_label st itemId L) _ ?_ ?_ ?_
        · exact fun j => lookup_core_of_stateCore st _ (stateCore_remove_label st itemId L) j
        · exact starDrop_remove_label L st itemId L
        · exact starDrop_foldl L _ (fun s b => stateCore_parChildStep L s b)
            (fun s b => starDrop_parChildStep L s b) cs (remove_label st itemId L)
      · exact starDrop_refl L st

theorem starDrop_removeChildLabels (L : String) (cs : List Int) (st : PassState) :
    starDrop L st (removeChildLabels L cs st) :=
  starDrop_foldl L _ (fun s b => stateCore_remove_label s b L)
    (fun s b => starDrop_remove_label L s b L) cs st

theorem starDrop_removeBoth (L : String) (itemId : Int) (cs : List Int) (st : PassState) :
    starDrop L st (removeChildLabels L cs (remove_label st itemId L)) :=
  starDrop_comp L st (remove_label st itemId L) _
    (fun j => lookup_core_of_stateCore st _ (stateCore_remove_label st itemId L) j)
    (starDrop_remove_label L st itemId L)
    (starDrop_removeChildLabels L cs (remove_label st itemId L))

theorem starDrop_relGate (args : Args) (L : String) (today : Int) (itemId : Int)
    (item : Item) (cs : List Int) (st : PassState) :
    starDrop L st (relGate args L today itemId item cs st) := by
  unfold relGate
  dsimp only
  split
  · rcases item.due with _ | due
    · exact starDrop_refl L st
    · dsimp only
      split
      · exact starDrop_refl L st
      · split
        · exact starDrop_removeBoth L itemId cs st
        · exact starDrop_refl L st
  · exact starDrop_refl L st

theorem starDrop_absGate (args : Args) (L : String) (today : Int) (itemId : Int)
    (item : Item) (cs : List Int) (st : PassState) :
    starDrop L st (absGate args L today itemId item cs st) := by
  unfold absGate
  dsimp only
  split
  · split
    · exact starDrop_refl L st
    · split
      · exact starDrop_removeBoth L itemId cs st
      · exact starDrop_relGate args L today itemId item cs st
  · exact starDrop_relGate args L today itemId item cs st

theorem starDrop_gatesPhase (args : Args) (L : String) (today : Int) (itemId : Int)
    (item : Item) (cs : List Int) (st : PassState) :
    starDrop L st (gatesPhase args L today itemId item cs st) := by
  unfold gatesPhase
  rcases item.due with _ | d
  · exact starDrop_absGate args L today itemId item cs st
  · dsimp only
    split
    · split
      · exact starDrop_remove_label L st itemId L
      · exact starDrop_absGate args L today itemId item cs st
    · exact starDrop_absGate args L today itemId item cs st

theorem starDrop_rootLabelCore (L : String) (it_t sec_t proj_t : Option String)
    (itemId : Int) (st : PassState) (ffs ffp : Bool)
    (hns : ∀ it, lookupTask st itemId = some it → pyStarts it.content "*" = false) :
    starDrop L st (rootLabelCore L it_t sec_t proj_t itemId st ffs ffp).1 := by
  unfold rootLabelCore
  split
  · exact starDrop_add_label L st itemId hns
  · split
    · split
      · split
        · exact starDrop_add_label L st itemId hns
        · exact starDrop_refl L st
      · split
        · exact starDrop_add_label L st itemId hns
        · exact starDrop_refl L st
    · split
      · split
        · split
          · exact starDrop_add_label L st itemId hns
          · exact starDrop_refl L st
        · split
          · exact starDrop_add_label L st itemId hns
          · exact starDrop_refl L st
      · exact starDrop_refl L st

theorem starDrop_gates_children (L : String) (args : Args) (today : Int) (itemId : Int)
    (item : Item) (it_t sec_t proj_t : Option String) (cs : List Int) (st0 st1 : PassState)
    (hcore : stateCore st1 = stateCore st0) (h01 : starDrop L st0 st1) :
    starDrop L st0
      (gatesPhase args L today itemId item cs
        (childrenPhase L it_t sec_t proj_t itemId cs st1)) := by
  have hc1 : stateCore (childrenPhase L it_t sec_t proj_t itemId cs st1) = stateCore st0 :=
    (stateCore_childrenPhase L it_t sec_t proj_t itemId cs st1).trans hcore
  refine starDrop_comp L st0 (childrenPhase L it_t sec_t proj_t itemId cs st1) _
    (fun j => lookup_core_of_stateCore st0 _ hc1 j) ?_ ?_
  · exact starDrop_comp L st0 st1 _ (fun j => lookup_core_of_stateCore st0 st1 hcore j) h01
      (starDrop_childrenPhase L it_t sec_t proj_t itemId cs st1)
  · exact starDrop_gatesPhase args L today itemId item cs _

theorem starDrop_labelPhase (args : Args) (L : String) (today : Int) (ctx : ItemCtx)
    (sectionIds : List Int) (itemId : Int) (cs : List Int) (st : PassState)
    (ffs ffp : Bool) :
    starDrop L st (labelPhase args L today ctx sectionIds itemId cs st ffs ffp).1 := by
  unfold labelPhase
  rcases hl : lookupTask st itemId with _ | item
  · exact starDrop_refl L st
  · dsimp only
    split
    · exact starDrop_refl L st
    · by_cases hstar : pyStarts item.content "*" = true
      · rw [if_pos hstar]
        exact starDrop_remove_label L st itemId L
      · rw [if_neg hstar]
        have hfalse : pyStarts item.content "*" = false := by
          cases hpc : pyStarts item.content "*"
          · rfl
          · exact absurd hpc hstar
        have hns : ∀ it, lookupTask st itemId = some it → pyStarts it.content "*" = false := by
          intro it hit
          rw [hl] at hit
          injection hit with h2
          rw [← h2]
          exact hfalse
        by_cases hpar : item.parent_id.isNone = true
        · rw [if_pos hpar]
          simp only [rootLabelPhase]
          exact starDrop_gates_children L args today itemId item _ ctx.section_type
            ctx.project_type cs st _
            (stateCore_rootLabelCore L _ ctx.section_type ctx.project_type itemId st ffs ffp)
            (starDrop_rootLabelCore L _ ctx.section_type ctx.project_type itemId st ffs ffp hns)
        · rw [if_neg hpar]
          dsimp only
          exact starDrop_gates_children L args today itemId item _ ctx.section_type
            ctx.project_type cs st st rfl (starDrop_refl L st)

theorem starDrop_processItem (args : Args) (L : String) (today hour : Int) (ctx : ItemCtx)
    (sectionIds : List Int) (st : PassState) (ffs ffp : Bool) (itemId : Int)
    (hp : ctx.header_all_in_p = false) (hs : ctx.header_all_in_s = false)
    (hup : ctx.unheader_all_in_p = false) (hus : ctx.unheader_all_in_s = false)
    (hreg : args.regeneration = none) (hend : args.end_hour = none)
    (hidn : IdsNodup st) (hamf : AllMarkerFree st) :
    starDrop L st
      (processItem args (some L) today hour ctx sectionIds (st, ffs, ffp) itemId).1 := by
  unfold processItem
  dsimp only
  rcases hlook : lookupTask st itemId with _ | item0
  · exact starDrop_refl L st
  · dsimp only
    have hpre : stateCore (prePhases args today hour ctx itemId
        (child_items_of st sectionIds item0.id) (child_items_all_of st sectionIds item0.id)
        item0 st) = stateCore st :=
      stateCore_prePhases args today hour ctx itemId _ _ item0 st hlook hidn
        (hamf itemId item0 hlook) hp hs hup hus hreg hend
    refine starDrop_comp L st _ _ (fun j => lookup_core_of_stateCore st _ hpre j)
      (starDrop_of_labelsEq L st _
        (fun j => labels_prePhases args today hour ctx itemId _ _ item0 st j)) ?_
    exact starDrop_labelPhase args L today ctx sectionIds itemId _ _ ffs ffp

/-! ## Duplicate-freeness through the gates and the whole item body -/

theorem allNodup_removeChildLabels (L : String) (cs : List Int) (st : PassState)
    (h : AllLabelsNodup st) : AllLabelsNodup (removeChildLabels L cs st) :=
  allNodup_foldl _ (fun s b hs => nodup_remove_label s b L hs) cs st h

theorem allNodup_relGate (args : Args) (L : String) (today : Int) (itemId : Int)
    (item : Item) (cs : List Int) (st : PassState) (h : AllLabelsNodup st) :
    AllLabelsNodup (relGate args L today itemId item cs st) := by
  unfold relGate
  dsimp only
  split
  · rcases item.due with _ | due
    · exact h
    · dsimp only
      split
      · exact h
      · split
        · exact allNodup_removeChildLabels L cs _ (nodup_remove_label st itemId L h)
        · exact h
  · exact h

theorem allNodup_absGate (args : Args) (L : String) (today : Int) (itemId : Int)
    (item : Item) (cs : List Int) (st : PassState) (h : AllLabelsNodup st) :
    AllLabelsNodup (absGate args L today itemId item cs st) := by
  unfold absGate
  dsimp only
  split
  · split
    · exact h
    · split
      · exact allNodup_removeChildLabels L cs _ (nodup_remove_label st itemId L h)
      · exact allNodup_relGate args L today itemId item cs st h
  · exact allNodup_relGate args L today itemId item cs st h

theorem allNodup_gatesPhase (args : Args) (L : String) (today : Int) (itemId : Int)
    (item : Item) (cs : List Int) (st : PassState) (h : AllLabelsNodup st) :
    AllLabelsNodup (gatesPhase args L today itemId item cs st) := by
  unfold gatesPhase
  rcases item.due with _ | d
  · exact allNodup_absGate args L today itemId item cs st h
  · dsimp only
    split
    · split
      · exact nodup_remove_label st itemId L h
      · exact allNodup_absGate args L today itemId item cs st h
    · exact allNodup_absGate args L today itemId item cs st h

theorem allNodup_labelPhase (args : Args) (L : String) (today : Int) (ctx : ItemCtx)
    (sectionIds : List Int) (itemId : Int) (cs : List Int) (st : PassState)
    (ffs ffp : Bool) (h : AllLabelsNodup st) :
    AllLabelsNodup (labelPhase args L today ctx sectionIds itemId cs st ffs ffp).1 := by
  unfold labelPhase
  rcases hl : lookupTask st itemId with _ | item
  · exact h
  · dsimp only
    split
    · exact h
    · split
      · exact nodup_remove_label st itemId L h
      · by_cases hpar : item.parent_id.isNone = true
        · rw [if_pos hpar]
          simp only [rootLabelPhase]
          exact allNodup_gatesPhase args L today itemId item cs _
            (allNodup_childrenPhase L _ ctx.section_type ctx.project_type itemId cs _
              (allNodup_rootLabelCore L _ ctx.section_type ctx.project_type itemId st ffs ffp h))
        · rw [if_neg hpar]
          dsimp only
          exact allNodup_gatesPhase args L today itemId item cs _
            (allNodup_childrenPhase L _ ctx.section_type ctx.project_type itemId cs st h)

theorem allNodup_processItem (args : Args) (nal : Option String) (today hour : Int)
    (ctx : ItemCtx) (sectionIds : List Int) (st : PassState) (ffs ffp : Bool) (itemId : Int)
    (h : AllLabelsNodup st) :
    AllLabelsNodup (processItem args nal today hour ctx sectionIds (st, ffs, ffp) itemId).1 := by
  unfold processItem
  dsimp only
  rcases hlook : lookupTask st itemId with _ | item0
  · exact h
  · dsimp only
    have h1 : AllLabelsNodup (prePhases args today hour ctx itemId
        (child_items_of st sectionIds item0.id) (child_items_all_of st sectionIds item0.id)
        item0 st) :=
      allNodup_of_getLabels _ _
        (fun j => labels_prePhases args today hour ctx itemId _ _ item0 st j) h
    rcases nal with _ | L
    · exact h1
    · dsimp only
      exact allNodup_labelPhase args L today ctx sectionIds itemId _ _ ffs ffp h1

/-! ## Establishment: a header-flagged item loses the label at its own visit -/

theorem star_establish_processItem (args : Args) (L : String) (today hour : Int)
    (ctx : ItemCtx) (sectionIds : List Int) (st : PassState) (ffs ffp : Bool)
    (itemId : Int) (it : Item)
    (hlook : lookupTask st itemId = some it)
    (hcomp : it.is_completed = false) (hstar : pyStarts it.content "*" = true)
    (hmf : markerFree it.content)
    (hp : ctx.header_all_in_p = false) (hs : ctx.header_all_in_s = false)
    (hup : ctx.unheader_all_in_p = false) (hus : ctx.unheader_all_in_s = false)
    (hnod : AllLabelsNodup st) :
    starAbsent L
      (processItem args (some L) today hour ctx sectionIds (st, ffs, ffp) itemId).1
      itemId := by
  unfold processItem
  dsimp only
  rw [hlook]
  dsimp only
  have hcore := prePhases_core_stable args today hour ctx itemId
    (child_items_of st sectionIds it.id) (child_items_all_of st sectionIds it.id) it st
    hlook hmf hp hs hup hus itemId
  rw [hlook] at hcore
  rcases hx : lookupTask (prePhases args today hour ctx itemId
      (child_items_of st sectionIds it.id) (child_items_all_of st sectionIds it.id) it st)
      itemId with _ | it1
  · rw [hx] at hcore
    cases hcore
  · rw [hx] at hcore
    injection hcore with hquad
    have hlabels1 : it1.labels = it.labels := congrArg (fun q => q.1) hquad
    have hcontent1 : it1.content = it.content := congrArg (fun q => q.2.1) hquad
    have hcomp1 : it1.is_completed = false := by
      have := congrArg (fun q => q.2.2.1) hquad
      simpa using this.trans hcomp
    have hstar1 : pyStarts it1.content "*" = true := by rw [hcontent1]; exact hstar
    unfold labelPhase
    rw [hx]
    dsimp only
    rw [if_neg (by rw [hcomp1]; exact fun hcon => Bool.noConfusion hcon), if_pos hstar1]
    intro t' hl' hstar' hmem
    rw [lookupTask_remove_label_self _ _ _ _ hx] at hl'
    by_cases hm : L ∈ it1.labels
    · rw [if_pos hm] at hl'
      injection hl' with h2
      rw [← h2] at hmem
      have hmem2 : L ∈ it1.labels.erase L := hmem
      rw [hlabels1] at hmem2
      exact (hnod itemId it hlook).not_mem_erase hmem2
    · rw [if_neg hm] at hl'
      injection hl' with h2
      rw [← h2] at hmem
      exact hm hmem


/-! ## Transfers between related states, and identity of the title rewrites -/

theorem lookup_transfer (st st' : PassState) (j : Int) (t : Item)
    (hcore : (lookupTask st' j).map core7 = (lookupTask st j).map core7)
    (hl : lookupTask st j = some t) :
    ∃ t', lookupTask st' j = some t' ∧ t'.content = t.content ∧
      t'.is_completed = t.is_completed ∧ t'.id = t.id ∧ t'.parent_id = t.parent_id ∧
      t'.section_id = t.section_id ∧ t'.project_id = t.project_id := by
  rw [hl] at hcore
  rcases hl' : lookupTask st' j with _ | t'
  · rw [hl'] at hcore
    simp only [Option.map_some', Option.map_none'] at hcore
    exact Option.noConfusion hcore
  · rw [hl'] at hcore
    simp only [Option.map_some'] at hcore
    injection hcore with h2
    exact ⟨t', rfl, congrArg (fun q => q.2.2.2.2.2.1) h2,
      congrArg (fun q => q.2.2.2.2.2.2.1) h2, congrArg (fun q => q.1) h2,
      congrArg (fun q => q.2.2.2.1) h2, congrArg (fun q => q.2.2.1) h2,
      congrArg (fun q => q.2.1) h2⟩

theorem sections_of_stateCore (st st' : PassState) (h : stateCore st' = stateCore st) :
    st'.snap.sections = st.snap.sections := by
  have h2 := congrArg (fun q => q.2.1) h
  simpa [stateCore] using h2

theorem projects_of_stateCore (st st' : PassState) (h : stateCore st' = stateCore st) :
    st'.snap.projects = st.snap.projects := by
  have h2 := congrArg (fun q => q.1) h
  simpa [stateCore] using h2

theorem updateSection_self (st : PassState) (sid : Int) (sec : Sec)
    (hhead : (st.snap.sections.filter (fun s => s.id = some sid)).head? = some sec)
    (hsid : (st.snap.sections.map (fun s => s.id)).Nodup) :
    updateSection st sid (fun s => { s with name := sec.name }) = st := by
  have hsec_mem : sec ∈ st.snap.sections ∧ sec.id = some sid := by
    rcases hfl : st.snap.sections.filter (fun s => s.id = some sid) with _ | ⟨x, xs⟩
    · rw [hfl] at hhead
      cases hhead
    · rw [hfl] at hhead
      injection hhead with h2
      have hx : x ∈ st.snap.sections.filter (fun s => s.id = some sid) := by
        rw [hfl]
        exact List.mem_cons_self x xs
      constructor
      · rw [← h2]
        exact List.mem_of_mem_filter hx
      · rw [← h2]
        simpa using List.of_mem_filter hx
  have hl : st.snap.sections.map
      (fun s => if s.id = some sid then { s with name := sec.name } else s)
      = st.snap.sections := by
    refine map_update_id (fun s : Sec => s.id) _ st.snap.sections (some sid) ?_
    intro x hx hk
    have hfx := filter_key_nodup (fun s : Sec => s.id) st.snap.sections (some sid) hsid x hx hk
    have hfx2 := filter_key_nodup (fun s : Sec => s.id) st.snap.sections (some sid) hsid sec
      hsec_mem.1 hsec_mem.2
    rw [hfx] at hfx2
    injection hfx2 with h3
    rw [h3]
  unfold updateSection
  rw [hl]

theorem updateProject_self (st : PassState) (projId : Int) (project : Project)
    (hhead : (st.snap.projects.filter (fun p => p.id = projId)).head? = some project)
    (hpid : (st.snap.projects.map (fun p => p.id)).Nodup) :
    updateProject st projId (fun p => { p with name := project.name }) = st := by
  have hp_mem : project ∈ st.snap.projects ∧ project.id = projId := by
    rcases hfl : st.snap.projects.filter (fun p => p.id = projId) with _ | ⟨x, xs⟩
    · rw [hfl] at hhead
      cases hhead
    · rw [hfl] at hhead
      injection hhead with h2
      have hx : x ∈ st.snap.projects.filter (fun p => p.id = projId) := by
        rw [hfl]
        exact List.mem_cons_self x xs
      constructor
      · rw [← h2]
        exact List.mem_of_mem_filter hx
      · rw [← h2]
        simpa using List.of_mem_filter hx
  have hl : st.snap.projects.map
      (fun p => if p.id = projId then { p with name := project.name } else p)
      = st.snap.projects := by
    refine map_update_id (fun p : Project => p.id) _ st.snap.projects projId ?_
    intro x hx hk
    have hfx := filter_key_nodup (fun p : Project => p.id) st.snap.projects projId hpid x hx hk
    have hfx2 := filter_key_nodup (fun p : Project => p.id) st.snap.projects projId hpid project
      hp_mem.1 hp_mem.2
    rw [hfx] at hfx2
    injection hfx2 with h3
    rw [h3]
  unfold updateProject
  rw [hl]

/-! ## The item loop: structure preserved, headers cleaned at their visit -/

theorem star_itemFold (args : Args) (L : String) (today hour : Int) (ctx : ItemCtx)
    (ids : List Int)
    (hp : ctx.header_all_in_p = false) (hs : ctx.header_all_in_s = false)
    (hup : ctx.unheader_all_in_p = false) (hus : ctx.unheader_all_in_s = false)
    (hreg : args.regeneration = none) (hend : args.end_hour = none) :
    ∀ (l : List Int) (st : PassState) (ffs ffp : Bool),
      IdsNodup st → AllMarkerFree st → AllLabelsNodup st →
      stateCore (l.foldl (processItem args (some L) today hour ctx ids) (st, ffs, ffp)).1 =
          stateCore st ∧
      AllLabelsNodup (l.foldl (processItem args (some L) today hour ctx ids) (st, ffs, ffp)).1 ∧
      starDrop L st (l.foldl (processItem args (some L) today hour ctx ids) (st, ffs, ffp)).1 ∧
      (∀ j ∈ l, ∀ t, lookupTask st j = some t → pyStarts t.content "*" = true →
         t.is_completed = false →
         starAbsent L
           (l.foldl (processItem args (some L) today hour ctx ids) (st, ffs, ffp)).1 j) := by
  intro l
  induction l with
  | nil =>
    intro st ffs ffp hidn hamf hnod
    exact ⟨rfl, hnod, starDrop_refl L st, fun j hj => absurd hj (List.not_mem_nil j)⟩
  | cons i l ih =>
    intro st ffs ffp hidn hamf hnod
    rcases hstep : processItem args (some L) today hour ctx ids (st, ffs, ffp) i
      with ⟨st1, f1, p1⟩
    have hsc1 : stateCore st1 = stateCore st := by
      have h0 := stateCore_processItem args (some L) today hour ctx ids st ffs ffp i
        hp hs hup hus hreg hend hidn hamf
      rw [hstep] at h0
      exact h0
    have hnd1 : AllLabelsNodup st1 := by
      have h0 := allNodup_processItem args (some L) today hour ctx ids st ffs ffp i hnod
      rw [hstep] at h0
      exact h0
    have hdrop1 : starDrop L st st1 := by
      have h0 := starDrop_processItem args L today hour ctx ids st ffs ffp i
        hp hs hup hus hreg hend hidn hamf
      rw [hstep] at h0
      exact h0
    have hidn1 : IdsNodup st1 := idsNodup_of_stateCore st st1 hsc1 hidn
    have hamf1 : AllMarkerFree st1 := amf_of_stateCore st st1 hsc1 hamf
    obtain ⟨hsc2, hnd2, hdrop2, hest2⟩ := ih st1 f1 p1 hidn1 hamf1 hnd1
    have hfold : (i :: l).foldl (processItem args (some L) today hour ctx ids) (st, ffs, ffp)
        = l.foldl (processItem args (some L) today hour ctx ids) (st1, f1, p1) := by
      rw [List.foldl_cons, hstep]
    rw [hfold]
    refine ⟨hsc2.trans hsc1, hnd2, ?_, ?_⟩
    · exact starDrop_comp L st st1 _
        (fun j => lookup_core_of_stateCore st st1 hsc1 j) hdrop1 hdrop2
    · intro j hj t hlt hstar hcomp
      rcases List.mem_cons.mp hj with rfl | hjl
      · have hest1 : starAbsent L st1 j := by
          have h0 := star_establish_processItem args L today hour ctx ids st ffs ffp j t
            hlt hcomp hstar (hamf j t hlt) hp hs hup hus hnod
          rw [hstep] at h0
          exact h0
        exact starAbsent_mono L st1 _ j (lookup_core_of_stateCore st1 _ hsc2 j) hdrop2 hest1
      · obtain ⟨t1, hl1, hc1, hcm1, -⟩ := lookup_transfer st st1 j t
          (lookup_core_of_stateCore st st1 hsc1 j) hlt
        refine hest2 j hjl t1 hl1 ?_ ?_
        · rw [hc1]
          exact hstar
        · rw [hcm1]
          exact hcomp


/-! ## The section loop -/

theorem star_processSection (args : Args) (L : String) (today hour : Int) (pc : ProjCtx)
    (st : PassState) (ffp : Bool) (secRef : Option Int)
    (hpf : pc.header_all_in_p = false) (hpu : pc.unheader_all_in_p = false)
    (hreg : args.regeneration = none) (hend : args.end_hour = none)
    (hidn : IdsNodup st) (hamf : AllMarkerFree st) (hnod : AllLabelsNodup st)
    (hsid : (st.snap.sections.map (fun s => s.id)).Nodup)
    (hsmf : ∀ s ∈ st.snap.sections, markerFree s.name) :
    stateCore (processSection args (some L) today hour pc (st, ffp) secRef).1 = stateCore st ∧
    AllLabelsNodup (processSection args (some L) today hour pc (st, ffp) secRef).1 ∧
    starDrop L st (processSection args (some L) today hour pc (st, ffp) secRef).1 ∧
    (∀ j t, lookupTask st j = some t → t.id ∈ pc.projectItemIds →
       t.section_id = secRef → pyStarts t.content "*" = true → t.is_completed = false →
       (secRef = none ∨ ∃ s ∈ st.snap.sections, s.id = secRef) →
       starAbsent L (processSection args (some L) today hour pc (st, ffp) secRef).1 j) := by
  rcases secRef with _ | sid
  · unfold processSection
    dsimp only
    rw [check_header_markerFree create_none_section.name (by decide)]
    dsimp only
    refine ⟨?_, ?_, ?_, ?_⟩
    · exact (star_itemFold args L today hour _ _ hpf rfl hpu rfl hreg hend _ st false ffp
        hidn hamf hnod).1
    · exact (star_itemFold args L today hour _ _ hpf rfl hpu rfl hreg hend _ st false ffp
        hidn hamf hnod).2.1
    · exact (star_itemFold args L today hour _ _ hpf rfl hpu rfl hreg hend _ st false ffp
        hidn hamf hnod).2.2.1
    · intro j t hlt hpii hsec hstar hcomp hex
      refine (star_itemFold args L today hour _ _ hpf rfl hpu rfl hreg hend _ st false ffp
        hidn hamf hnod).2.2.2 j ?_ t hlt hstar hcomp
      refine List.mem_map.mpr ⟨t, ?_, lookupTask_id st j t hlt⟩
      refine (pySorted_perm _).mem_iff.mpr ?_
      refine List.mem_filter.mpr ⟨?_, by simp [hsec]⟩
      refine List.mem_filterMap.mpr ⟨t.id, hpii, ?_⟩
      rw [lookupTask_id st j t hlt]
      exact hlt
  · unfold processSection
    dsimp only
    rcases hhead : (st.snap.sections.filter (fun s => s.id = some sid)).head? with _ | sec
    · rw [hhead]
      refine ⟨rfl, hnod, starDrop_refl L st, ?_⟩
      intro j t hlt hpii hsec hstar hcomp hex
      exfalso
      rcases hex with hex | ⟨s, hsm, hsv⟩
      · exact Option.noConfusion hex
      · have hmem : s ∈ st.snap.sections.filter (fun s => s.id = some sid) :=
          List.mem_filter.mpr ⟨hsm, by simp [hsv]⟩
        have hempty := List.head?_eq_none_iff.mp hhead
        rw [hempty] at hmem
        exact absurd hmem (List.not_mem_nil s)
    · have hsecmem : sec ∈ st.snap.sections ∧ sec.id = some sid := by
        have hx : sec ∈ st.snap.sections.filter (fun s => s.id = some sid) := by
          rcases hfl : st.snap.sections.filter (fun s => s.id = some sid) with _ | ⟨x, xs⟩
          · rw [hfl] at hhead
            cases hhead
          · rw [hfl] at hhead
            injection hhead with h2
            rw [hfl, ← h2]
            exact List.mem_cons_self x xs
        exact ⟨List.mem_of_mem_filter hx, by simpa using List.of_mem_filter hx⟩
      rw [hhead]
      dsimp only
      rw [check_header_markerFree sec.name (hsmf sec hsecmem.1)]
      dsimp only
      rw [updateSection_self st sid sec hhead hsid]
      refine ⟨?_, ?_, ?_, ?_⟩
      · exact (star_itemFold args L today hour _ _ hpf rfl hpu rfl hreg hend _ st false ffp
          hidn hamf hnod).1
      · exact (star_itemFold args L today hour _ _ hpf rfl hpu rfl hreg hend _ st false ffp
          hidn hamf hnod).2.1
      · exact (star_itemFold args L today hour _ _ hpf rfl hpu rfl hreg hend _ st false ffp
          hidn hamf hnod).2.2.1
      · intro j t hlt hpii hsec hstar hcomp hex
        refine (star_itemFold args L today hour _ _ hpf rfl hpu rfl hreg hend _ st false ffp
          hidn hamf hnod).2.2.2 j ?_ t hlt hstar hcomp
        refine List.mem_map.mpr ⟨t, ?_, lookupTask_id st j t hlt⟩
        refine (pySorted_perm _).mem_iff.mpr ?_
        refine List.mem_filter.mpr ⟨?_, by simp [hsec]⟩
        refine List.mem_filterMap.mpr ⟨t.id, hpii, ?_⟩
        rw [lookupTask_id st j t hlt]
        exact hlt

theorem star_sectionFold (args : Args) (L : String) (today hour : Int) (pc : ProjCtx)
    (hpf : pc.header_all_in_p = false) (hpu : pc.unheader_all_in_p = false)
    (hreg : args.regeneration = none) (hend : args.end_hour = none) :
    ∀ (srl : List (Option Int)) (st : PassState) (ffp : Bool),
      IdsNodup st → AllMarkerFree st → AllLabelsNodup st →
      (st.snap.sections.map (fun s => s.id)).Nodup →
      (∀ s ∈ st.snap.sections, markerFree s.name) →
      stateCore (srl.foldl (processSection args (some L) today hour pc) (st, ffp)).1 =
          stateCore st ∧
      AllLabelsNodup (srl.foldl (processSection args (some L) today hour pc) (st, ffp)).1 ∧
      starDrop L st (srl.foldl (processSection args (some L) today hour pc) (st, ffp)).1 ∧
      (∀ sr ∈ srl, ∀ j t, lookupTask st j = some t → t.id ∈ pc.projectItemIds →
         t.section_id = sr → pyStarts t.content "*" = true → t.is_completed = false →
         (sr = none ∨ ∃ s ∈ st.snap.sections, s.id = sr) →
         starAbsent L (srl.foldl (processSection args (some L) today hour pc) (st, ffp)).1 j) := by
  intro srl
  induction srl with
  | nil =>
    intro st ffp hidn hamf hnod hsid hsmf
    exact ⟨rfl, hnod, starDrop_refl L st, fun sr hsr => absurd hsr (List.not_mem_nil sr)⟩
  | cons sr srl ih =>
    intro st ffp hidn hamf hnod hsid hsmf
    rcases hstep : processSection args (some L) today hour pc (st, ffp) sr with ⟨st1, p1⟩
    obtain ⟨hsc1, hnd1, hdrop1, hest1⟩ := star_processSection args L today hour pc st ffp sr
      hpf hpu hreg hend hidn hamf hnod hsid hsmf
    rw [hstep] at hsc1 hnd1 hdrop1 hest1
    have hsc1' : stateCore st1 = stateCore st := hsc1
    have hnd1' : AllLabelsNodup st1 := hnd1
    have hdrop1' : starDrop L st st1 := hdrop1
    have hidn1 : IdsNodup st1 := idsNodup_of_stateCore st st1 hsc1' hidn
    have hamf1 : AllMarkerFree st1 := amf_of_stateCore st st1 hsc1' hamf
    have hsections1 : st1.snap.sections = st.snap.sections := sections_of_stateCore st st1 hsc1'
    have hsid1 : (st1.snap.sections.map (fun s => s.id)).Nodup := by
      rw [hsections1]
      exact hsid
    have hsmf1 : ∀ s ∈ st1.snap.sections, markerFree s.name := by
      rw [hsections1]
      exact hsmf
    obtain ⟨hsc2, hnd2, hdrop2, hest2⟩ := ih st1 p1 hidn1 hamf1 hnd1' hsid1 hsmf1
    have hfold : (sr :: srl).foldl (processSection args (some L) today hour pc) (st, ffp)
        = srl.foldl (processSection args (some L) today hour pc) (st1, p1) := by
      rw [List.foldl_cons, hstep]
    rw [hfold]
    refine ⟨hsc2.trans hsc1', hnd2, starDrop_comp L st st1 _
      (fun j => lookup_core_of_stateCore st st1 hsc1' j) hdrop1' hdrop2, ?_⟩
    intro sr' hsr' j t hlt hpii hsec hstar hcomp hex
    rcases List.mem_cons.mp hsr' with rfl | hsrl
    · have h1 : starAbsent L st1 j := hest1 j t hlt hpii hsec hstar hcomp hex
      exact starAbsent_mono L st1 _ j (lookup_core_of_stateCore st1 _ hsc2 j) hdrop2 h1
    · obtain ⟨t1, hl1, hc1, hcm1, hid1x, hpar1, hsec1x, hproj1⟩ := lookup_transfer st st1 j t
        (lookup_core_of_stateCore st st1 hsc1' j) hlt
      refine hest2 sr' hsrl j t1 hl1 ?_ ?_ ?_ ?_ ?_
      · rw [hid1x]
        exact hpii
      · rw [hsec1x]
        exact hsec
      · rw [hc1]
        exact hstar
      · rw [hcm1]
        exact hcomp
      · rcases hex with hex | ⟨s, hsm, hsv⟩
        · exact Or.inl hex
        · exact Or.inr ⟨s, by rw [hsections1]; exact hsm, hsv⟩

/-! ## The project loop -/

theorem star_processProject (args : Args) (L : String) (today hour : Int)
    (st : PassState) (projId : Int)
    (hreg : args.regeneration = none) (hend : args.end_hour = none)
    (hidn : IdsNodup st) (hamf : AllMarkerFree st) (hnod : AllLabelsNodup st)
    (hsid : (st.snap.sections.map (fun s => s.id)).Nodup)
    (hsmf : ∀ s ∈ st.snap.sections, markerFree s.name)
    (hpid : (st.snap.projects.map (fun p => p.id)).Nodup)
    (hpmf : ∀ p ∈ st.snap.projects, markerFree p.name) :
    stateCore (processProject args (some L) today hour st projId) = stateCore st ∧
    AllLabelsNodup (processProject args (some L) today hour st projId) ∧
    starDrop L st (processProject args (some L) today hour st projId) ∧
    (∀ j t, lookupTask st j = some t → t.project_id = projId →
       pyStarts t.content "*" = true → t.is_completed = false →
       (∃ p ∈ st.snap.projects, p.id = projId) →
       (t.section_id = none ∨
         ∃ s ∈ st.snap.sections, s.id = t.section_id ∧ s.project_id = projId) →
       starAbsent L (processProject args (some L) today hour st projId) j) := by
  unfold processProject
  rcases hhead : (st.snap.projects.filter (fun p => p.id = projId)).head? with _ | project
  · rw [hhead]
    refine ⟨rfl, hnod, starDrop_refl L st, ?_⟩
    intro j t hlt hproj hstar hcomp hex hsec
    exfalso
    obtain ⟨p, hpm, hpi⟩ := hex
    have hmem : p ∈ st.snap.projects.filter (fun p => p.id = projId) :=
      List.mem_filter.mpr ⟨hpm, by simp [hpi]⟩
    have hempty := List.head?_eq_none_iff.mp hhead
    rw [hempty] at hmem
    exact absurd hmem (List.not_mem_nil p)
  · dsimp only
    have hprojmem : project ∈ st.snap.projects ∧ project.id = projId := by
      have hx : project ∈ st.snap.projects.filter (fun p => p.id = projId) := by
        rcases hfl : st.snap.projects.filter (fun p => p.id = projId) with _ | ⟨x, xs⟩
        · rw [hfl] at hhead
          cases hhead
        · rw [hfl] at hhead
          injection hhead with h2
          rw [hfl, ← h2]
          exact List.mem_cons_self x xs
      exact ⟨List.mem_of_mem_filter hx, by simpa using List.of_mem_filter hx⟩
    rw [hhead]
    dsimp only
    rw [check_header_markerFree project.name (hpmf project hprojmem.1)]
    dsimp only
    rw [updateProject_self st projId project hhead hpid]
    refine ⟨?_, ?_, ?_, ?_⟩
    · exact (star_sectionFold args L today hour _ rfl rfl hreg hend _ st false
        hidn hamf hnod hsid hsmf).1
    · exact (star_sectionFold args L today hour _ rfl rfl hreg hend _ st false
        hidn hamf hnod hsid hsmf).2.1
    · exact (star_sectionFold args L today hour _ rfl rfl hreg hend _ st false
        hidn hamf hnod hsid hsmf).2.2.1
    · intro j t hlt hproj hstar hcomp hex hsec
      refine (star_sectionFold args L today hour _ rfl rfl hreg hend _ st false
        hidn hamf hnod hsid hsmf).2.2.2 t.section_id ?_ j t hlt ?_ rfl hstar hcomp ?_
      · rcases hsec with hnone | ⟨s, hsm, hsv, hsp⟩
        · rw [hnone]
          exact List.mem_cons_self _ _
        · refine List.mem_cons.mpr (Or.inr ?_)
          exact List.mem_map.mpr ⟨s, List.mem_filter.mpr ⟨hsm, by simp [hsp]⟩, hsv⟩
      · exact List.mem_map.mpr ⟨t,
          List.mem_filter.mpr ⟨lookupTask_mem st j t hlt, by simp [hproj]⟩, rfl⟩
      · rcases hsec with hnone | ⟨s, hsm, hsv, hsp⟩
        · exact Or.inl hnone
        · exact Or.inr ⟨s, hsm, hsv⟩

theorem star_projectFold (args : Args) (L : String) (today hour : Int)
    (hreg : args.regeneration = none) (hend : args.end_hour = none) :
    ∀ (pl : List Int) (st : PassState),
      IdsNodup st → AllMarkerFree st → AllLabelsNodup st →
      (st.snap.sections.map (fun s => s.id)).Nodup →
      (∀ s ∈ st.snap.sections, markerFree s.name) →
      (st.snap.projects.map (fun p => p.id)).Nodup →
      (∀ p ∈ st.snap.projects, markerFree p.name) →
      stateCore (pl.foldl (processProject args (some L) today hour) st) = stateCore st ∧
      AllLabelsNodup (pl.foldl (processProject args (some L) today hour) st) ∧
      starDrop L st (pl.foldl (processProject args (some L) today hour) st) ∧
      (∀ pid ∈ pl, ∀ j t, lookupTask st j = some t → t.project_id = pid →
         pyStarts t.content "*" = true → t.is_completed = false →
         (∃ p ∈ st.snap.projects, p.id = pid) →
         (t.section_id = none ∨
           ∃ s ∈ st.snap.sections, s.id = t.section_id ∧ s.project_id = pid) →
         starAbsent L (pl.foldl (processProject args (some L) today hour) st) j) := by
  intro pl
  induction pl with
  | nil =>
    intro st hidn hamf hnod hsid hsmf hpid hpmf
    exact ⟨rfl, hnod, starDrop_refl L st, fun pid hpid2 => absurd hpid2 (List.not_mem_nil pid)⟩
  | cons pid pl ih =>
    intro st hidn hamf hnod hsid hsmf hpid hpmf
    obtain ⟨hsc1, hnd1, hdrop1, hest1⟩ := star_processProject args L today hour st pid
      hreg hend hidn hamf hnod hsid hsmf hpid hpmf
    have hidn1 : IdsNodup (processProject args (some L) today hour st pid) :=
      idsNodup_of_stateCore st _ hsc1 hidn
    have hamf1 : AllMarkerFree (processProject args (some L) today hour st pid) :=
      amf_of_stateCore st _ hsc1 hamf
    have hsections1 := sections_of_stateCore st _ hsc1
    have hprojects1 := projects_of_stateCore st _ hsc1
    have hsid1 : ((processProject args (some L) today hour st pid).snap.sections.map
        (fun s => s.id)).Nodup := by
      rw [hsections1]
      exact hsid
    have hsmf1 : ∀ s ∈ (processProject args (some L) today hour st pid).snap.sections,
        markerFree s.name := by
      rw [hsections1]
      exact hsmf
    have hpid1 : ((processProject args (some L) today hour st pid).snap.projects.map
        (fun p => p.id)).Nodup := by
      rw [hprojects1]
      exact hpid
    have hpmf1 : ∀ p ∈ (processProject args (some L) today hour st pid).snap.projects,
        markerFree p.name := by
      rw [hprojects1]
      exact hpmf
    obtain ⟨hsc2, hnd2, hdrop2, hest2⟩ := ih (processProject args (some L) today hour st pid)
      hidn1 hamf1 hnd1 hsid1 hsmf1 hpid1 hpmf1
    rw [List.foldl_cons]
    refine ⟨hsc2.trans hsc1, hnd2, starDrop_comp L st _ _
      (fun j => lookup_core_of_stateCore st _ hsc1 j) hdrop1 hdrop2, ?_⟩
    intro pid' hpid' j t hlt hproj hstar hcomp hex hsec
    rcases List.mem_cons.mp hpid' with rfl | hpl
    · have h1 := hest1 j t hlt hproj hstar hcomp hex hsec
      exact starAbsent_mono L _ _ j (lookup_core_of_stateCore _ _ hsc2 j) hdrop2 h1
    · obtain ⟨t1, hl1, hc1, hcm1, hid1x, hpar1, hsec1x, hproj1⟩ := lookup_transfer st _ j t
        (lookup_core_of_stateCore st _ hsc1 j) hlt
      refine hest2 pid' hpl j t1 hl1 ?_ ?_ ?_ ?_ ?_
      · rw [hproj1]
        exact hproj
      · rw [hc1]
        exact hstar
      · rw [hcm1]
        exact hcomp
      · obtain ⟨p, hpm, hpi⟩ := hex
        exact ⟨p, by rw [hprojects1]; exact hpm, hpi⟩
      · rcases hsec with hnone | ⟨s, hsm, hsv, hsp⟩
        · rw [hsec1x]
          exact Or.inl hnone
        · refine Or.inr ⟨s, by rw [hsections1]; exact hsm, ?_, hsp⟩
          rw [hsec1x]
          exact hsv


/-- Claim C5, amended.  Over a well-formed, marker-free snapshot (regeneration
and end-of-day off), a full pass leaves no *non-completed* header-flagged item
carrying the next-action label, provided the item is actually traversed: its
project exists and its section reference resolves (no section, or a stored
section of the same project).  The original claim extended the exclusion to
all descendants of a header node and to completed items, which the
counterexample refutes: a header node is skipped without propagating
anything, so a stale label below it survives. -/
theorem c5_header_exclusion_amended (args : Args) (L : String) (today hour : Int)
    (snap : Snapshot)
    (hreg : args.regeneration = none) (hend : args.end_hour = none)
    (hidn : (snap.tasks.map (fun t => t.id)).Nodup)
    (hsid : (snap.sections.map (fun s => s.id)).Nodup)
    (hpid : (snap.projects.map (fun p => p.id)).Nodup)
    (hmft : ∀ t ∈ snap.tasks, markerFree t.content)
    (hmfs : ∀ s ∈ snap.sections, markerFree s.name)
    (hmfp : ∀ p ∈ snap.projects, markerFree p.name)
    (hlnd : ∀ t ∈ snap.tasks, t.labels.Nodup)
    (t0 : Item) (ht0 : t0 ∈ snap.tasks)
    (hstar : pyStarts t0.content "*" = true)
    (hcomp : t0.is_completed = false)
    (hproj : ∃ p ∈ snap.projects, p.id = t0.project_id)
    (hsec : t0.section_id = none ∨
      ∃ s ∈ snap.sections, s.id = t0.section_id ∧ s.project_id = t0.project_id) :
    ∀ t, lookupTask (autodoist_magic args (some L) today hour snap) t0.id = some t →
      L ∉ t.labels := by
  intro t hfin
  have hidn0 : IdsNodup { snap := snap, overview_item_ids := [], overview_item_labels := [] } :=
    hidn
  have hamf0 : AllMarkerFree
      { snap := snap, overview_item_ids := [], overview_item_labels := [] } :=
    fun j t' hj => hmft t' (lookupTask_mem _ j t' hj)
  have hnod0 : AllLabelsNodup
      { snap := snap, overview_item_ids := [], overview_item_labels := [] } :=
    AllLabelsNodup_of_tasks _ hlnd
  obtain ⟨hsc, hnd, hdrop, hest⟩ := star_projectFold args L today hour hreg hend
    (snap.projects.map (fun p => p.id))
    { snap := snap, overview_item_ids := [], overview_item_labels := [] }
    hidn0 hamf0 hnod0 hsid hmfs hpid hmfp
  have hlt0 : lookupTask { snap := snap, overview_item_ids := [], overview_item_labels := [] }
      t0.id = some t0 := mem_id_eq_lookup _ t0.id t0 hidn0 ht0 rfl
  obtain ⟨p, hpm, hpi⟩ := hproj
  have habs := hest t0.project_id (List.mem_map.mpr ⟨p, hpm, hpi⟩) t0.id t0 hlt0 rfl hstar
    hcomp ⟨p, hpm, hpi⟩ hsec
  obtain ⟨t', hl', hc', -⟩ := lookup_transfer _ _ t0.id t0
    (lookup_core_of_stateCore _ _ hsc t0.id) hlt0
  have hfin2 : lookupTask ((snap.projects.map (fun p => p.id)).foldl
      (processProject args (some L) today hour)
      { snap := snap, overview_item_ids := [], overview_item_labels := [] }) t0.id =
        some t := hfin
  have hteq : t' = t := by
    have h4 := hfin2
    rw [hl'] at h4
    injection h4
  have hstarT : pyStarts t.content "*" = true := by
    rw [← hteq, hc']
    exact hstar
  exact habs t hfin2 hstarT

/-- Witness for the amended C5 theorem: the header item 10 (`* H`) of
`snapC5x`, non-completed, in the one marker-free project. -/
theorem c5_header_exclusion_amended_witness :
    ((snapC5x.tasks.map (fun t => t.id)).Nodup ∧
     (mkItem 10 none none 1 "* H" 1 false []) ∈ snapC5x.tasks ∧
     pyStarts (mkItem 10 none none 1 "* H" 1 false []).content "*" = true ∧
     (mkItem 10 none none 1 "* H" 1 false []).is_completed = false) ∧
    (∀ t, lookupTask (autodoist_magic testArgs (some NA) 20000 12 snapC5x)
        (mkItem 10 none none 1 "* H" 1 false []).id = some t → NA ∉ t.labels) :=
  ⟨⟨by decide, by decide, by decide, by decide⟩,
    c5_header_exclusion_amended testArgs NA 20000 12 snapC5x rfl rfl (by decide) (by decide)
      (by decide) (by decide) (by decide) (by decide) (by decide)
      (mkItem 10 none none 1 "* H" 1 false []) (by decide) (by decide) (by decide)
      (by decide) (by decide)⟩


/-! ## The per-item body on a flat, untyped, annotation-free task -/

theorem get_item_type_succ_none (args : Args) (fuel : Nat) (t : Item) (items : List Item)
    (hpar : t.parent_id = none) (hty : get_type_of_item args t = none) :
    get_item_type args (fuel + 1) t items = .ok none := by
  unfold get_item_type
  dsimp only
  rw [hty, hpar]

theorem item_type_of_none (args : Args) (t : Item) (items : List Item)
    (hpar : t.parent_id = none) (hty : get_type_of_item args t = none) :
    item_type_of args t items = none := by
  unfold item_type_of
  rw [show recursionLimit = 999 + 1 from rfl,
    get_item_type_succ_none args 999 t items hpar hty]

theorem child_items_of_flat (st : PassState) (ids : List Int) (pid : Int)
    (hflat : ∀ j u, lookupTask st j = some u → u.parent_id = none) :
    child_items_of st ids pid = [] := by
  unfold child_items_of
  rw [List.map_eq_nil_iff, List.filter_eq_nil_iff]
  intro x hx
  obtain ⟨i, hi, hlx⟩ := List.mem_filterMap.mp (List.mem_of_mem_filter hx)
  have hp := hflat i x hlx
  simp [hp]

theorem childrenPhase_nil (L : String) (it_t sec_t proj_t : Option String) (itemId : Int)
    (st : PassState) : childrenPhase L it_t sec_t proj_t itemId [] st = st := by
  unfold childrenPhase
  rw [if_pos rfl]

theorem relGate_noop (args : Args) (L : String) (today : Int) (itemId : Int)
    (item : Item) (cs : List Int) (st : PassState)
    (hf2 : pyFind item.content "start=due-" = -1) :
    relGate args L today itemId item cs st = st := by
  unfold relGate
  dsimp only
  rw [if_neg (by rw [hf2]; decide)]

theorem absGate_noop (args : Args) (L : String) (today : Int) (itemId : Int)
    (item : Item) (cs : List Int) (st : PassState)
    (hf1 : pyFind item.content "start=" = -1)
    (hf2 : pyFind item.content "start=due-" = -1) :
    absGate args L today itemId item cs st = st := by
  unfold absGate
  dsimp only
  rw [if_neg (by rw [hf1]; intro h; exact absurd h.1 (by decide))]
  exact relGate_noop args L today itemId item cs st hf2

theorem gatesPhase_noop (args : Args) (L : String) (today : Int) (itemId : Int)
    (item : Item) (cs : List Int) (st : PassState)
    (hhf : args.hide_future ≤ 0)
    (hf1 : pyFind item.content "start=" = -1)
    (hf2 : pyFind item.content "start=due-" = -1) :
    gatesPhase args L today itemId item cs st = st := by
  have habs := absGate_noop args L today itemId item cs st hf1 hf2
  unfold gatesPhase
  rcases item.due with _ | d
  · exact habs
  · dsimp only
    rw [if_neg (by omega), habs]

theorem rootLabelCore_seq_none (L : String) (itemId : Int) (st : PassState) (ffs ffp : Bool) :
    rootLabelCore L none none (some "sequential") itemId st ffs ffp =
      if ffp then (st, ffs, ffp) else (add_label st itemId L, ffs, true) := by
  unfold rootLabelCore
  rw [if_neg (by decide)]
  dsimp only
  rw [if_pos (Or.inl rfl)]
  cases ffp
  · simp
  · simp

theorem rootLabelPhase_seq_none (L : String) (itemId : Int) (st : PassState) (ffs ffp : Bool) :
    rootLabelPhase L none none (some "sequential") itemId st ffs ffp =
      if ffp then (st, ffs, true) else (add_label st itemId L, ffs, true) := by
  unfold rootLabelPhase
  rw [rootLabelCore_seq_none]
  cases ffp
  · simp
  · simp

theorem processItem_noLookup (args : Args) (nal : Option String) (today hour : Int)
    (ctx : ItemCtx) (ids : List Int) (st : PassState) (ffs ffp : Bool) (i : Int)
    (hl : lookupTask st i = none) :
    processItem args nal today hour ctx ids (st, ffs, ffp) i = (st, ffs, ffp) := by
  unfold processItem
  dsimp only
  rw [hl]

theorem eligible_of_core (st st' : PassState) (j : Int)
    (hcore : (lookupTask st' j).map core7 = (lookupTask st j).map core7) :
    eligibleChild st' j = eligibleChild st j := by
  unfold eligibleChild
  rcases hl : lookupTask st j with _ | t
  · rcases hl' : lookupTask st' j with _ | t'
    · rfl
    · rw [hl, hl'] at hcore
      simp only [Option.map_some', Option.map_none'] at hcore
      exact Option.noConfusion hcore
  · rcases hl' : lookupTask st' j with _ | t'
    · rw [hl, hl'] at hcore
      simp only [Option.map_some', Option.map_none'] at hcore
      exact Option.noConfusion hcore
    · rw [hl, hl'] at hcore
      simp only [Option.map_some'] at hcore
      injection hcore with h2
      have hc1 : t'.content = t.content := congrArg (fun q => q.2.2.2.2.2.1) h2
      have hc2 : t'.is_completed = t.is_completed := congrArg (fun q => q.2.2.2.2.2.2.1) h2
      dsimp only
      rw [hc1, hc2]

theorem flatP_of_stateCore (args : Args) (st st' : PassState)
    (h : stateCore st' = stateCore st) (hfp : FlatP args st) : FlatP args st' := by
  intro j u hj
  have hc := lookup_core_of_stateCore st st' h j
  rw [hj] at hc
  rcases hl : lookupTask st j with _ | t
  · rw [hl] at hc
    simp only [Option.map_some', Option.map_none'] at hc
    exact Option.noConfusion hc
  · rw [hl] at hc
    simp only [Option.map_some'] at hc
    injection hc with h2
    have hcontent : u.content = t.content := congrArg (fun q => q.2.2.2.2.2.1) h2
    have hpar : u.parent_id = t.parent_id := congrArg (fun q => q.2.2.2.1) h2
    obtain ⟨m1, m2, m3, m4, m5⟩ := hfp j t hl
    refine ⟨?_, ?_, ?_, ?_, ?_⟩
    · rw [markerFree, hcontent]
      exact m1
    · rw [hpar]
      exact m2
    · show check_name args (pyStrip u.content) = none
      rw [hcontent]
      exact m3
    · rw [hcontent]
      exact m4
    · rw [hcontent]
      exact m5


theorem flat_processItem (args : Args) (L : String) (today hour : Int) (ctx : ItemCtx)
    (ids : List Int) (st : PassState) (ffs ffp : Bool) (i : Int) (t : Item)
    (hlook : lookupTask st i = some t)
    (hp : ctx.header_all_in_p = false) (hs : ctx.header_all_in_s = false)
    (hup : ctx.unheader_all_in_p = false) (hus : ctx.unheader_all_in_s = false)
    (hsect : ctx.section_type = none) (hproj : ctx.project_type = some "sequential")
    (hreg : args.regeneration = none) (hend : args.end_hour = none)
    (hhf : args.hide_future ≤ 0)
    (hmf : markerFree t.content)
    (hflat : ∀ j u, lookupTask st j = some u → u.parent_id = none)
    (hty : get_type_of_item args t = none)
    (hf1 : pyFind t.content "start=" = -1)
    (hf2 : pyFind t.content "start=due-" = -1) :
    (t.is_completed = true →
       (∀ j, getLabels (processItem args (some L) today hour ctx ids (st, ffs, ffp) i).1 j =
          getLabels st j) ∧
       (processItem args (some L) today hour ctx ids (st, ffs, ffp) i).2 = (ffs, ffp)) ∧
    (t.is_completed = false → pyStarts t.content "*" = true →
       getLabels (processItem args (some L) today hour ctx ids (st, ffs, ffp) i).1 i =
           some (t.labels.erase L) ∧
       (∀ j, j ≠ i → getLabels (processItem args (some L) today hour ctx ids
           (st, ffs, ffp) i).1 j = getLabels st j) ∧
       (processItem args (some L) today hour ctx ids (st, ffs, ffp) i).2 = (ffs, ffp)) ∧
    (t.is_completed = false → pyStarts t.content "*" = false → ffp = true →
       (∀ j, getLabels (processItem args (some L) today hour ctx ids (st, ffs, ffp) i).1 j =
          getLabels st j) ∧
       (processItem args (some L) today hour ctx ids (st, ffs, ffp) i).2.2 = true) ∧
    (t.is_completed = false → pyStarts t.content "*" = false → ffp = false →
       getLabels (processItem args (some L) today hour ctx ids (st, ffs, ffp) i).1 i =
           some (if L ∈ t.labels then t.labels else t.labels ++ [L]) ∧
       (∀ j, j ≠ i → getLabels (processItem args (some L) today hour ctx ids
           (st, ffs, ffp) i).1 j = getLabels st j) ∧
       (processItem args (some L) today hour ctx ids (st, ffs, ffp) i).2.2 = true) := by
  unfold processItem
  dsimp only
  rw [hlook]
  dsimp only
  rw [child_items_of_flat st ids t.id hflat]
  have hcore := prePhases_core_stable args today hour ctx i []
    (child_items_all_of st ids t.id) t st hlook hmf hp hs hup hus i
  rw [hlook] at hcore
  rcases hx : lookupTask (prePhases args today hour ctx i []
      (child_items_all_of st ids t.id) t st) i with _ | it1
  · rw [hx] at hcore
    cases hcore
  · rw [hx] at hcore
    injection hcore with hquad
    have hlabels1 : it1.labels = t.labels := congrArg (fun q => q.1) hquad
    have hcontent1 : it1.content = t.content := congrArg (fun q => q.2.1) hquad
    have hcompeq : it1.is_completed = t.is_completed := congrArg (fun q => q.2.2.1) hquad
    have hpareq : it1.parent_id = t.parent_id := congrArg (fun q => q.2.2.2) hquad
    have hlabpre : ∀ j, getLabels (prePhases args today hour ctx i []
        (child_items_all_of st ids t.id) t st) j = getLabels st j :=
      fun j => labels_prePhases args today hour ctx i [] (child_items_all_of st ids t.id) t st j
    unfold labelPhase
    rw [hx]
    dsimp only
    refine ⟨?_, ?_, ?_, ?_⟩
    · intro hcomp
      rw [if_pos (by rw [hcompeq, hcomp])]
      exact ⟨hlabpre, rfl⟩
    · intro hcomp hstar
      rw [if_neg (by rw [hcompeq, hcomp]; exact fun hcon => Bool.noConfusion hcon),
        if_pos (by rw [hcontent1]; exact hstar)]
      refine ⟨?_, ?_, rfl⟩
      · rw [getLabels, lookupTask_remove_label_self _ _ _ _ hx]
        by_cases hm : L ∈ it1.labels
        · rw [if_pos hm]
          simp only [Option.map_some']
          rw [hlabels1]
        · rw [if_neg hm]
          simp only [Option.map_some']
          have hmt : L ∉ t.labels := by
            rw [← hlabels1]
            exact hm
          rw [List.erase_of_not_mem hmt, hlabels1]
      · intro j hj
        rw [getLabels, lookupTask_remove_label_ne _ _ _ _ hj, ← getLabels]
        exact hlabpre j
    · intro hcomp hstar hffp
      subst hffp
      rw [if_neg (by rw [hcompeq, hcomp]; exact fun hcon => Bool.noConfusion hcon),
        if_neg (by rw [hcontent1, hstar]; exact fun hcon => Bool.noConfusion hcon)]
      rw [item_type_of_none args it1 _ (by rw [hpareq]; exact hflat i t hlook)
        (by show check_name args (pyStrip it1.content) = none; rw [hcontent1]; exact hty)]
      rw [hsect, hproj]
      rw [if_pos (by rw [hpareq, hflat i t hlook]; rfl)]
      rw [rootLabelPhase_seq_none, if_pos rfl]
      rw [childrenPhase_nil, gatesPhase_noop args L today i it1 [] _ hhf
        (by rw [hcontent1]; exact hf1) (by rw [hcontent1]; exact hf2)]
      exact ⟨hlabpre, rfl⟩
    · intro hcomp hstar hffp
      subst hffp
      rw [if_neg (by rw [hcompeq, hcomp]; exact fun hcon => Bool.noConfusion hcon),
        if_neg (by rw [hcontent1, hstar]; exact fun hcon => Bool.noConfusion hcon)]
      rw [item_type_of_none args it1 _ (by rw [hpareq]; exact hflat i t hlook)
        (by show check_name args (pyStrip it1.content) = none; rw [hcontent1]; exact hty)]
      rw [hsect, hproj]
      rw [if_pos (by rw [hpareq, hflat i t hlook]; rfl)]
      rw [rootLabelPhase_seq_none, if_neg (by decide)]
      rw [childrenPhase_nil, gatesPhase_noop args L today i it1 [] _ hhf
        (by rw [hcontent1]; exact hf1) (by rw [hcontent1]; exact hf2)]
      refine ⟨?_, ?_, rfl⟩
      · rw [getLabels, lookupTask_add_label_self _ _ _ _ hx]
        by_cases hm : L ∈ it1.labels
        · rw [if_pos hm, if_pos (by rw [← hlabels1]; exact hm)]
          simp only [Option.map_some']
          rw [hlabels1]
        · rw [if_neg hm, if_neg (by rw [← hlabels1]; exact hm)]
          simp only [Option.map_some']
          rw [hlabels1]
      · intro j hj
        rw [getLabels, lookupTask_add_label_ne _ _ _ _ hj, ← getLabels]
        exact hlabpre j


theorem flat_itemFold (args : Args) (L : String) (today hour : Int) (ctx : ItemCtx)
    (ids : List Int)
    (hp : ctx.header_all_in_p = false) (hs : ctx.header_all_in_s = false)
    (hup : ctx.unheader_all_in_p = false) (hus : ctx.unheader_all_in_s = false)
    (hsect : ctx.section_type = none) (hproj : ctx.project_type = some "sequential")
    (hreg : args.regeneration = none) (hend : args.end_hour = none)
    (hhf : args.hide_future ≤ 0) :
    ∀ (l : List Int) (st : PassState) (ffs ffp : Bool),
      IdsNodup st → AllMarkerFree st → FlatP args st → l.Nodup →
      stateCore (l.foldl (processItem args (some L) today hour ctx ids) (st, ffs, ffp)).1 =
          stateCore st ∧
      (∀ j, j ∉ l → getLabels (l.foldl (processItem args (some L) today hour ctx ids)
          (st, ffs, ffp)).1 j = getLabels st j) ∧
      (ffp = true →
         (l.foldl (processItem args (some L) today hour ctx ids) (st, ffs, ffp)).2.2 = true ∧
         (∀ j ls ls', getLabels st j = some ls →
            getLabels (l.foldl (processItem args (some L) today hour ctx ids)
              (st, ffs, ffp)).1 j = some ls' → L ∈ ls' → L ∈ ls)) ∧
      (ffp = false →
         (∀ j ∈ l, eligibleChild st j = false) ∨
         ((l.foldl (processItem args (some L) today hour ctx ids) (st, ffs, ffp)).2.2 = true ∧
          ∃ j ∈ l, ∃ ls', getLabels (l.foldl (processItem args (some L) today hour ctx ids)
              (st, ffs, ffp)).1 j = some ls' ∧ L ∈ ls')) := by
  intro l
  induction l with
  | nil =>
    intro st ffs ffp hidn hamf hfp hnodl
    refine ⟨rfl, fun j hj => rfl, fun hffp => ⟨hffp, ?_⟩,
      fun hffp => Or.inl (fun j hj => absurd hj (List.not_mem_nil j))⟩
    intro j ls ls' hls hls' hmem
    have hls2 : getLabels st j = some ls' := hls'
    rw [hls] at hls2
    injection hls2 with h2
    rw [← h2] at hmem
    exact hmem
  | cons i l ihl =>
    intro st ffs ffp hidn hamf hfp hnodl
    have hnodl2 := List.nodup_cons.mp hnodl
    rcases hli : lookupTask st i with _ | t
    · have hstep := processItem_noLookup args (some L) today hour ctx ids st ffs ffp i hli
      rw [List.foldl_cons, hstep]
      obtain ⟨ha, hb, hc, hd⟩ := ihl st ffs ffp hidn hamf hfp hnodl2.2
      refine ⟨ha, ?_, hc, ?_⟩
      · intro j hj
        exact hb j (fun hjl => hj (List.mem_cons_of_mem i hjl))
      · intro hffp
        rcases hd hffp with hno | hgain
        · left
          intro j hj
          rcases List.mem_cons.mp hj with rfl | hjl
          · unfold eligibleChild
            rw [hli]
          · exact hno j hjl
        · right
          obtain ⟨hff, j, hjl, ls', hgl, hmem⟩ := hgain
          exact ⟨hff, j, List.mem_cons_of_mem i hjl, ls', hgl, hmem⟩
    · obtain ⟨hmf_t, hpar_t, hty_t, hf1_t, hf2_t⟩ := hfp i t hli
      have hflat' : ∀ j u, lookupTask st j = some u → u.parent_id = none :=
        fun j u hu => (hfp j u hu).2.1
      obtain ⟨c1, c2, c3, c4⟩ := flat_processItem args L today hour ctx ids st ffs ffp i t
        hli hp hs hup hus hsect hproj hreg hend hhf hmf_t hflat' hty_t hf1_t hf2_t
      rcases hstep : processItem args (some L) today hour ctx ids (st, ffs, ffp) i
        with ⟨st1, f1, p1⟩
      rw [hstep] at c1 c2 c3 c4
      have hsc1 : stateCore st1 = stateCore st := by
        have h0 := stateCore_processItem args (some L) today hour ctx ids st ffs ffp i
          hp hs hup hus hreg hend hidn hamf
        rw [hstep] at h0
        exact h0
      have hidn1 := idsNodup_of_stateCore st st1 hsc1 hidn
      have hamf1 := amf_of_stateCore st st1 hsc1 hamf
      have hfp1 := flatP_of_stateCore args st st1 hsc1 hfp
      obtain ⟨ha, hb, hc, hd⟩ := ihl st1 f1 p1 hidn1 hamf1 hfp1 hnodl2.2
      have hfold : (i :: l).foldl (processItem args (some L) today hour ctx ids)
          (st, ffs, ffp) = l.foldl (processItem args (some L) today hour ctx ids)
            (st1, f1, p1) := by
        rw [List.foldl_cons, hstep]
      rw [hfold]
      by_cases hcomp : t.is_completed = true
      · obtain ⟨heq, hfl⟩ := c1 hcomp
        have hflags : f1 = ffs ∧ p1 = ffp :=
          ⟨congrArg Prod.fst hfl, congrArg Prod.snd hfl⟩
        refine ⟨ha.trans hsc1, ?_, ?_, ?_⟩
        · intro j hj
          rw [hb j (fun hjl => hj (List.mem_cons_of_mem i hjl)), heq j]
        · intro hffp
          obtain ⟨hff2, hdrop2⟩ := hc (by rw [hflags.2]; exact hffp)
          refine ⟨hff2, ?_⟩
          intro j ls ls' hls hls' hmem
          have hls1 : getLabels st1 j = some ls := by
            rw [heq j]
            exact hls
          exact hdrop2 j ls ls' hls1 hls' hmem
        · intro hffp
          rcases hd (by rw [hflags.2]; exact hffp) with hno | hgain
          · left
            intro j hj
            rcases List.mem_cons.mp hj with rfl | hjl
            · unfold eligibleChild
              rw [hli]
              dsimp only
              rw [hcomp]
              simp
            · rw [← eligible_of_core st st1 j (lookup_core_of_stateCore st st1 hsc1 j)]
              exact hno j hjl
          · right
            obtain ⟨hff, j, hjl, ls', hgl, hmem⟩ := hgain
            exact ⟨hff, j, List.mem_cons_of_mem i hjl, ls', hgl, hmem⟩
      · have hcompf : t.is_completed = false := by
          cases hcc : t.is_completed
          · rfl
          · exact absurd hcc hcomp
        by_cases hstar : pyStarts t.content "*" = true
        · obtain ⟨hgi, hother, hfl⟩ := c2 hcompf hstar
          have hflags : f1 = ffs ∧ p1 = ffp :=
            ⟨congrArg Prod.fst hfl, congrArg Prod.snd hfl⟩
          refine ⟨ha.trans hsc1, ?_, ?_, ?_⟩
          · intro j hj
            have hji : j ≠ i := fun h => hj (h ▸ List.mem_cons_self i l)
            rw [hb j (fun hjl => hj (List.mem_cons_of_mem i hjl)), hother j hji]
          · intro hffp
            obtain ⟨hff2, hdrop2⟩ := hc (by rw [hflags.2]; exact hffp)
            refine ⟨hff2, ?_⟩
            intro j ls ls' hls hls' hmem
            by_cases hji : j = i
            · subst hji
              have hls_t : ls = t.labels := by
                rw [getLabels, hli] at hls
                simp only [Option.map_some'] at hls
                injection hls with h2
                exact h2.symm
              have hin := hdrop2 j (t.labels.erase L) ls' hgi hls' hmem
              rw [hls_t]
              exact List.mem_of_mem_erase hin
            · have hls1 : getLabels st1 j = some ls := by
                rw [hother j hji]
                exact hls
              exact hdrop2 j ls ls' hls1 hls' hmem
          · intro hffp
            rcases hd (by rw [hflags.2]; exact hffp) with hno | hgain
            · left
              intro j hj
              rcases List.mem_cons.mp hj with rfl | hjl
              · unfold eligibleChild
                rw [hli]
                dsimp only
                rw [hstar]
                simp
              · rw [← eligible_of_core st st1 j (lookup_core_of_stateCore st st1 hsc1 j)]
                exact hno j hjl
            · right
              obtain ⟨hff, j, hjl, ls', hgl, hmem⟩ := hgain
              exact ⟨hff, j, List.mem_cons_of_mem i hjl, ls', hgl, hmem⟩
        · have hstarf : pyStarts t.content "*" = false := by
            cases hcc : pyStarts t.content "*"
            · rfl
            · exact absurd hcc hstar
          by_cases hffp0 : ffp = true
          · obtain ⟨heq, hff1⟩ := c3 hcompf hstarf hffp0
            have hp1 : p1 = true := hff1
            refine ⟨ha.trans hsc1, ?_, ?_, ?_⟩
            · intro j hj
              rw [hb j (fun hjl => hj (List.mem_cons_of_mem i hjl)), heq j]
            · intro _
              obtain ⟨hff2, hdrop2⟩ := hc hp1
              refine ⟨hff2, ?_⟩
              intro j ls ls' hls hls' hmem
              have hls1 : getLabels st1 j = some ls := by
                rw [heq j]
                exact hls
              exact hdrop2 j ls ls' hls1 hls' hmem
            · intro hffp
              rw [hffp] at hffp0
              exact absurd hffp0 (fun hcon => Bool.noConfusion hcon)
          · have hffpf : ffp = false := by
              cases hcc : ffp
              · rfl
              · exact absurd hcc hffp0
            obtain ⟨hgi, hother, hff1⟩ := c4 hcompf hstarf hffpf
            have hp1 : p1 = true := hff1
            refine ⟨ha.trans hsc1, ?_, ?_, ?_⟩
            · intro j hj
              have hji : j ≠ i := fun h => hj (h ▸ List.mem_cons_self i l)
              rw [hb j (fun hjl => hj (List.mem_cons_of_mem i hjl)), hother j hji]
            · intro hffp
              rw [hffp] at hffpf
              exact absurd hffpf (fun hcon => Bool.noConfusion hcon)
            · intro _
              right
              obtain ⟨hff2, hdrop2⟩ := hc hp1
              refine ⟨hff2, i, List.mem_cons_self i l, ?_⟩
              have hpersist := hb i hnodl2.1
              rw [hpersist, hgi]
              refine ⟨_, rfl, ?_⟩
              by_cases hm : L ∈ t.labels
              · rw [if_pos hm]
                exact hm
              · rw [if_neg hm]
                simp


theorem section_ids_nodup (st : PassState) (pii : List Int) (pred : Item → Bool)
    (hpii : pii.Nodup) :
    ((pySorted ((pii.filterMap (fun i => lookupTask st i)).filter pred)).map
      (fun x => x.id)).Nodup := by
  have h1 : ∀ x ∈ pii.filterMap (fun i => lookupTask st i), lookupTask st x.id = some x := by
    intro x hx
    obtain ⟨i, hi, hlx⟩ := List.mem_filterMap.mp hx
    rw [lookupTask_id st i x hlx]
    exact hlx
  have h2 : (pii.filterMap (fun i => lookupTask st i)).Nodup := by
    refine List.Nodup.filterMap ?_ hpii
    intro a a' b hb hb'
    have e1 := lookupTask_id st a b (Option.mem_def.mp hb)
    have e2 := lookupTask_id st a' b (Option.mem_def.mp hb')
    rw [← e1]
    exact e2
  have h3 : ((pii.filterMap (fun i => lookupTask st i)).filter pred).Nodup := h2.filter pred
  have h4 : (pySorted ((pii.filterMap (fun i => lookupTask st i)).filter pred)).Nodup :=
    ((pySorted_perm _).nodup_iff).mpr h3
  refine List.Nodup.map_on ?_ h4
  intro x hx y hy hxy
  have hx2 := h1 x (List.mem_of_mem_filter ((pySorted_perm _).mem_iff.mp hx))
  have hy2 := h1 y (List.mem_of_mem_filter ((pySorted_perm _).mem_iff.mp hy))
  rw [hxy] at hx2
  rw [hy2] at hx2
  injection hx2 with h5
  exact h5.symm

theorem flat_processSection (args : Args) (L : String) (today hour : Int) (pc : ProjCtx)
    (st : PassState) (ffp : Bool) (secRef : Option Int)
    (hpf : pc.header_all_in_p = false) (hpu : pc.unheader_all_in_p = false)
    (hpt : pc.project_type = some "sequential")
    (hreg : args.regeneration = none) (hend : args.end_hour = none)
    (hhf : args.hide_future ≤ 0)
    (hidn : IdsNodup st) (hamf : AllMarkerFree st) (hfp : FlatP args st)
    (hsid : (st.snap.sections.map (fun s => s.id)).Nodup)
    (hsmf : ∀ s ∈ st.snap.sections, markerFree s.name)
    (hstyp : ∀ s ∈ st.snap.sections, get_type_of_name args s.name = none)
    (hntyp : get_type_of_name args create_none_section.name = none)
    (hpii : pc.projectItemIds.Nodup) :
    stateCore (processSection args (some L) today hour pc (st, ffp) secRef).1 = stateCore st ∧
    (∀ j, (∀ u, lookupTask st j = some u → ¬ (u.section_id = secRef)) →
       getLabels (processSection args (some L) today hour pc (st, ffp) secRef).1 j =
         getLabels st j) ∧
    (ffp = true →
       (processSection args (some L) today hour pc (st, ffp) secRef).2 = true ∧
       (∀ j ls ls', getLabels st j = some ls →
          getLabels (processSection args (some L) today hour pc (st, ffp) secRef).1 j =
            some ls' → L ∈ ls' → L ∈ ls)) ∧
    (ffp = false → (secRef = none ∨ ∃ s ∈ st.snap.sections, s.id = secRef) →
       (∀ j u, lookupTask st j = some u → u.id ∈ pc.projectItemIds →
          u.section_id = secRef → eligibleChild st j = false) ∨
       ((processSection args (some L) today hour pc (st, ffp) secRef).2 = true ∧
        ∃ j u ls', lookupTask st j = some u ∧ u.section_id = secRef ∧
          getLabels (processSection args (some L) today hour pc (st, ffp) secRef).1 j =
            some ls' ∧ L ∈ ls')) := by
  rcases secRef with _ | sid
  · unfold processSection
    dsimp only
    rw [check_header_markerFree create_none_section.name (by decide)]
    dsimp only
    rw [hntyp, hpt]
    have hnodids := section_ids_nodup st pc.projectItemIds
      (fun x => decide (x.section_id = none)) hpii
    have hfi := flat_itemFold args L today hour
      { header_all_in_p := pc.header_all_in_p, unheader_all_in_p := pc.unheader_all_in_p
        header_all_in_s := false, unheader_all_in_s := false
        project_type := some "sequential", section_type := none }
      ((pySorted ((pc.projectItemIds.filterMap (fun i => lookupTask st i)).filter
          (fun x => x.section_id = none))).map (fun x => x.id))
      hpf rfl hpu rfl rfl rfl hreg hend hhf
      ((pySorted ((pc.projectItemIds.filterMap (fun i => lookupTask st i)).filter
          (fun x => x.section_id = none))).map (fun x => x.id))
      st false ffp hidn hamf hfp hnodids
    refine ⟨hfi.1, ?_, ?_, ?_⟩
    · intro j hnot
      refine hfi.2.1 j ?_
      intro hmem
      obtain ⟨x, hx, hxid⟩ := List.mem_map.mp hmem
      have hx2 := (pySorted_perm _).mem_iff.mp hx
      have hxf := List.of_mem_filter hx2
      simp only [decide_eq_true_eq] at hxf
      obtain ⟨i2, hi2, hlx⟩ := List.mem_filterMap.mp (List.mem_of_mem_filter hx2)
      have hid2 := lookupTask_id st i2 x hlx
      have hlj : lookupTask st j = some x := by
        rw [← hxid, hid2]
        exact hlx
      exact hnot x hlj hxf
    · intro hffp
      exact hfi.2.2.1 hffp
    · intro hffp hex
      rcases hfi.2.2.2 hffp with hno | hgain
      · left
        intro j u hlu hupii husec
        refine hno j ?_
        refine List.mem_map.mpr ⟨u, ?_, lookupTask_id st j u hlu⟩
        refine (pySorted_perm _).mem_iff.mpr ?_
        refine List.mem_filter.mpr ⟨?_, by simp [husec]⟩
        refine List.mem_filterMap.mpr ⟨u.id, hupii, ?_⟩
        rw [lookupTask_id st j u hlu]
        exact hlu
      · right
        obtain ⟨hff2, j, hjmem, ls', hgl, hmem⟩ := hgain
        obtain ⟨x, hx, hxid⟩ := List.mem_map.mp hjmem
        have hx2 := (pySorted_perm _).mem_iff.mp hx
        have hxf := List.of_mem_filter hx2
        simp only [decide_eq_true_eq] at hxf
        obtain ⟨i2, hi2, hlx⟩ := List.mem_filterMap.mp (List.mem_of_mem_filter hx2)
        have hid2 := lookupTask_id st i2 x hlx
        have hlj : lookupTask st j = some x := by
          rw [← hxid, hid2]
          exact hlx
        exact ⟨hff2, j, x, ls', hlj, hxf, hgl, hmem⟩
  · unfold processSection
    dsimp only
    rcases hhead : (st.snap.sections.filter (fun s => s.id = some sid)).head? with _ | sec
    · rw [hhead]
      refine ⟨rfl, fun j hnot => rfl, fun hffp => ⟨hffp, ?_⟩, ?_⟩
      · intro j ls ls' hls hls' hmem
        have hls2 : getLabels st j = some ls' := hls'
        rw [hls] at hls2
        injection hls2 with h2
        rw [← h2] at hmem
        exact hmem
      · intro hffp hex
        exfalso
        rcases hex with hex | ⟨s, hsm, hsv⟩
        · exact Option.noConfusion hex
        · have hmem : s ∈ st.snap.sections.filter (fun s => s.id = some sid) :=
            List.mem_filter.mpr ⟨hsm, by simp [hsv]⟩
          have hempty := List.head?_eq_none_iff.mp hhead
          rw [hempty] at hmem
          exact absurd hmem (List.not_mem_nil s)
    · have hsecmem : sec ∈ st.snap.sections ∧ sec.id = some sid := by
        have hx : sec ∈ st.snap.sections.filter (fun s => s.id = some sid) := by
          rcases hfl : st.snap.sections.filter (fun s => s.id = some sid) with _ | ⟨x, xs⟩
          · rw [hfl] at hhead
            cases hhead
          · rw [hfl] at hhead
            injection hhead with h2
            rw [hfl, ← h2]
            exact List.mem_cons_self x xs
        exact ⟨List.mem_of_mem_filter hx, by simpa using List.of_mem_filter hx⟩
      rw [hhead]
      dsimp only
      rw [check_header_markerFree sec.name (hsmf sec hsecmem.1)]
      dsimp only
      rw [updateSection_self st sid sec hhead hsid]
      rw [hstyp sec hsecmem.1, hpt]
      have hnodids := section_ids_nodup st pc.projectItemIds
        (fun x => decide (x.section_id = some sid)) hpii
      have hfi := flat_itemFold args L today hour
        { header_all_in_p := pc.header_all_in_p, unheader_all_in_p := pc.unheader_all_in_p
          header_all_in_s := false, unheader_all_in_s := false
          project_type := some "sequential", section_type := none }
        ((pySorted ((pc.projectItemIds.filterMap (fun i => lookupTask st i)).filter
            (fun x => x.section_id = some sid))).map (fun x => x.id))
        hpf rfl hpu rfl rfl rfl hreg hend hhf
        ((pySorted ((pc.projectItemIds.filterMap (fun i => lookupTask st i)).filter
            (fun x => x.section_id = some sid))).map (fun x => x.id))
        st false ffp hidn hamf hfp hnodids
      refine ⟨hfi.1, ?_, ?_, ?_⟩
      · intro j hnot
        refine hfi.2.1 j ?_
        intro hmem
        obtain ⟨x, hx, hxid⟩ := List.mem_map.mp hmem
        have hx2 := (pySorted_perm _).mem_iff.mp hx
        have hxf := List.of_mem_filter hx2
        simp only [decide_eq_true_eq] at hxf
        obtain ⟨i2, hi2, hlx⟩ := List.mem_filterMap.mp (List.mem_of_mem_filter hx2)
        have hid2 := lookupTask_id st i2 x hlx
        have hlj : lookupTask st j = some x := by
          rw [← hxid, hid2]
          exact hlx
        exact hnot x hlj hxf
      · intro hffp
        exact hfi.2.2.1 hffp
      · intro hffp hex
        rcases hfi.2.2.2 hffp with hno | hgain
        · left
          intro j u hlu hupii husec
          refine hno j ?_
          refine List.mem_map.mpr ⟨u, ?_, lookupTask_id st j u hlu⟩
          refine (pySorted_perm _).mem_iff.mpr ?_
          refine List.mem_filter.mpr ⟨?_, by simp [husec]⟩
          refine List.mem_filterMap.mpr ⟨u.id, hupii, ?_⟩
          rw [lookupTask_id st j u hlu]
          exact hlu
        · right
          obtain ⟨hff2, j, hjmem, ls', hgl, hmem⟩ := hgain
          obtain ⟨x, hx, hxid⟩ := List.mem_map.mp hjmem
          have hx2 := (pySorted_perm _).mem_iff.mp hx
          have hxf := List.of_mem_filter hx2
          simp only [decide_eq_true_eq] at hxf
          obtain ⟨i2, hi2, hlx⟩ := List.mem_filterMap.mp (List.mem_of_mem_filter hx2)
          have hid2 := lookupTask_id st i2 x hlx
          have hlj : lookupTask st j = some x := by
            rw [← hxid, hid2]
            exact hlx
          exact ⟨hff2, j, x, ls', hlj, hxf, hgl, hmem⟩


/-- Folding the remaining (real, non-synthetic) section references of a flat
snapshot with the project first-found flag already set preserves the
structural core, keeps the labels of every unsectioned item, and never adds
the label anywhere. -/
theorem flat_sectionFold_cruise (args : Args) (L : String) (today hour : Int) (pc : ProjCtx)
    (hpf : pc.header_all_in_p = false) (hpu : pc.unheader_all_in_p = false)
    (hpt : pc.project_type = some "sequential")
    (hreg : args.regeneration = none) (hend : args.end_hour = none)
    (hhf : args.hide_future ≤ 0) (hpii : pc.projectItemIds.Nodup)
    (hntyp : get_type_of_name args create_none_section.name = none) :
    ∀ (srl : List (Option Int)) (st : PassState),
      (∀ sr ∈ srl, sr ≠ none) →
      IdsNodup st → AllMarkerFree st → FlatP args st →
      (st.snap.sections.map (fun s => s.id)).Nodup →
      (∀ s ∈ st.snap.sections, markerFree s.name) →
      (∀ s ∈ st.snap.sections, get_type_of_name args s.name = none) →
      stateCore (srl.foldl (processSection args (some L) today hour pc) (st, true)).1 =
          stateCore st ∧
      (∀ j, (∀ u, lookupTask st j = some u → u.section_id = none) →
         getLabels (srl.foldl (processSection args (some L) today hour pc) (st, true)).1 j =
           getLabels st j) ∧
      (∀ j ls ls', getLabels st j = some ls →
         getLabels (srl.foldl (processSection args (some L) today hour pc) (st, true)).1 j =
           some ls' → L ∈ ls' → L ∈ ls) := by
  intro srl
  induction srl with
  | nil =>
    intro st hne hidn hamf hfp hsid hsmf hstyp
    refine ⟨rfl, fun j hj => rfl, ?_⟩
    intro j ls ls' hls hls' hmem
    have hls2 : getLabels st j = some ls' := hls'
    rw [hls] at hls2
    injection hls2 with h2
    rw [← h2] at hmem
    exact hmem
  | cons sr srl ih =>
    intro st hne hidn hamf hfp hsid hsmf hstyp
    obtain ⟨s1, s2, s3, s4⟩ := flat_processSection args L today hour pc st true sr
      hpf hpu hpt hreg hend hhf hidn hamf hfp hsid hsmf hstyp hntyp hpii
    have hp1 : (processSection args (some L) today hour pc (st, true) sr).2 = true :=
      (s3 rfl).1
    have hdrop1 := (s3 rfl).2
    have hpair : processSection args (some L) today hour pc (st, true) sr =
        ((processSection args (some L) today hour pc (st, true) sr).1, true) := by
      have h1 : processSection args (some L) today hour pc (st, true) sr =
          ((processSection args (some L) today hour pc (st, true) sr).1,
           (processSection args (some L) today hour pc (st, true) sr).2) := rfl
      rw [hp1] at h1
      exact h1
    have hfold : (sr :: srl).foldl (processSection args (some L) today hour pc) (st, true) =
        srl.foldl (processSection args (some L) today hour pc)
          ((processSection args (some L) today hour pc (st, true) sr).1, true) := by
      rw [List.foldl_cons, ← hpair]
    have hidn1 := idsNodup_of_stateCore st _ s1 hidn
    have hamf1 := amf_of_stateCore st _ s1 hamf
    have hfp1 := flatP_of_stateCore args st _ s1 hfp
    have hsecs := sections_of_stateCore st _ s1
    obtain ⟨a, b, c⟩ := ih (processSection args (some L) today hour pc (st, true) sr).1
      (fun x hx => hne x (List.mem_cons_of_mem sr hx)) hidn1 hamf1 hfp1
      (by rw [hsecs]; exact hsid) (by rw [hsecs]; exact hsmf) (by rw [hsecs]; exact hstyp)
    rw [hfold]
    refine ⟨a.trans s1, ?_, ?_⟩
    · intro j hj
      have hbp : ∀ u,
          lookupTask (processSection args (some L) today hour pc (st, true) sr).1 j = some u →
          u.section_id = none := by
        intro u hu
        obtain ⟨u0, hu0, -, -, -, -, hsec0, -⟩ := lookup_transfer _ st j u
          (Eq.symm (lookup_core_of_stateCore st _ s1 j)) hu
        rw [← hsec0]
        exact hj u0 hu0
      have hstep2 : getLabels (processSection args (some L) today hour pc (st, true) sr).1 j =
          getLabels st j :=
        s2 j (fun u hu h0 => (hne sr (List.mem_cons_self sr srl)) (h0.symm.trans (hj u hu)))
      rw [b j hbp]
      exact hstep2
    · intro j ls ls' hls hls' hmem
      rcases hl0 : lookupTask st j with _ | u0
      · have h0 : getLabels st j = none := by
          unfold getLabels
          rw [hl0]
          rfl
        rw [h0] at hls
        exact Option.noConfusion hls
      · obtain ⟨u1, hu1, -, -, -, -, -, -⟩ := lookup_transfer st _ j u0
          (lookup_core_of_stateCore st _ s1 j) hl0
        have hmid : getLabels (processSection args (some L) today hour pc (st, true) sr).1 j =
            some u1.labels := by
          unfold getLabels
          rw [hu1]
          rfl
        have hmem1 : L ∈ u1.labels := c j u1.labels ls' hmid hls' hmem
        exact hdrop1 j ls u1.labels hls hmid hmem1

/-- Claim C10.  In a sequential-typed project whose items and sections carry
no type of their own (a flat, marker-free, annotation-free snapshot with no
pre-existing next-action labels), if an eligible unsectioned root exists then
after the pass the single project-level label sits on an unsectioned item and
every sectioned item is unlabelled: the synthetic no-section is traversed
before every real section and the per-project first-found flag persists
across that boundary. -/
theorem c10_nosection_first (args : Args) (L : String) (today hour : Int)
    (snap : Snapshot) (p : Project)
    (hprojs : snap.projects = [p])
    (hptype : get_type_of_name args p.name = some "sequential")
    (hpmf : markerFree p.name)
    (hreg : args.regeneration = none) (hend : args.end_hour = none)
    (hhf : args.hide_future ≤ 0)
    (hidn : (snap.tasks.map (fun t => t.id)).Nodup)
    (hsid : (snap.sections.map (fun s => s.id)).Nodup)
    (hsnn : ∀ s ∈ snap.sections, s.id ≠ none)
    (hmft : ∀ t ∈ snap.tasks, markerFree t.content)
    (hmfs : ∀ s ∈ snap.sections, markerFree s.name)
    (hstyp : ∀ s ∈ snap.sections, get_type_of_name args s.name = none)
    (hntyp : get_type_of_name args create_none_section.name = none)
    (hflat : ∀ t ∈ snap.tasks, t.parent_id = none)
    (htyit : ∀ t ∈ snap.tasks, get_type_of_item args t = none)
    (hns1 : ∀ t ∈ snap.tasks, pyFind t.content "start=" = -1)
    (hns2 : ∀ t ∈ snap.tasks, pyFind t.content "start=due-" = -1)
    (hclean : ∀ t ∈ snap.tasks, L ∉ t.labels)
    (e : Item) (he : e ∈ snap.tasks) (hep : e.project_id = p.id)
    (hes : e.section_id = none) (hec : e.is_completed = false)
    (hestar : pyStarts e.content "*" = false) :
    (∃ j t, lookupTask (autodoist_magic args (some L) today hour snap) j = some t ∧
       t.section_id = none ∧ L ∈ t.labels) ∧
    (∀ j t, lookupTask (autodoist_magic args (some L) today hour snap) j = some t →
       t.section_id ≠ none → L ∉ t.labels) := by
  have hidn0 : IdsNodup (stInit snap) := hidn
  have hamf0 : AllMarkerFree (stInit snap) := fun j t hj => hmft t (lookupTask_mem _ j t hj)
  have hfp0 : FlatP args (stInit snap) := by
    intro j u hj
    have hu := lookupTask_mem _ j u hj
    exact ⟨hmft u hu, hflat u hu, htyit u hu, hns1 u hu, hns2 u hu⟩
  have hhead : ((stInit snap).snap.projects.filter (fun q => q.id = p.id)).head? = some p := by
    show (snap.projects.filter (fun q => q.id = p.id)).head? = some p
    rw [hprojs]
    simp
  have hpid0 : ((stInit snap).snap.projects.map (fun q => q.id)).Nodup := by
    show (snap.projects.map (fun q => q.id)).Nodup
    rw [hprojs]
    simp
  have hpii0 : ((snap.tasks.filter (fun t => t.project_id = p.id)).map
      (fun t => t.id)).Nodup :=
    hidn.sublist ((List.filter_sublist snap.tasks).map (fun t => t.id))
  have hpass : autodoist_magic args (some L) today hour snap =
      processProject args (some L) today hour (stInit snap) p.id := by
    unfold autodoist_magic stInit
    rw [hprojs]
    rfl
  have heq : processProject args (some L) today hour (stInit snap) p.id =
      ((none :: ((snap.sections.filter (fun s => s.project_id = p.id)).map
          (fun s => s.id))).foldl
        (processSection args (some L) today hour
          { header_all_in_p := false, unheader_all_in_p := false,
            project_type := some "sequential",
            projectItemIds := (snap.tasks.filter (fun t => t.project_id = p.id)).map
              (fun t => t.id) })
        (stInit snap, false)).1 := by
    unfold processProject
    rw [hhead]
    dsimp only
    rw [check_header_markerFree p.name hpmf]
    dsimp only
    rw [updateProject_self (stInit snap) p.id p hhead hpid0]
    dsimp only [stInit]
    rw [hptype]
  rw [hpass, heq]
  obtain ⟨s1, s2, s3, s4⟩ := flat_processSection args L today hour
    { header_all_in_p := false, unheader_all_in_p := false,
      project_type := some "sequential",
      projectItemIds := (snap.tasks.filter (fun t => t.project_id = p.id)).map
        (fun t => t.id) }
    (stInit snap) false none rfl rfl rfl hreg hend hhf hidn0 hamf0 hfp0 hsid hmfs hstyp
    hntyp hpii0
  rcases s4 rfl (Or.inl rfl) with hno | hgain
  · exfalso
    have hle : lookupTask (stInit snap) e.id = some e :=
      mem_id_eq_lookup (stInit snap) e.id e hidn0 he rfl
    have hepii : e.id ∈ ((snap.tasks.filter (fun t => t.project_id = p.id)).map
        (fun t => t.id)) :=
      List.mem_map.mpr ⟨e, List.mem_filter.mpr ⟨he, by simp [hep]⟩, rfl⟩
    have helig := hno e.id e hle hepii hes
    unfold eligibleChild at helig
    rw [hle] at helig
    dsimp only at helig
    rw [hestar, hec] at helig
    simp at helig
  · obtain ⟨hff2, j0, u0, ls0, hlu0, husec0, hgl0, hmem0⟩ := hgain
    have hpair : processSection args (some L) today hour
        { header_all_in_p := false, unheader_all_in_p := false,
          project_type := some "sequential",
          projectItemIds := (snap.tasks.filter (fun t => t.project_id = p.id)).map
            (fun t => t.id) }
        (stInit snap, false) none =
        ((processSection args (some L) today hour
          { header_all_in_p := false, unheader_all_in_p := false,
            project_type := some "sequential",
            projectItemIds := (snap.tasks.filter (fun t => t.project_id = p.id)).map
              (fun t => t.id) }
          (stInit snap, false) none).1, true) := by
      have h1 : processSection args (some L) today hour
          { header_all_in_p := false, unheader_all_in_p := false,
            project_type := some "sequential",
            projectItemIds := (snap.tasks.filter (fun t => t.project_id = p.id)).map
              (fun t => t.id) }
          (stInit snap, false) none =
          ((processSection args (some L) today hour
            { header_all_in_p := false, unheader_all_in_p := false,
              project_type := some "sequential",
              projectItemIds := (snap.tasks.filter (fun t => t.project_id = p.id)).map
                (fun t => t.id) }
            (stInit snap, false) none).1,
           (processSection args (some L) today hour
            { header_all_in_p := false, unheader_all_in_p := false,
              project_type := some "sequential",
              projectItemIds := (snap.tasks.filter (fun t => t.project_id = p.id)).map
                (fun t => t.id) }
            (stInit snap, false) none).2) := rfl
      rw [hff2] at h1
      exact h1
    have hsplit : ((none :: ((snap.sections.filter (fun s => s.project_id = p.id)).map
          (fun s => s.id))).foldl
        (processSection args (some L) today hour
          { header_all_in_p := false, unheader_all_in_p := false,
            project_type := some "sequential",
            projectItemIds := (snap.tasks.filter (fun t => t.project_id = p.id)).map
              (fun t => t.id) })
        (stInit snap, false)) =
        (((snap.sections.filter (fun s => s.project_id = p.id)).map (fun s => s.id)).foldl
        (processSection args (some L) today hour
          { header_all_in_p := false, unheader_all_in_p := false,
            project_type := some "sequential",
            projectItemIds := (snap.tasks.filter (fun t => t.project_id = p.id)).map
              (fun t => t.id) })
        ((processSection args (some L) today hour
          { header_all_in_p := false, unheader_all_in_p := false,
            project_type := some "sequential",
            projectItemIds := (snap.tasks.filter (fun t => t.project_id = p.id)).map
              (fun t => t.id) }
          (stInit snap, false) none).1, true)) := by
      rw [List.foldl_cons, ← hpair]
    rw [hsplit]
    have hidn1 := idsNodup_of_stateCore (stInit snap) _ s1 hidn0
    have hamf1 := amf_of_stateCore (stInit snap) _ s1 hamf0
    have hfp1 := flatP_of_stateCore args (stInit snap) _ s1 hfp0
    have hsecs1 := sections_of_stateCore (stInit snap) _ s1
    have hne1 : ∀ sr ∈ ((snap.sections.filter (fun s => s.project_id = p.id)).map
        (fun s => s.id)), sr ≠ none := by
      intro sr hsr
      obtain ⟨s0, hs0m, hs0v⟩ := List.mem_map.mp hsr
      rw [← hs0v]
      exact hsnn s0 (List.mem_of_mem_filter hs0m)
    obtain ⟨ca, cb, cc⟩ := flat_sectionFold_cruise args L today hour
      { header_all_in_p := false, unheader_all_in_p := false,
        project_type := some "sequential",
        projectItemIds := (snap.tasks.filter (fun t => t.project_id = p.id)).map
          (fun t => t.id) }
      rfl rfl rfl hreg hend hhf hpii0 hntyp
      ((snap.sections.filter (fun s => s.project_id = p.id)).map (fun s => s.id))
      (processSection args (some L) today hour
        { header_all_in_p := false, unheader_all_in_p := false,
          project_type := some "sequential",
          projectItemIds := (snap.tasks.filter (fun t => t.project_id = p.id)).map
            (fun t => t.id) }
        (stInit snap, false) none).1
      hne1 hidn1 hamf1 hfp1
      (by rw [hsecs1]; exact hsid) (by rw [hsecs1]; exact hmfs) (by rw [hsecs1]; exact hstyp)
    constructor
    · have hbp : ∀ u, lookupTask (processSection args (some L) today hour
          { header_all_in_p := false, unheader_all_in_p := false,
            project_type := some "sequential",
            projectItemIds := (snap.tasks.filter (fun t => t.project_id = p.id)).map
              (fun t => t.id) }
          (stInit snap, false) none).1 j0 = some u → u.section_id = none := by
        intro u hu
        obtain ⟨w, hw, -, -, -, -, hsecw, -⟩ := lookup_transfer _ (stInit snap) j0 u
          (Eq.symm (lookup_core_of_stateCore (stInit snap) _ s1 j0)) hu
        rw [hlu0] at hw
        injection hw with hew
        rw [← hsecw, ← hew]
        exact husec0
      have hfin : getLabels (((snap.sections.filter (fun s => s.project_id = p.id)).map
          (fun s => s.id)).foldl
          (processSection args (some L) today hour
            { header_all_in_p := false, unheader_all_in_p := false,
              project_type := some "sequential",
              projectItemIds := (snap.tasks.filter (fun t => t.project_id = p.id)).map
                (fun t => t.id) })
          ((processSection args (some L) today hour
            { header_all_in_p := false, unheader_all_in_p := false,
              project_type := some "sequential",
              projectItemIds := (snap.tasks.filter (fun t => t.project_id = p.id)).map
                (fun t => t.id) }
            (stInit snap, false) none).1, true)).1 j0 = some ls0 := by
        rw [cb j0 hbp]
        exact hgl0
      rcases hlf : lookupTask (((snap.sections.filter (fun s => s.project_id = p.id)).map
          (fun s => s.id)).foldl
          (processSection args (some L) today hour
            { header_all_in_p := false, unheader_all_in_p := false,
              project_type := some "sequential",
              projectItemIds := (snap.tasks.filter (fun t => t.project_id = p.id)).map
                (fun t => t.id) })
          ((processSection args (some L) today hour
            { header_all_in_p := false, unheader_all_in_p := false,
              project_type := some "sequential",
              projectItemIds := (snap.tasks.filter (fun t => t.project_id = p.id)).map
                (fun t => t.id) }
            (stInit snap, false) none).1, true)).1 j0 with _ | tf
      · exfalso
        have h0 : getLabels (((snap.sections.filter (fun s => s.project_id = p.id)).map
            (fun s => s.id)).foldl
            (processSection args (some L) today hour
              { header_all_in_p := false, unheader_all_in_p := false,
                project_type := some "sequential",
                projectItemIds := (snap.tasks.filter (fun t => t.project_id = p.id)).map
                  (fun t => t.id) })
            ((processSection args (some L) today hour
              { header_all_in_p := false, unheader_all_in_p := false,
                project_type := some "sequential",
                projectItemIds := (snap.tasks.filter (fun t => t.project_id = p.id)).map
                  (fun t => t.id) }
              (stInit snap, false) none).1, true)).1 j0 = none := by
          unfold getLabels
          rw [hlf]
          rfl
        rw [h0] at hfin
        exact Option.noConfusion hfin
      · refine ⟨j0, tf, hlf, ?_, ?_⟩
        · obtain ⟨w, hw, -, -, -, -, hsecw, -⟩ := lookup_transfer _ (stInit snap) j0 tf
            (Eq.symm (lookup_core_of_stateCore (stInit snap) _ (ca.trans s1) j0)) hlf
          rw [hlu0] at hw
          injection hw with hew
          rw [← hsecw, ← hew]
          exact husec0
        · have h1 : getLabels (((snap.sections.filter (fun s => s.project_id = p.id)).map
              (fun s => s.id)).foldl
              (processSection args (some L) today hour
                { header_all_in_p := false, unheader_all_in_p := false,
                  project_type := some "sequential",
                  projectItemIds := (snap.tasks.filter (fun t => t.project_id = p.id)).map
                    (fun t => t.id) })
              ((processSection args (some L) today hour
                { header_all_in_p := false, unheader_all_in_p := false,
                  project_type := some "sequential",
                  projectItemIds := (snap.tasks.filter (fun t => t.project_id = p.id)).map
                    (fun t => t.id) }
                (stInit snap, false) none).1, true)).1 j0 = some tf.labels := by
            unfold getLabels
            rw [hlf]
            rfl
          rw [h1] at hfin
          injection hfin with h2
          rw [h2]
          exact hmem0
    · intro j t hlf2 hsect hmem2
      obtain ⟨w0, hw0, -, -, -, -, hsecw0, -⟩ := lookup_transfer _ (stInit snap) j t
        (Eq.symm (lookup_core_of_stateCore (stInit snap) _ (ca.trans s1) j)) hlf2
      obtain ⟨w1, hw1, -, -, -, -, -, -⟩ := lookup_transfer (stInit snap) _ j w0
        (lookup_core_of_stateCore (stInit snap) _ s1 j) hw0
      have hmid : getLabels (processSection args (some L) today hour
          { header_all_in_p := false, unheader_all_in_p := false,
            project_type := some "sequential",
            projectItemIds := (snap.tasks.filter (fun t => t.project_id = p.id)).map
              (fun t => t.id) }
          (stInit snap, false) none).1 j = some w1.labels := by
        unfold getLabels
        rw [hw1]
        rfl
      have hfin2 : getLabels (((snap.sections.filter (fun s => s.project_id = p.id)).map
          (fun s => s.id)).foldl
          (processSection args (some L) today hour
            { header_all_in_p := false, unheader_all_in_p := false,
              project_type := some "sequential",
              projectItemIds := (snap.tasks.filter (fun t => t.project_id = p.id)).map
                (fun t => t.id) })
          ((processSection args (some L) today hour
            { header_all_in_p := false, unheader_all_in_p := false,
              project_type := some "sequential",
              projectItemIds := (snap.tasks.filter (fun t => t.project_id = p.id)).map
                (fun t => t.id) }
            (stInit snap, false) none).1, true)).1 j = some t.labels := by
        unfold getLabels
        rw [hlf2]
        rfl
      have hmemw1 : L ∈ w1.labels := cc j w1.labels t.labels hmid hfin2 hmem2
      have hs2p : ∀ u, lookupTask (stInit snap) j = some u → ¬ (u.section_id = none) := by
        intro u hu
        rw [hw0] at hu
        injection hu with heu
        rw [← heu, hsecw0]
        exact hsect
      have hunch : getLabels (processSection args (some L) today hour
          { header_all_in_p := false, unheader_all_in_p := false,
            project_type := some "sequential",
            projectItemIds := (snap.tasks.filter (fun t => t.project_id = p.id)).map
              (fun t => t.id) }
          (stInit snap, false) none).1 j = getLabels (stInit snap) j := s2 j hs2p
      have hw0lab : getLabels (stInit snap) j = some w0.labels := by
        unfold getLabels
        rw [hw0]
        rfl
      rw [hmid, hw0lab] at hunch
      injection hunch with h3
      rw [h3] at hmemw1
      exact hclean w0 (lookupTask_mem (stInit snap) j w0 hw0) hmemw1

/-- Claim C10, witness: on `snapC10x` the pass labels the unsectioned root
and leaves the sectioned root unlabelled. -/
theorem c10_nosection_first_witness :
    (∃ j t, lookupTask (autodoist_magic testArgs (some NA) 20000 12 snapC10x) j = some t ∧
       t.section_id = none ∧ NA ∈ t.labels) ∧
    (∀ j t, lookupTask (autodoist_magic testArgs (some NA) 20000 12 snapC10x) j = some t →
       t.section_id ≠ none → NA ∉ t.labels) :=
  c10_nosection_first testArgs NA 20000 12 snapC10x { id := 1, name := "P--" }
    rfl (by decide) (by decide) rfl rfl (by decide) (by decide) (by decide) (by decide)
    (by decide) (by decide) (by decide) (by decide) (by decide) (by decide) (by decide)
    (by decide) (by decide) (mkItem 10 none none 1 "A" 1 false [])
    (by decide) (by decide) (by decide) (by decide) (by decide)

/-! ## Core-congruence of the traversal order and a second-pass stability
lemma: the scan order, the eligibility of every item and the first-eligible
choice are all determined by the structural core, which a pass preserves. -/

theorem find_congr_mem : ∀ (l : List Int) (p q : Int → Bool),
    (∀ a ∈ l, p a = q a) → l.find? p = l.find? q := by
  intro l
  induction l with
  | nil => intro p q h; rfl
  | cons a l ih =>
    intro p q h
    have ha := h a (List.mem_cons_self a l)
    cases hqa : q a
    · rw [List.find?_cons_of_neg l (by rw [ha, hqa]; exact fun hcon => Bool.noConfusion hcon),
        List.find?_cons_of_neg l (by rw [hqa]; exact fun hcon => Bool.noConfusion hcon)]
      exact ih p q (fun b hb => h b (List.mem_cons_of_mem a hb))
    · rw [List.find?_cons_of_pos l (by rw [ha, hqa]), List.find?_cons_of_pos l hqa]

theorem keyLE_core (a a' b b' : Item) (ha : core7 a' = core7 a) (hb : core7 b' = core7 b) :
    keyLE a' b' = keyLE a b := by
  have hap : a'.parent_id = a.parent_id := congrArg (fun q => q.2.2.2.1) ha
  have hao : a'.order = a.order := congrArg (fun q => q.2.2.2.2.1) ha
  have hbp : b'.parent_id = b.parent_id := congrArg (fun q => q.2.2.2.1) hb
  have hbo : b'.order = b.order := congrArg (fun q => q.2.2.2.2.1) hb
  unfold keyLE
  rw [hap, hao, hbp, hbo]

theorem insertSorted_core (x x' : Item) (hx : core7 x' = core7 x) :
    ∀ (l l' : List Item), l'.map core7 = l.map core7 →
      (insertSorted x' l').map core7 = (insertSorted x l).map core7 := by
  intro l
  induction l with
  | nil =>
    intro l' h
    have h0 : l' = [] := List.map_eq_nil_iff.mp h
    rw [h0]
    show [core7 x'] = [core7 x]
    rw [hx]
  | cons y l ih =>
    intro l' h
    rcases l' with _ | ⟨y', l''⟩
    · simp only [List.map_nil, List.map_cons] at h
      exact List.noConfusion h
    · simp only [List.map_cons, List.cons.injEq] at h
      obtain ⟨hy, hrest⟩ := h
      show ((if keyLE y' x' then y' :: insertSorted x' l'' else x' :: y' :: l'').map core7) =
        ((if keyLE y x then y :: insertSorted x l else x :: y :: l).map core7)
      rw [keyLE_core y y' x x' hy hx]
      by_cases hk : keyLE y x = true
      · rw [if_pos hk, if_pos hk]
        simp only [List.map_cons]
        rw [hy, ih l'' hrest]
      · rw [if_neg hk, if_neg hk]
        simp only [List.map_cons]
        rw [hx, hy, hrest]

theorem pySorted_core : ∀ (l l' : List Item), l'.map core7 = l.map core7 →
    (pySorted l').map core7 = (pySorted l).map core7 := by
  have key : ∀ (l l' : List Item), l'.map core7 = l.map core7 →
      ∀ (acc acc' : List Item), acc'.map core7 = acc.map core7 →
      (l'.foldl (fun a x => insertSorted x a) acc').map core7 =
        (l.foldl (fun a x => insertSorted x a) acc).map core7 := by
    intro l
    induction l with
    | nil =>
      intro l' h acc acc' hacc
      have h0 : l' = [] := List.map_eq_nil_iff.mp h
      rw [h0]
      exact hacc
    | cons y l ih =>
      intro l' h acc acc' hacc
      rcases l' with _ | ⟨y', l''⟩
      · simp only [List.map_nil, List.map_cons] at h
        exact List.noConfusion h
      · simp only [List.map_cons, List.cons.injEq] at h
        obtain ⟨hy, hrest⟩ := h
        rw [List.foldl_cons, List.foldl_cons]
        exact ih l'' hrest _ _ (insertSorted_core y y' hy acc acc' hacc)
  intro l l' h
  exact key l l' h [] [] rfl

theorem filter_core_congr (p : Item → Bool) (hp : ∀ a b, core7 a = core7 b → p a = p b) :
    ∀ (l l' : List Item), l'.map core7 = l.map core7 →
      (l'.filter p).map core7 = (l.filter p).map core7 := by
  intro l
  induction l with
  | nil =>
    intro l' h
    rw [List.map_eq_nil_iff.mp h]
  | cons y l ih =>
    intro l' h
    rcases l' with _ | ⟨y', l''⟩
    · simp only [List.map_nil, List.map_cons] at h
      exact List.noConfusion h
    · simp only [List.map_cons, List.cons.injEq] at h
      obtain ⟨hy, hrest⟩ := h
      rw [List.filter_cons, List.filter_cons, hp y' y hy]
      by_cases hq : p y = true
      · rw [if_pos hq, if_pos hq]
        simp only [List.map_cons]
        rw [hy, ih l'' hrest]
      · rw [if_neg hq, if_neg hq]
        exact ih l'' hrest

theorem map_id_of_core : ∀ (l l' : List Item), l'.map core7 = l.map core7 →
    l'.map (fun x => x.id) = l.map (fun x => x.id) := by
  have h3 : ∀ (m : List Item), m.map (fun x => x.id) = (m.map core7).map (fun q => q.1) := by
    intro m
    rw [List.map_map]
    rfl
  intro l l' h
  rw [h3, h3, h]

theorem filterMap_lookup_core (st st' : PassState)
    (h : ∀ i, (lookupTask st' i).map core7 = (lookupTask st i).map core7) :
    ∀ (pii : List Int),
      (pii.filterMap (fun i => lookupTask st' i)).map core7 =
        (pii.filterMap (fun i => lookupTask st i)).map core7 := by
  intro pii
  induction pii with
  | nil => rfl
  | cons i l ih =>
    rw [List.filterMap_cons, List.filterMap_cons]
    have h2 := h i
    rcases hl : lookupTask st i with _ | u
    · rw [hl] at h2
      rcases hl' : lookupTask st' i with _ | u'
      · dsimp only
        exact ih
      · rw [hl'] at h2
        simp only [Option.map_some', Option.map_none'] at h2
        exact Option.noConfusion h2
    · rw [hl] at h2
      rcases hl' : lookupTask st' i with _ | u'
      · rw [hl'] at h2
        simp only [Option.map_some', Option.map_none'] at h2
        exact Option.noConfusion h2
      · rw [hl'] at h2
        simp only [Option.map_some'] at h2
        injection h2 with h3
        dsimp only
        simp only [List.map_cons]
        rw [h3, ih]

/-- Stability of a flat traversal: when every header-flagged item already
lacks the label and the first eligible item already holds it, the item fold
changes no label at all. -/
theorem flat_itemFold_stable (args : Args) (L : String) (today hour : Int) (ctx : ItemCtx)
    (ids : List Int)
    (hp : ctx.header_all_in_p = false) (hs : ctx.header_all_in_s = false)
    (hup : ctx.unheader_all_in_p = false) (hus : ctx.unheader_all_in_s = false)
    (hsect : ctx.section_type = none) (hproj : ctx.project_type = some "sequential")
    (hreg : args.regeneration = none) (hend : args.end_hour = none)
    (hhf : args.hide_future ≤ 0) :
    ∀ (l : List Int) (st : PassState) (ffs ffp : Bool),
      IdsNodup st → AllMarkerFree st → FlatP args st →
      (∀ j ∈ l, ∀ u, lookupTask st j = some u → u.is_completed = false →
         pyStarts u.content "*" = true → L ∉ u.labels) →
      (ffp = false → ∀ j, l.find? (eligibleChild st) = some j →
         ∀ u, lookupTask st j = some u → L ∈ u.labels) →
      ∀ j, getLabels (l.foldl (processItem args (some L) today hour ctx ids)
          (st, ffs, ffp)).1 j = getLabels st j := by
  intro l
  induction l with
  | nil => intro st ffs ffp hidn hamf hfp hstar hfirst j; rfl
  | cons i l ih =>
    intro st ffs ffp hidn hamf hfp hstar hfirst j
    rcases hli : lookupTask st i with _ | u
    · have helig_i : eligibleChild st i = false := by
        unfold eligibleChild
        rw [hli]
      rw [List.foldl_cons,
        processItem_noLookup args (some L) today hour ctx ids st ffs ffp i hli]
      refine ih st ffs ffp hidn hamf hfp
        (fun j2 hj2 => hstar j2 (List.mem_cons_of_mem i hj2)) ?_ j
      intro hffp j2 hfind
      refine hfirst hffp j2 ?_
      rw [List.find?_cons_of_neg l (by rw [helig_i]; exact fun hcon => Bool.noConfusion hcon)]
      exact hfind
    · obtain ⟨hmfu, hparu, htyu, hf1u, hf2u⟩ := hfp i u hli
      have hchar := flat_processItem args L today hour ctx ids st ffs ffp i u hli
        hp hs hup hus hsect hproj hreg hend hhf hmfu
        (fun j2 w hw => (hfp j2 w hw).2.1) htyu hf1u hf2u
      have hsc : stateCore (processItem args (some L) today hour ctx ids
          (st, ffs, ffp) i).1 = stateCore st :=
        stateCore_processItem args (some L) today hour ctx ids st ffs ffp i
          hp hs hup hus hreg hend hidn hamf
      have hidn1 := idsNodup_of_stateCore st _ hsc hidn
      have hamf1 := amf_of_stateCore st _ hsc hamf
      have hfp1 := flatP_of_stateCore args st _ hsc hfp
      cases helig : eligibleChild st i with
      | false =>
        have hlaball : ∀ j2, getLabels (processItem args (some L) today hour ctx ids
            (st, ffs, ffp) i).1 j2 = getLabels st j2 := by
          rcases hcomp : u.is_completed with _ | _
          · have hst2 : pyStarts u.content "*" = true := by
              unfold eligibleChild at helig
              rw [hli] at helig
              dsimp only at helig
              rw [hcomp] at helig
              simp at helig
              exact helig
            obtain ⟨hlabi, hlabo, -⟩ := hchar.2.1 hcomp hst2
            have hnm : L ∉ u.labels := hstar i (List.mem_cons_self i l) u hli hcomp hst2
            intro j2
            by_cases hji : j2 = i
            · subst hji
              rw [hlabi, List.erase_of_not_mem hnm]
              unfold getLabels
              rw [hli]
              rfl
            · exact hlabo j2 hji
          · obtain ⟨hlab, -⟩ := hchar.1 hcomp
            exact hlab
        have hflag : (processItem args (some L) today hour ctx ids (st, ffs, ffp) i).2 =
            (ffs, ffp) := by
          rcases hcomp : u.is_completed with _ | _
          · have hst2 : pyStarts u.content "*" = true := by
              unfold eligibleChild at helig
              rw [hli] at helig
              dsimp only at helig
              rw [hcomp] at helig
              simp at helig
              exact helig
            exact (hchar.2.1 hcomp hst2).2.2
          · exact (hchar.1 hcomp).2
        have hpair : processItem args (some L) today hour ctx ids (st, ffs, ffp) i =
            ((processItem args (some L) today hour ctx ids (st, ffs, ffp) i).1, ffs, ffp) := by
          have h1 : processItem args (some L) today hour ctx ids (st, ffs, ffp) i =
              ((processItem args (some L) today hour ctx ids (st, ffs, ffp) i).1,
               (processItem args (some L) today hour ctx ids (st, ffs, ffp) i).2) := rfl
          rw [hflag] at h1
          exact h1
        rw [List.foldl_cons, hpair]
        refine (ih _ ffs ffp hidn1 hamf1 hfp1 ?_ ?_ j).trans (hlaball j)
        · intro j2 hj2 w hw hwc hws
          obtain ⟨w0, hw0, hwcont, hwcomp, -, -, -, -⟩ := lookup_transfer _ st j2 w
            (Eq.symm (lookup_core_of_stateCore st _ hsc j2)) hw
          have h1 : getLabels (processItem args (some L) today hour ctx ids
              (st, ffs, ffp) i).1 j2 = some w.labels := by
            unfold getLabels
            rw [hw]
            rfl
          have h2 : getLabels st j2 = some w0.labels := by
            unfold getLabels
            rw [hw0]
            rfl
          rw [hlaball j2, h2] at h1
          injection h1 with h3
          rw [← h3]
          exact hstar j2 (List.mem_cons_of_mem i hj2) w0 hw0 (hwcomp.trans hwc)
            (by rw [hwcont]; exact hws)
        · intro hffp j2 hfind w hw
          have hcongr : ∀ a ∈ l, eligibleChild (processItem args (some L) today hour ctx ids
              (st, ffs, ffp) i).1 a = eligibleChild st a :=
            fun a ha => eligible_of_core st _ a (lookup_core_of_stateCore st _ hsc a)
          rw [find_congr_mem l _ _ hcongr] at hfind
          have hfind2 : (i :: l).find? (eligibleChild st) = some j2 := by
            rw [List.find?_cons_of_neg l
              (by rw [helig]; exact fun hcon => Bool.noConfusion hcon)]
            exact hfind
          obtain ⟨w0, hw0, -, -, -, -, -, -⟩ := lookup_transfer _ st j2 w
            (Eq.symm (lookup_core_of_stateCore st _ hsc j2)) hw
          have h1 : getLabels (processItem args (some L) today hour ctx ids
              (st, ffs, ffp) i).1 j2 = some w.labels := by
            unfold getLabels
            rw [hw]
            rfl
          have h2 : getLabels st j2 = some w0.labels := by
            unfold getLabels
            rw [hw0]
            rfl
          rw [hlaball j2, h2] at h1
          injection h1 with h3
          rw [← h3]
          exact hfirst hffp j2 hfind2 w0 hw0
      | true =>
        have hboth : pyStarts u.content "*" = false ∧ u.is_completed = false := by
          unfold eligibleChild at helig
          rw [hli] at helig
          dsimp only at helig
          simp at helig
          exact helig
        cases ffp
        · have hfind2 : (i :: l).find? (eligibleChild st) = some i :=
            List.find?_cons_of_pos l helig
          have hmem : L ∈ u.labels := hfirst rfl i hfind2 u hli
          obtain ⟨hlabi, hlabo, hf22⟩ := hchar.2.2.2 hboth.2 hboth.1 rfl
          have hlaball : ∀ j2, getLabels (processItem args (some L) today hour ctx ids
              (st, ffs, false) i).1 j2 = getLabels st j2 := by
            intro j2
            by_cases hji : j2 = i
            · subst hji
              rw [hlabi, if_pos hmem]
              unfold getLabels
              rw [hli]
              rfl
            · exact hlabo j2 hji
          have hpair : processItem args (some L) today hour ctx ids (st, ffs, false) i =
              ((processItem args (some L) today hour ctx ids (st, ffs, false) i).1,
               (processItem args (some L) today hour ctx ids (st, ffs, false) i).2.1,
               true) := by
            have h1 : processItem args (some L) today hour ctx ids (st, ffs, false) i =
                ((processItem args (some L) today hour ctx ids (st, ffs, false) i).1,
                 (processItem args (some L) today hour ctx ids (st, ffs, false) i).2.1,
                 (processItem args (some L) today hour ctx ids (st, ffs, false) i).2.2) := rfl
            rw [hf22] at h1
            exact h1
          rw [List.foldl_cons, hpair]
          refine (ih _ _ true hidn1 hamf1 hfp1 ?_
            (fun hcon => Bool.noConfusion hcon) j).trans (hlaball j)
          intro j2 hj2 w hw hwc hws
          obtain ⟨w0, hw0, hwcont, hwcomp, -, -, -, -⟩ := lookup_transfer _ st j2 w
            (Eq.symm (lookup_core_of_stateCore st _ hsc j2)) hw
          have h1 : getLabels (processItem args (some L) today hour ctx ids
              (st, ffs, false) i).1 j2 = some w.labels := by
            unfold getLabels
            rw [hw]
            rfl
          have h2 : getLabels st j2 = some w0.labels := by
            unfold getLabels
            rw [hw0]
            rfl
          rw [hlaball j2, h2] at h1
          injection h1 with h3
          rw [← h3]
          exact hstar j2 (List.mem_cons_of_mem i hj2) w0 hw0 (hwcomp.trans hwc)
            (by rw [hwcont]; exact hws)
        · obtain ⟨hlab, hf22⟩ := hchar.2.2.1 hboth.2 hboth.1 rfl
          have hpair : processItem args (some L) today hour ctx ids (st, ffs, true) i =
              ((processItem args (some L) today hour ctx ids (st, ffs, true) i).1,
               (processItem args (some L) today hour ctx ids (st, ffs, true) i).2.1,
               true) := by
            have h1 : processItem args (some L) today hour ctx ids (st, ffs, true) i =
                ((processItem args (some L) today hour ctx ids (st, ffs, true) i).1,
                 (processItem args (some L) today hour ctx ids (st, ffs, true) i).2.1,
                 (processItem args (some L) today hour ctx ids (st, ffs, true) i).2.2) := rfl
            rw [hf22] at h1
            exact h1
          rw [List.foldl_cons, hpair]
          refine (ih _ _ true hidn1 hamf1 hfp1 ?_
            (fun hcon => Bool.noConfusion hcon) j).trans (hlab j)
          intro j2 hj2 w hw hwc hws
          obtain ⟨w0, hw0, hwcont, hwcomp, -, -, -, -⟩ := lookup_transfer _ st j2 w
            (Eq.symm (lookup_core_of_stateCore st _ hsc j2)) hw
          have h1 : getLabels (processItem args (some L) today hour ctx ids
              (st, ffs, true) i).1 j2 = some w.labels := by
            unfold getLabels
            rw [hw]
            rfl
          have h2 : getLabels st j2 = some w0.labels := by
            unfold getLabels
            rw [hw0]
            rfl
          rw [hlab j2, h2] at h1
          injection h1 with h3
          rw [← h3]
          exact hstar j2 (List.mem_cons_of_mem i hj2) w0 hw0 (hwcomp.trans hwc)
            (by rw [hwcont]; exact hws)

/-- After one flat traversal with the project first-found flag clear, the
first eligible item of the scan order holds the label. -/
theorem flat_itemFold_first (args : Args) (L : String) (today hour : Int) (ctx : ItemCtx)
    (ids : List Int)
    (hp : ctx.header_all_in_p = false) (hs : ctx.header_all_in_s = false)
    (hup : ctx.unheader_all_in_p = false) (hus : ctx.unheader_all_in_s = false)
    (hsect : ctx.section_type = none) (hproj : ctx.project_type = some "sequential")
    (hreg : args.regeneration = none) (hend : args.end_hour = none)
    (hhf : args.hide_future ≤ 0) :
    ∀ (l : List Int) (st : PassState) (ffs : Bool),
      IdsNodup st → AllMarkerFree st → FlatP args st → l.Nodup →
      ∀ j, l.find? (eligibleChild st) = some j →
      ∃ ls', getLabels (l.foldl (processItem args (some L) today hour ctx ids)
          (st, ffs, false)).1 j = some ls' ∧ L ∈ ls' := by
  intro l
  induction l with
  | nil =>
    intro st ffs hidn hamf hfp hnodl j hfind
    exact Option.noConfusion hfind
  | cons i l ih =>
    intro st ffs hidn hamf hfp hnodl j hfind
    have hnodl2 : l.Nodup := (List.nodup_cons.mp hnodl).2
    have hinotl : i ∉ l := (List.nodup_cons.mp hnodl).1
    cases helig : eligibleChild st i with
    | true =>
      have hji : j = i := by
        rw [List.find?_cons_of_pos l helig] at hfind
        injection hfind with h2
        exact h2.symm
      subst hji
      have hu : ∃ u, lookupTask st j = some u ∧ u.is_completed = false ∧
          pyStarts u.content "*" = false := by
        unfold eligibleChild at helig
        rcases hli : lookupTask st j with _ | u
        · rw [hli] at helig
          exact Bool.noConfusion helig
        · rw [hli] at helig
          dsimp only at helig
          simp at helig
          exact ⟨u, rfl, helig.2, helig.1⟩
      obtain ⟨u, hli, hcomp, hst2⟩ := hu
      obtain ⟨hmfu, hparu, htyu, hf1u, hf2u⟩ := hfp j u hli
      have hchar := flat_processItem args L today hour ctx ids st ffs false j u hli
        hp hs hup hus hsect hproj hreg hend hhf hmfu
        (fun j2 w hw => (hfp j2 w hw).2.1) htyu hf1u hf2u
      obtain ⟨hlabi, hlabo, hf22⟩ := hchar.2.2.2 hcomp hst2 rfl
      have hsc := stateCore_processItem args (some L) today hour ctx ids st ffs false j
        hp hs hup hus hreg hend hidn hamf
      have hidn1 := idsNodup_of_stateCore st _ hsc hidn
      have hamf1 := amf_of_stateCore st _ hsc hamf
      have hfp1 := flatP_of_stateCore args st _ hsc hfp
      have hpair : processItem args (some L) today hour ctx ids (st, ffs, false) j =
          ((processItem args (some L) today hour ctx ids (st, ffs, false) j).1,
           (processItem args (some L) today hour ctx ids (st, ffs, false) j).2.1, true) := by
        have h1 : processItem args (some L) today hour ctx ids (st, ffs, false) j =
            ((processItem args (some L) today hour ctx ids (st, ffs, false) j).1,
             (processItem args (some L) today hour ctx ids (st, ffs, false) j).2.1,
             (processItem args (some L) today hour ctx ids (st, ffs, false) j).2.2) := rfl
        rw [hf22] at h1
        exact h1
      rw [List.foldl_cons, hpair]
      have hrest := (flat_itemFold args L today hour ctx ids hp hs hup hus hsect hproj
        hreg hend hhf l
        (processItem args (some L) today hour ctx ids (st, ffs, false) j).1
        (processItem args (some L) today hour ctx ids (st, ffs, false) j).2.1
        true hidn1 hamf1 hfp1 hnodl2).2.1 j hinotl
      refine ⟨if L ∈ u.labels then u.labels else u.labels ++ [L], ?_, ?_⟩
      · rw [hrest]
        exact hlabi
      · by_cases hm : L ∈ u.labels
        · rw [if_pos hm]
          exact hm
        · rw [if_neg hm]
          exact List.mem_append.mpr (Or.inr (List.mem_cons_self L []))
    | false =>
      have hfind2 : l.find? (eligibleChild st) = some j := by
        rw [List.find?_cons_of_neg l
          (by rw [helig]; exact fun hcon => Bool.noConfusion hcon)] at hfind
        exact hfind
      rcases hli : lookupTask st i with _ | u
      · rw [List.foldl_cons,
          processItem_noLookup args (some L) today hour ctx ids st ffs false i hli]
        exact ih st ffs hidn hamf hfp hnodl2 j hfind2
      · obtain ⟨hmfu, hparu, htyu, hf1u, hf2u⟩ := hfp i u hli
        have hchar := flat_processItem args L today hour ctx ids st ffs false i u hli
          hp hs hup hus hsect hproj hreg hend hhf hmfu
          (fun j2 w hw => (hfp j2 w hw).2.1) htyu hf1u hf2u
        have hflag : (processItem args (some L) today hour ctx ids (st, ffs, false) i).2 =
            (ffs, false) := by
          rcases hcomp : u.is_completed with _ | _
          · have hst2 : pyStarts u.content "*" = true := by
              unfold eligibleChild at helig
              rw [hli] at helig
              dsimp only at helig
              rw [hcomp] at helig
              simp at helig
              exact helig
            exact (hchar.2.1 hcomp hst2).2.2
          · exact (hchar.1 hcomp).2
        have hsc := stateCore_processItem args (some L) today hour ctx ids st ffs false i
          hp hs hup hus hreg hend hidn hamf
        have hidn1 := idsNodup_of_stateCore st _ hsc hidn
        have hamf1 := amf_of_stateCore st _ hsc hamf
        have hfp1 := flatP_of_stateCore args st _ hsc hfp
        have hpair : processItem args (some L) today hour ctx ids (st, ffs, false) i =
            ((processItem args (some L) today hour ctx ids (st, ffs, false) i).1,
             ffs, false) := by
          have h1 : processItem args (some L) today hour ctx ids (st, ffs, false) i =
              ((processItem args (some L) today hour ctx ids (st, ffs, false) i).1,
               (processItem args (some L) today hour ctx ids (st, ffs, false) i).2) := rfl
          rw [hflag] at h1
          exact h1
        rw [List.foldl_cons, hpair]
        have hcongr : ∀ a ∈ l, eligibleChild (processItem args (some L) today hour ctx ids
            (st, ffs, false) i).1 a = eligibleChild st a :=
          fun a ha => eligible_of_core st _ a (lookup_core_of_stateCore st _ hsc a)
        refine ih _ ffs hidn1 hamf1 hfp1 hnodl2 j ?_
        rw [find_congr_mem l _ _ hcongr]
        exact hfind2

set_option maxHeartbeats 2000000 in
/-- Claim C1, amended.  On a flat snapshot (every item parentless and
untyped, marker-free titles, no start annotations) of a single sequential
project with no sections, under regeneration and end-of-day off, hide-future
off and duplicate-free ids and label lists, the pass is idempotent on labels:
the second pass leaves every item's label set exactly as the first pass
produced it. -/
theorem c1_flat_idempotent (args : Args) (L : String) (today hour : Int)
    (snap : Snapshot) (p : Project)
    (hprojs : snap.projects = [p])
    (hptype : get_type_of_name args p.name = some "sequential")
    (hpmf : markerFree p.name)
    (hreg : args.regeneration = none) (hend : args.end_hour = none)
    (hhf : args.hide_future ≤ 0)
    (hidn : (snap.tasks.map (fun t => t.id)).Nodup)
    (hsections : snap.sections = [])
    (hntyp : get_type_of_name args create_none_section.name = none)
    (hmft : ∀ t ∈ snap.tasks, markerFree t.content)
    (hflat : ∀ t ∈ snap.tasks, t.parent_id = none)
    (htyit : ∀ t ∈ snap.tasks, get_type_of_item args t = none)
    (hns1 : ∀ t ∈ snap.tasks, pyFind t.content "start=" = -1)
    (hns2 : ∀ t ∈ snap.tasks, pyFind t.content "start=due-" = -1)
    (hnodlab : ∀ t ∈ snap.tasks, t.labels.Nodup) :
    ∀ j, getLabels (autodoist_magic args (some L) today hour
        (autodoist_magic args (some L) today hour snap).snap) j =
      getLabels (autodoist_magic args (some L) today hour snap) j := by
  have hidn0 : IdsNodup (stInit snap) := hidn
  have hamf0 : AllMarkerFree (stInit snap) := fun j t hj => hmft t (lookupTask_mem _ j t hj)
  have hfp0 : FlatP args (stInit snap) := by
    intro j u hj
    have hu := lookupTask_mem _ j u hj
    exact ⟨hmft u hu, hflat u hu, htyit u hu, hns1 u hu, hns2 u hu⟩
  have hnod0 : AllLabelsNodup (stInit snap) :=
    AllLabelsNodup_of_tasks _ (fun t ht => hnodlab t ht)
  have hsid0 : (((stInit snap).snap.sections).map (fun s => s.id)).Nodup := by
    show (snap.sections.map (fun s => s.id)).Nodup
    rw [hsections]
    simp
  have hsmf0 : ∀ s ∈ (stInit snap).snap.sections, markerFree s.name := by
    intro s hs
    have hs2 : s ∈ snap.sections := hs
    rw [hsections] at hs2
    exact absurd hs2 (List.not_mem_nil s)
  have hpid0 : ((stInit snap).snap.projects.map (fun q => q.id)).Nodup := by
    show (snap.projects.map (fun q => q.id)).Nodup
    rw [hprojs]
    simp
  have hpmf0 : ∀ q ∈ (stInit snap).snap.projects, markerFree q.name := by
    intro q hq
    have hq2 : q ∈ snap.projects := hq
    rw [hprojs] at hq2
    have hq3 := List.mem_singleton.mp hq2
    rw [hq3]
    exact hpmf
  have hpii1 : ((snap.tasks.filter (fun t => t.project_id = p.id)).map (fun t => t.id)).Nodup :=
    hidn.sublist ((List.filter_sublist snap.tasks).map (fun t => t.id))
  have hids1nod : ((pySorted ((((snap.tasks.filter (fun t => t.project_id = p.id)).map (fun t => t.id)).filterMap (fun i => lookupTask (stInit snap) i)).filter (fun x => x.section_id = none))).map (fun x => x.id)).Nodup :=
    section_ids_nodup (stInit snap) ((snap.tasks.filter (fun t => t.project_id = p.id)).map (fun t => t.id)) (fun x => decide (x.section_id = none)) hpii1
  have hpassG : ∀ S : Snapshot, S.projects = [p] →
      autodoist_magic args (some L) today hour S =
        processProject args (some L) today hour (stInit S) p.id := by
    intro S hS
    unfold autodoist_magic stInit
    rw [hS]
    rfl
  have heqG : ∀ S : Snapshot, S.projects = [p] → S.sections = [] →
      processProject args (some L) today hour (stInit S) p.id =
      (((pySorted ((((S.tasks.filter (fun t => t.project_id = p.id)).map (fun t => t.id)).filterMap (fun i => lookupTask (stInit S) i)).filter (fun x => x.section_id = none))).map (fun x => x.id)).foldl (processItem args (some L) today hour { header_all_in_p := false, unheader_all_in_p := false, header_all_in_s := false, unheader_all_in_s := false, project_type := some "sequential", section_type := none } ((pySorted ((((S.tasks.filter (fun t => t.project_id = p.id)).map (fun t => t.id)).filterMap (fun i => lookupTask (stInit S) i)).filter (fun x => x.section_id = none))).map (fun x => x.id)))
        (stInit S, false, false)).1 := by
    intro S hSp hSs
    have hheadS : ((stInit S).snap.projects.filter (fun q => q.id = p.id)).head? = some p := by
      show (S.projects.filter (fun q => q.id = p.id)).head? = some p
      rw [hSp]
      simp
    have hpidS : ((stInit S).snap.projects.map (fun q => q.id)).Nodup := by
      show (S.projects.map (fun q => q.id)).Nodup
      rw [hSp]
      simp
    unfold processProject
    rw [hheadS]
    dsimp only
    rw [check_header_markerFree p.name hpmf]
    dsimp only
    rw [updateProject_self (stInit S) p.id p hheadS hpidS]
    dsimp only [stInit]
    rw [hptype, hSs, List.filter_nil, List.map_nil, List.foldl_cons, List.foldl_nil]
    unfold processSection
    dsimp only
    rw [check_header_markerFree create_none_section.name (by decide)]
    dsimp only
    rw [hntyp]
  have hsc1 : stateCore (((pySorted ((((snap.tasks.filter (fun t => t.project_id = p.id)).map (fun t => t.id)).filterMap (fun i => lookupTask (stInit snap) i)).filter (fun x => x.section_id = none))).map (fun x => x.id)).foldl (processItem args (some L) today hour { header_all_in_p := false, unheader_all_in_p := false, header_all_in_s := false, unheader_all_in_s := false, project_type := some "sequential", section_type := none } ((pySorted ((((snap.tasks.filter (fun t => t.project_id = p.id)).map (fun t => t.id)).filterMap (fun i => lookupTask (stInit snap) i)).filter (fun x => x.section_id = none))).map (fun x => x.id))) (stInit snap, false, false)).1 = stateCore (stInit snap) := by
    refine (flat_itemFold args L today hour _ _ rfl rfl rfl rfl rfl rfl hreg hend hhf
      _ (stInit snap) false false hidn0 hamf0 hfp0 ?_).1
    exact hids1nod
  have hprojs2 : (autodoist_magic args (some L) today hour snap).snap.projects = [p] := by
    rw [hpassG snap hprojs, heqG snap hprojs hsections]
    rw [projects_of_stateCore (stInit snap) _ hsc1]
    show snap.projects = [p]
    exact hprojs
  have hsections2 : (autodoist_magic args (some L) today hour snap).snap.sections = [] := by
    rw [hpassG snap hprojs, heqG snap hprojs hsections]
    rw [sections_of_stateCore (stInit snap) _ hsc1]
    show snap.sections = []
    exact hsections
  have htasks2 : (autodoist_magic args (some L) today hour snap).snap.tasks.map core7 = snap.tasks.map core7 := by
    rw [hpassG snap hprojs, heqG snap hprojs hsections]
    have h2 := congrArg (fun q => q.2.2) hsc1
    exact h2
  have hscInit : stateCore (stInit (autodoist_magic args (some L) today hour snap).snap) = stateCore (stInit snap) := by
    show ((autodoist_magic args (some L) today hour snap).snap.projects, (autodoist_magic args (some L) today hour snap).snap.sections, (autodoist_magic args (some L) today hour snap).snap.tasks.map core7) =
      (snap.projects, snap.sections, snap.tasks.map core7)
    rw [hprojs2, hprojs, hsections2, hsections, htasks2]
  have hidn2 := idsNodup_of_stateCore (stInit snap) _ hscInit hidn0
  have hamf2 := amf_of_stateCore (stInit snap) _ hscInit hamf0
  have hfp2 := flatP_of_stateCore args (stInit snap) _ hscInit hfp0
  have hlookpair : ∀ i, (lookupTask (stInit (autodoist_magic args (some L) today hour snap).snap) i).map core7 =
      (lookupTask (stInit snap) i).map core7 := by
    intro i
    have h0 : lookupTask (stInit (autodoist_magic args (some L) today hour snap).snap) i = lookupTask (autodoist_magic args (some L) today hour snap) i := rfl
    rw [h0, hpassG snap hprojs, heqG snap hprojs hsections]
    exact lookup_core_of_stateCore (stInit snap) _ hsc1 i
  have hPII : (((autodoist_magic args (some L) today hour snap).snap.tasks.filter (fun t => t.project_id = p.id)).map (fun t => t.id)) = ((snap.tasks.filter (fun t => t.project_id = p.id)).map (fun t => t.id)) := by
    apply map_id_of_core
    exact filter_core_congr (fun t => decide (t.project_id = p.id))
      (fun a b hab => by
        have h1 : a.project_id = b.project_id := congrArg (fun q => q.2.1) hab
        dsimp only
        rw [h1]) snap.tasks (autodoist_magic args (some L) today hour snap).snap.tasks htasks2
  have hSEC : ((((snap.tasks.filter (fun t => t.project_id = p.id)).map (fun t => t.id)).filterMap (fun i => lookupTask (stInit (autodoist_magic args (some L) today hour snap).snap) i)).map core7) =
      ((((snap.tasks.filter (fun t => t.project_id = p.id)).map (fun t => t.id)).filterMap (fun i => lookupTask (stInit snap) i)).map core7) :=
    filterMap_lookup_core (stInit snap) (stInit (autodoist_magic args (some L) today hour snap).snap) hlookpair ((snap.tasks.filter (fun t => t.project_id = p.id)).map (fun t => t.id))
  have hIDS : ((pySorted (((((autodoist_magic args (some L) today hour snap).snap.tasks.filter (fun t => t.project_id = p.id)).map (fun t => t.id)).filterMap (fun i => lookupTask (stInit (autodoist_magic args (some L) today hour snap).snap) i)).filter (fun x => x.section_id = none))).map (fun x => x.id)) = ((pySorted ((((snap.tasks.filter (fun t => t.project_id = p.id)).map (fun t => t.id)).filterMap (fun i => lookupTask (stInit snap) i)).filter (fun x => x.section_id = none))).map (fun x => x.id)) := by
    rw [hPII]
    exact map_id_of_core _ _ (pySorted_core _ _ (filter_core_congr
      (fun x => decide (x.section_id = none))
      (fun a b hab => by
        have h1 : a.section_id = b.section_id := congrArg (fun q => q.2.2.1) hab
        dsimp only
        rw [h1]) _ _ hSEC))
  have hstar1 := star_processProject args L today hour (stInit snap) p.id hreg hend
    hidn0 hamf0 hnod0 hsid0 hsmf0 hpid0 hpmf0
  have HSTAR : ∀ j2 ∈ ((pySorted ((((snap.tasks.filter (fun t => t.project_id = p.id)).map (fun t => t.id)).filterMap (fun i => lookupTask (stInit snap) i)).filter (fun x => x.section_id = none))).map (fun x => x.id)), ∀ u, lookupTask (stInit (autodoist_magic args (some L) today hour snap).snap) j2 = some u →
      u.is_completed = false → pyStarts u.content "*" = true → L ∉ u.labels := by
    intro j2 hj2 u hu huc hus2
    obtain ⟨x, hx, hxid⟩ := List.mem_map.mp hj2
    have hx2 := (pySorted_perm _).mem_iff.mp hx
    have hxsec : x.section_id = none := by
      have h6 := List.of_mem_filter hx2
      simpa using h6
    obtain ⟨i2, hi2, hlx⟩ := List.mem_filterMap.mp (List.mem_of_mem_filter hx2)
    have hid2 := lookupTask_id (stInit snap) i2 x hlx
    have hlj2 : lookupTask (stInit snap) j2 = some x := by
      rw [← hxid, hid2]
      exact hlx
    have hxproj : x.project_id = p.id := by
      obtain ⟨t0, ht0, htid⟩ := List.mem_map.mp hi2
      have ht0m : t0 ∈ snap.tasks := List.mem_of_mem_filter ht0
      have ht0p : t0.project_id = p.id := by
        have h7 := List.of_mem_filter ht0
        simpa using h7
      have hlt0 : lookupTask (stInit snap) i2 = some t0 :=
        mem_id_eq_lookup (stInit snap) i2 t0 hidn0 ht0m htid
      have hlx2 := hlx
      rw [hlt0] at hlx2
      injection hlx2 with h4
      rw [← h4]
      exact ht0p
    have hcorej2 : (lookupTask (autodoist_magic args (some L) today hour snap) j2).map core7 =
        (lookupTask (stInit snap) j2).map core7 := by
      rw [hpassG snap hprojs, heqG snap hprojs hsections]
      exact lookup_core_of_stateCore (stInit snap) _ hsc1 j2
    have hu1 : lookupTask (autodoist_magic args (some L) today hour snap) j2 = some u := hu
    obtain ⟨u0, hu0, hcont0, hcomp0, -, -, -, -⟩ := lookup_transfer
      (autodoist_magic args (some L) today hour snap) (stInit snap) j2 u (Eq.symm hcorej2) hu1
    rw [hlj2] at hu0
    injection hu0 with h5
    have hest := hstar1.2.2.2 j2 x hlj2 hxproj
      (by rw [h5, hcont0]; exact hus2)
      (by rw [h5, hcomp0]; exact huc)
      ⟨p, by show p ∈ snap.projects; rw [hprojs]; exact List.mem_cons_self p [], rfl⟩
      (Or.inl hxsec)
    rw [hpassG snap hprojs] at hu1
    exact hest u hu1 hus2
  have HFIRST : (false : Bool) = false → ∀ j2,
      ((pySorted ((((snap.tasks.filter (fun t => t.project_id = p.id)).map (fun t => t.id)).filterMap (fun i => lookupTask (stInit snap) i)).filter (fun x => x.section_id = none))).map (fun x => x.id)).find? (eligibleChild (stInit (autodoist_magic args (some L) today hour snap).snap)) = some j2 →
      ∀ u, lookupTask (stInit (autodoist_magic args (some L) today hour snap).snap) j2 = some u → L ∈ u.labels := by
    intro hffp j2 hfind u hu
    have hcongr : ∀ a ∈ ((pySorted ((((snap.tasks.filter (fun t => t.project_id = p.id)).map (fun t => t.id)).filterMap (fun i => lookupTask (stInit snap) i)).filter (fun x => x.section_id = none))).map (fun x => x.id)), eligibleChild (stInit (autodoist_magic args (some L) today hour snap).snap) a = eligibleChild (stInit snap) a :=
      fun a ha => eligible_of_core (stInit snap) _ a
        (lookup_core_of_stateCore (stInit snap) _ hscInit a)
    rw [find_congr_mem ((pySorted ((((snap.tasks.filter (fun t => t.project_id = p.id)).map (fun t => t.id)).filterMap (fun i => lookupTask (stInit snap) i)).filter (fun x => x.section_id = none))).map (fun x => x.id)) _ _ hcongr] at hfind
    have h8 : ∃ ls2, getLabels (((pySorted ((((snap.tasks.filter (fun t => t.project_id = p.id)).map (fun t => t.id)).filterMap (fun i => lookupTask (stInit snap) i)).filter (fun x => x.section_id = none))).map (fun x => x.id)).foldl
        (processItem args (some L) today hour { header_all_in_p := false, unheader_all_in_p := false, header_all_in_s := false, unheader_all_in_s := false, project_type := some "sequential", section_type := none }
          ((pySorted ((((snap.tasks.filter (fun t => t.project_id = p.id)).map (fun t => t.id)).filterMap (fun i => lookupTask (stInit snap) i)).filter (fun x => x.section_id = none))).map (fun x => x.id))) (stInit snap, false, false)).1 j2 = some ls2 ∧ L ∈ ls2 := by
      refine flat_itemFold_first args L today hour _ _ rfl rfl rfl rfl rfl rfl
        hreg hend hhf _ (stInit snap) false hidn0 hamf0 hfp0 ?_ j2 ?_
      · exact hids1nod
      · exact hfind
    obtain ⟨ls1, hls1, hmem1⟩ := h8
    have hu1 : getLabels (autodoist_magic args (some L) today hour snap) j2 = some u.labels := by
      have h0 : getLabels (stInit (autodoist_magic args (some L) today hour snap).snap) j2 = getLabels (autodoist_magic args (some L) today hour snap) j2 := rfl
      rw [← h0]
      unfold getLabels
      rw [hu]
      rfl
    rw [hpassG snap hprojs, heqG snap hprojs hsections] at hu1
    rw [hls1] at hu1
    injection hu1 with h3
    rw [← h3]
    exact hmem1
  intro j
  rw [hpassG _ hprojs2, heqG _ hprojs2 hsections2, hIDS]
  have hlast : getLabels (stInit (autodoist_magic args (some L) today hour snap).snap) j = getLabels (autodoist_magic args (some L) today hour snap) j := rfl
  refine Eq.trans ?_ hlast
  refine flat_itemFold_stable args L today hour _ _ rfl rfl rfl rfl rfl rfl
    hreg hend hhf _ (stInit (autodoist_magic args (some L) today hour snap).snap) false false hidn2 hamf2 hfp2 ?_ ?_ j
  · exact HSTAR
  · exact HFIRST

/-- Claim C1, witness: on the flat sequential project `snapC1y` the second
pass reproduces the first pass's label mapping. -/
theorem c1_flat_idempotent_witness :
    getLabels (autodoist_magic testArgs (some NA) 20000 12
        (autodoist_magic testArgs (some NA) 20000 12 snapC1y).snap) 1 =
      getLabels (autodoist_magic testArgs (some NA) 20000 12 snapC1y) 1 ∧
    getLabels (autodoist_magic testArgs (some NA) 20000 12
        (autodoist_magic testArgs (some NA) 20000 12 snapC1y).snap) 2 =
      getLabels (autodoist_magic testArgs (some NA) 20000 12 snapC1y) 2 :=
  ⟨c1_flat_idempotent testArgs NA 20000 12 snapC1y { id := 1, name := "P--" }
    rfl (by decide) (by decide) rfl rfl (by decide) (by decide) rfl (by decide)
    (by decide) (by decide) (by decide) (by decide) (by decide) (by decide) 1,
   c1_flat_idempotent testArgs NA 20000 12 snapC1y { id := 1, name := "P--" }
    rfl (by decide) (by decide) rfl rfl (by decide) (by decide) rfl (by decide)
    (by decide) (by decide) (by decide) (by decide) (by decide) (by decide) 2⟩

end Autodoist
